import Mathlib

/-!
Verification of the cc-token analyzer core (package internal/analyzer and its
helpers) against its natural-language specification.

Shallow embedding conventions:
* A Go string is modelled as a list of Unicode code points (Lean Char).
  Byte positions are recovered with the UTF-8 size of each code point, so the
  byte offsets stored in issues agree with the Go code on valid UTF-8 input.
* Go int is modelled as Int (no arithmetic in the analyzer approaches 2^63).
* Go float64 is modelled as Rat; on every path evaluated by the theorems in
  this file the Go program only produces values on which binary64 arithmetic
  is exact (0, small integers, and guarded divisions), so the rational model
  agrees with the float one there.
* External collaborators (the tiktoken tokenizer, the x/text NFC and NFKC
  normalizers, the UTS 39 confusable skeleton) are parameters of the
  embedding; theorems quantify over them or instantiate them on inputs where
  their behaviour is forced (for example NFC and NFKC are the identity on
  ASCII).
* Iteration over a Go map has no specified order; detectors that enumerate a
  map receive the enumeration as an explicit parameter constrained to be a
  permutation of the insertion-ordered entry list.
-/

namespace CCToken

/-- A Go string: its sequence of Unicode code points. -/
abbrev GoStr := List Char

/-- Convert a Lean string literal to the Go string model. -/
def gs (s : String) : GoStr := s.data

/-- Number of bytes of the UTF-8 encoding of one code point. -/
def utf8Size (c : Char) : Nat :=
  if c.toNat < 0x80 then 1
  else if c.toNat < 0x800 then 2
  else if c.toNat < 0x10000 then 3
  else 4

/-- UTF-8 encoding of a Go string as a byte list. -/
def goBytes : GoStr → List Nat
  | [] => []
  | c :: rest =>
    let n := c.toNat
    (if n < 0x80 then [n]
     else if n < 0x800 then [0xC0 + n / 0x40, 0x80 + n % 0x40]
     else if n < 0x10000 then
       [0xE0 + n / 0x1000, 0x80 + n / 0x40 % 0x40, 0x80 + n % 0x40]
     else
       [0xF0 + n / 0x40000, 0x80 + n / 0x1000 % 0x40,
        0x80 + n / 0x40 % 0x40, 0x80 + n % 0x40]) ++ goBytes rest

/-- Byte length of a Go string (Go len(s)). -/
def goLen (s : GoStr) : Nat := (goBytes s).length

/-- The pairs (byte position, code point) produced by Go's for range over a
string. -/
def runesWithBytePos (s : GoStr) : List (Nat × Char) :=
  go 0 s
where
  go (pos : Nat) : GoStr → List (Nat × Char)
    | [] => []
    | c :: rest => (pos, c) :: go (pos + utf8Size c) rest

/-- Whitespace test of Go unicode.IsSpace (the Unicode White_Space property).
-/
def goIsSpace (c : Char) : Bool :=
  let n := c.toNat
  (0x09 ≤ n && n ≤ 0x0D) || n == 0x20 || n == 0x85 || n == 0xA0 ||
  n == 0x1680 || (0x2000 ≤ n && n ≤ 0x200A) || n == 0x2028 || n == 0x2029 ||
  n == 0x202F || n == 0x205F || n == 0x3000

/-- Go strings.TrimSpace. -/
def goTrimSpace (s : GoStr) : GoStr :=
  ((s.dropWhile goIsSpace).reverse.dropWhile goIsSpace).reverse

/-- Go strings.Split(s, newline): split on the newline character. -/
def goSplitLines (s : GoStr) : List GoStr :=
  go s [] where
  go : GoStr → GoStr → List GoStr
    | [], acc => [acc.reverse]
    | c :: rest, acc =>
      if c == '\n' then acc.reverse :: go rest [] else go rest (acc ++ [c])

/-- Substring (infix) test on lists. -/
def listIsInfix (sub : GoStr) : GoStr → Bool
  | [] => sub.isPrefixOf []
  | c :: rest => sub.isPrefixOf (c :: rest) || listIsInfix sub rest

/-- Go strings.Contains on the code-point model.  For valid UTF-8 input the
byte-level substring test of Go agrees with the code-point-level one because
UTF-8 is self-synchronizing. -/
def goContains (s sub : GoStr) : Bool := listIsInfix sub s

/-- Go strings.HasPrefix. -/
def goHasPrefix (s pre : GoStr) : Bool := pre.isPrefixOf s

/-- ASCII lowercasing; agrees with Go strings.ToLower on ASCII.  The analyzer
only ever compares the lowered text against ASCII keyword lists, and no
theorem below depends on the lowering of a non-ASCII code point, so the
Unicode case tables of the Go standard library are not modelled. -/
def goToLower (s : GoStr) : GoStr :=
  s.map fun c => if 'A' ≤ c && c ≤ 'Z' then Char.ofNat (c.toNat + 32) else c

/-- Word character of RE2's ASCII word boundary: [0-9A-Za-z_]. -/
def isWordChar (c : Char) : Bool :=
  ('0' ≤ c && c ≤ '9') || ('A' ≤ c && c ≤ 'Z') || ('a' ≤ c && c ≤ 'z') ||
  c == '_'

/-- ASCII digit test. -/
def isDigitChar (c : Char) : Bool := '0' ≤ c && c ≤ '9'

/-!
The regular expression of the number-formatting detector.

The Go source compiles the pattern backslash-b, backslash-d{4,}, backslash-b
and calls FindAllString.  Because the pattern is a single greedy digit run
bracketed by word boundaries, its matches are exactly the maximal runs of
ASCII digits of length at least 4 whose neighbouring characters (when
present) are not word characters: a boundary cannot fall between two digits,
so no match can start or stop inside a run, and a run glued to a letter,
digit or underscore on either side is rejected.  The scanner below computes
that set of matches directly.
-/

/-- FindAllString for the number pattern: maximal digit runs, length at least
4, with a non-word character (or the string edge) on both sides.
The first argument of the worker tracks whether the previous character was a
word character; fuel is the number of characters left to scan. -/
def numberFindAll (line : GoStr) : List GoStr :=
  go (line.length + 1) false line
where
  go : Nat → Bool → GoStr → List GoStr
    | 0, _, _ => []
    | _ + 1, _, [] => []
    | fuel + 1, prevWord, c :: rest =>
      if isDigitChar c then
        if prevWord then
          -- no boundary before the run: skip the whole run
          go fuel true (rest.dropWhile isDigitChar)
        else
          let run := c :: rest.takeWhile isDigitChar
          let rest2 := rest.dropWhile isDigitChar
          let boundaryAfter := match rest2 with
            | [] => true
            | d :: _ => !isWordChar d
          if run.length ≥ 4 && boundaryAfter then
            run :: go fuel true rest2
          else
            go fuel true rest2
      else
        go fuel (isWordChar c) rest

/-- Go addCommasToNumber: insert a comma before position i when i > 0 and
(len - i) mod 3 = 0 (the ReplaceAll of existing commas is a no-op on the
digit-only matches fed to it and is modelled by the filter). -/
def addCommasToNumber (numStr : GoStr) : GoStr :=
  let numStr := numStr.filter (· ≠ ',')
  if numStr.length ≤ 3 then numStr
  else
    (numStr.enum.map fun (i, digit) =>
      if i > 0 && (numStr.length - i) % 3 == 0 then [',', digit]
      else [digit]).flatten

/-- Go estimateNumberFormatTokenSave.  The byte length of the original match
is compared against 10 and 7. -/
def estimateNumberFormatTokenSave (original : GoStr) (_formatted : GoStr) :
    Int :=
  if goLen original > 10 then 2
  else if goLen original > 7 then 1
  else 0

/-- NumberFormatIssue record. -/
structure NumberFormatIssue where
  Number : GoStr
  IsFormatted : Bool
  LineNumber : Int
  LineContent : GoStr
  TokenCost : Int
  Suggestion : GoStr
  SaveEstimate : Int
  deriving DecidableEq, Repr

/-- Detect of NumberFormattingDetector: per line, every regex match without a
comma whose comma-grouped form differs yields one issue. -/
def numberFormattingDetect (lines : List GoStr) : List NumberFormatIssue :=
  (lines.enum.map fun (lineNum, line) =>
    (numberFindAll line).filterMap fun mtch =>
      if goContains mtch (gs ",") then none
      else
        let formatted := addCommasToNumber mtch
        if formatted ≠ mtch then
          some { Number := mtch
                 IsFormatted := false
                 LineNumber := (lineNum : Int) + 1
                 LineContent := line
                 TokenCost := ((mtch.map fun _ => 1).foldl (· + ·) 0 : Int)
                 Suggestion := formatted
                 SaveEstimate := estimateNumberFormatTokenSave mtch formatted }
        else none).flatten

/-- Claim C3, counterexample: on the line user1234567 the detector finds
nothing at all — the digits are glued to the letter r, so the leading word
boundary of the pattern fails and FindAllString returns no match. -/
theorem numberFormatting_user1234567_no_issue :
    numberFormattingDetect [gs "user1234567"] = [] := by decide

/-- Claim C3, amended: a standalone line 1234567 does produce an issue with
suggestion 1,234,567, but its SaveEstimate is 0, not 1: the estimate is 1
only for matches of byte length 8 to 10, and 2 above that. -/
theorem numberFormatting_standalone_1234567 :
    numberFormattingDetect [gs "1234567"] =
      [{ Number := gs "1234567"
         IsFormatted := false
         LineNumber := 1
         LineContent := gs "1234567"
         TokenCost := 7
         Suggestion := gs "1,234,567"
         SaveEstimate := 0 }] := by decide

/-!
BiDi control detector (detector_bidi.go).
-/

/-- Map of the nine bidirectional formatting controls (bidiControlCharMap). -/
def bidiControlCharMap (r : Char) : Option String :=
  if r.toNat == 0x202A then some "lre"
  else if r.toNat == 0x202B then some "rle"
  else if r.toNat == 0x202C then some "pdf"
  else if r.toNat == 0x202D then some "lro"
  else if r.toNat == 0x202E then some "rlo"
  else if r.toNat == 0x2066 then some "lri"
  else if r.toNat == 0x2067 then some "rli"
  else if r.toNat == 0x2068 then some "fsi"
  else if r.toNat == 0x2069 then some "pdi"
  else none

/-- Go extractContext: the byte window [pos-20, pos+20) of the line, clamped
to the string (the Nat subtraction models the Go clamp of a negative start).
The detectors pass either a byte offset or a rune index as pos, exactly as
the Go code does. -/
def extractContext (line : GoStr) (pos : Nat) : List Nat :=
  let b := goBytes line
  let start := pos - 20
  let stop := min (pos + 20) b.length
  (b.drop start).take (stop - start)

/-- Go detectTrojanSourcePattern: one pass sets hasLTR on LRE/LRO/LRI and
hasRTL on RLE/RLO/RLI and returns their conjunction; the single pass with two
flags computes exactly these two disjunctions. -/
def detectTrojanSourcePattern (line : GoStr) : Bool :=
  (line.any fun r =>
    r.toNat == 0x202A || r.toNat == 0x202D || r.toNat == 0x2066) &&
  (line.any fun r =>
    r.toNat == 0x202B || r.toNat == 0x202E || r.toNat == 0x2067)

/-- BiDiControlIssue record; Context holds the bytes of the Go context
substring. -/
structure BiDiControlIssue where
  ControlType : String
  LineNumber : Int
  Position : Int
  Context : List Nat
  Count : Int
  IsTrojanSource : Bool
  deriving DecidableEq, Repr

/-- tryMergeIssueByLineAndType for BiDi issues: find the first issue with the
same line number and control type and increment its Count; none when no
issue matches. -/
def tryMergeBidi (issues : List BiDiControlIssue) (ln : Int) (ct : String) :
    Option (List BiDiControlIssue) :=
  match issues with
  | [] => none
  | e :: rest =>
    if e.LineNumber == ln && e.ControlType == ct then
      some ({ e with Count := e.Count + 1 } :: rest)
    else
      (tryMergeBidi rest ln ct).map (e :: ·)

/-- Body of the BiDi Detect loop for one line (the Go code ranges over the
rune slice, so Position is a rune index). -/
def bidiDetectLine (line : GoStr) (lineNum : Nat)
    (issues0 : List BiDiControlIssue) : List BiDiControlIssue :=
  line.enum.foldl
    (fun issues (posr : Nat × Char) =>
      match bidiControlCharMap posr.2 with
      | none => issues
      | some controlType =>
        match tryMergeBidi issues ((lineNum : Int) + 1) controlType with
        | some merged => merged
        | none =>
          issues ++
            [{ ControlType := controlType
               LineNumber := (lineNum : Int) + 1
               Position := (posr.1 : Int)
               Context := extractContext line posr.1
               Count := 1
               IsTrojanSource := detectTrojanSourcePattern line }])
    issues0

/-- Detect of BiDiControlDetector: the issue list is reset and rebuilt from
the context lines. -/
def bidiDetect (lines : List GoStr) : List BiDiControlIssue :=
  lines.enum.foldl (fun issues (kl : Nat × GoStr) =>
    bidiDetectLine kl.2 kl.1 issues) []

/-- Fold invariant preservation helper. -/
theorem foldl_preserve {α σ : Type _} {P : σ → Prop} (f : σ → α → σ)
    (l : List α) (s : σ) (h0 : P s)
    (hstep : ∀ s a, a ∈ l → P s → P (f s a)) : P (l.foldl f s) := by
  induction l generalizing s with
  | nil => exact h0
  | cons a l ih =>
    exact ih (f s a) (hstep s a (List.mem_cons_self a l) h0)
      fun s b hb hp => hstep s b (List.mem_cons_of_mem a hb) hp

/-- Merging preserves line number and Trojan flag of every issue. -/
theorem tryMergeBidi_fields (issues : List BiDiControlIssue) (ln : Int)
    (ct : String) (out : List BiDiControlIssue)
    (h : tryMergeBidi issues ln ct = some out) :
    ∀ x ∈ out, ∃ y ∈ issues,
      x.LineNumber = y.LineNumber ∧ x.IsTrojanSource = y.IsTrojanSource := by
  induction issues generalizing out with
  | nil => simp [tryMergeBidi] at h
  | cons e rest ih =>
    rw [tryMergeBidi] at h
    by_cases hc : (e.LineNumber == ln && e.ControlType == ct) = true
    · rw [if_pos hc] at h
      cases Option.some.inj h
      intro x hx
      rcases List.mem_cons.mp hx with hx | hx
      · exact ⟨e, List.mem_cons_self _ _, by simp [hx]⟩
      · exact ⟨x, List.mem_cons_of_mem _ hx, rfl, rfl⟩
    · rw [if_neg hc] at h
      rcases Option.map_eq_some'.mp h with ⟨out2, hout2, rfl⟩
      intro x hx
      rcases List.mem_cons.mp hx with hx | hx
      · exact ⟨e, List.mem_cons_self _ _, by simp [hx]⟩
      · rcases ih out2 hout2 x hx with ⟨y, hy, h1, h2⟩
        exact ⟨y, List.mem_cons_of_mem _ hy, h1, h2⟩

/-- Invariant carried through the BiDi detection fold: every issue refers to
an already seen line and carries the Trojan flag of that very line. -/
def BidiInv (lines : List GoStr) (issues : List BiDiControlIssue) : Prop :=
  ∀ i ∈ issues, ∃ (k : Nat) (hk : k < lines.length),
    i.LineNumber = (k : Int) + 1 ∧
    i.IsTrojanSource = detectTrojanSourcePattern (lines.get ⟨k, hk⟩)

/-- One line of BiDi detection preserves the invariant. -/
theorem bidiDetectLine_inv (lines : List GoStr) (k : Nat)
    (hk : k < lines.length) (issues : List BiDiControlIssue)
    (h : BidiInv lines issues) :
    BidiInv lines (bidiDetectLine (lines.get ⟨k, hk⟩) k issues) := by
  unfold bidiDetectLine
  refine foldl_preserve _ _ _ h ?_
  intro s a _ hs
  cases hmap : bidiControlCharMap a.2 with
  | none => simpa [hmap] using hs
  | some ct =>
    simp only [hmap]
    cases hmerge : tryMergeBidi s ((k : Int) + 1) ct with
    | some merged =>
      simp only [hmerge]
      intro x hx
      rcases tryMergeBidi_fields s _ _ merged hmerge x hx with ⟨y, hy, h1, h2⟩
      rcases hs y hy with ⟨m, hm, hm1, hm2⟩
      exact ⟨m, hm, h1.trans hm1, h2.trans hm2⟩
    | none =>
      simp only [hmerge]
      intro x hx
      rcases List.mem_append.mp hx with hx | hx
      · exact hs x hx
      · rcases List.mem_singleton.mp hx with rfl
        exact ⟨k, hk, rfl, rfl⟩

/-- Claim C2: every BiDi issue produced by Detect belongs to some input line
and its IsTrojanSource flag is true exactly when that line contains at least
one of the LTR-forcing controls LRE (U+202A), LRO (U+202D), LRI (U+2066) and
at least one of the RTL-forcing controls RLE (U+202B), RLO (U+202E),
RLI (U+2067); in particular a line with controls from only one direction is
never flagged. -/
theorem bidi_isTrojanSource_iff (lines : List GoStr)
    (issue : BiDiControlIssue) (hmem : issue ∈ bidiDetect lines) :
    ∃ (k : Nat) (hk : k < lines.length),
      issue.LineNumber = (k : Int) + 1 ∧
      (issue.IsTrojanSource = true ↔
        ((∃ c ∈ lines.get ⟨k, hk⟩,
            c.toNat = 0x202A ∨ c.toNat = 0x202D ∨ c.toNat = 0x2066) ∧
         (∃ c ∈ lines.get ⟨k, hk⟩,
            c.toNat = 0x202B ∨ c.toNat = 0x202E ∨ c.toNat = 0x2067))) := by
  have hinv : BidiInv lines (bidiDetect lines) := by
    unfold bidiDetect
    have hgen : ∀ (start : List (Nat × GoStr)) (s : List BiDiControlIssue),
        (∀ p ∈ start, ∃ hp : p.1 < lines.length, p.2 = lines.get ⟨p.1, hp⟩) →
        BidiInv lines s →
        BidiInv lines (start.foldl (fun issues kl =>
          bidiDetectLine kl.2 kl.1 issues) s) := by
      intro start
      induction start with
      | nil => intro s _ hs; exact hs
      | cons p rest ih =>
        intro s hmem2 hs
        rcases hmem2 p (List.mem_cons_self _ _) with ⟨hp, hpe⟩
        refine ih _ (fun q hq => hmem2 q (List.mem_cons_of_mem _ hq)) ?_
        have := bidiDetectLine_inv lines p.1 hp s hs
        simpa [hpe] using this
    refine hgen lines.enum [] ?_ (by intro i hi; cases hi)
    intro p hp
    have h1 : p.1 < lines.length := by
      have := List.fst_lt_of_mem_enum hp
      simpa using this
    refine ⟨h1, ?_⟩
    have := List.mem_enum_iff_getElem?.mp hp
    simp only [List.getElem?_eq_getElem h1] at this
    simp [List.get_eq_getElem, ← Option.some_inj.mp this]
  rcases hinv issue hmem with ⟨k, hk, h1, h2⟩
  refine ⟨k, hk, h1, ?_⟩
  rw [h2]
  unfold detectTrojanSourcePattern
  rw [Bool.and_eq_true]
  constructor
  · rintro ⟨hl, hr⟩
    constructor
    · rcases List.any_eq_true.mp hl with ⟨c, hc, hcp⟩
      refine ⟨c, hc, ?_⟩
      simpa [or_assoc] using hcp
    · rcases List.any_eq_true.mp hr with ⟨c, hc, hcp⟩
      refine ⟨c, hc, ?_⟩
      simpa [or_assoc] using hcp
  · rintro ⟨⟨c1, hc1, hp1⟩, ⟨c2, hc2, hp2⟩⟩
    refine ⟨?_, ?_⟩
    · refine List.any_eq_true.mpr ⟨c1, hc1, ?_⟩
      simp only [Bool.or_eq_true, beq_iff_eq]
      tauto
    · refine List.any_eq_true.mpr ⟨c2, hc2, ?_⟩
      simp only [Bool.or_eq_true, beq_iff_eq]
      tauto

/-- Witness for claim C2 at the single line x LRE y RLE z: the lre issue is
present and the theorem yields its line and the Trojan characterization. -/
theorem bidi_isTrojanSource_iff_witness :
    ({ ControlType := "lre", LineNumber := 1, Position := 1
       Context := [120, 226, 128, 170, 121, 226, 128, 171, 122]
       Count := 1, IsTrojanSource := true } : BiDiControlIssue) ∈
      bidiDetect [gs "x‪y‫z"] ∧
    (∃ (k : Nat) (hk : k < [gs "x‪y‫z"].length),
      ({ ControlType := "lre", LineNumber := 1, Position := 1
         Context := [120, 226, 128, 170, 121, 226, 128, 171, 122]
         Count := 1, IsTrojanSource := true } : BiDiControlIssue).LineNumber
          = (k : Int) + 1 ∧
      (({ ControlType := "lre", LineNumber := 1, Position := 1
          Context := [120, 226, 128, 170, 121, 226, 128, 171, 122]
          Count := 1, IsTrojanSource := true } :
            BiDiControlIssue).IsTrojanSource = true ↔
        ((∃ c ∈ ([gs "x‪y‫z"] : List GoStr).get ⟨k, hk⟩,
            c.toNat = 0x202A ∨ c.toNat = 0x202D ∨ c.toNat = 0x2066) ∧
         (∃ c ∈ ([gs "x‪y‫z"] : List GoStr).get ⟨k, hk⟩,
            c.toNat = 0x202B ∨ c.toNat = 0x202E ∨ c.toNat = 0x2067)))) :=
  ⟨by decide, bidi_isTrojanSource_iff [gs "x‪y‫z"] _ (by decide)⟩

/-!
Invisible character detector (InvisibleCharDetector).
-/

/-- zeroWidthCharMap: zero-width and invisible code points and their type
names. -/
def zeroWidthCharMap (r : Char) : Option String :=
  if r.toNat == 0x200B then some "zwsp"
  else if r.toNat == 0x200C then some "zwnj"
  else if r.toNat == 0x200D then some "zwj"
  else if r.toNat == 0x200E then some "lrm"
  else if r.toNat == 0x200F then some "rlm"
  else if r.toNat == 0x061C then some "alm"
  else if r.toNat == 0x00AD then some "shy"
  else if r.toNat == 0xFEFF then some "bom"
  else if r.toNat == 0x2060 then some "wj"
  else none

/-- suspiciousPatternSet of detector_helpers.go; the Go code iterates the map
keys and returns whether any of them occurs in the lowered line, which is
independent of the iteration order. -/
def suspiciousPatterns : List GoStr :=
  [gs "system:", gs "prompt:", gs "instruction", gs "should:", gs "refuse",
   gs "reject", gs "don't", gs "never", gs "always", gs "bypass",
   gs "ignore", gs "override", gs "secret"]

/-- Go isLikelyEvasion: the position argument is unused by the Go code. -/
def isLikelyEvasion (line : GoStr) (_pos : Nat) : Bool :=
  suspiciousPatterns.any fun p => goContains (goToLower line) p

/-- InvisibleCharIssue record; Context holds bytes. -/
structure InvisibleCharIssue where
  CharType : String
  LineNumber : Int
  Position : Int
  Context : List Nat
  Count : Int
  IsEvasion : Bool
  deriving DecidableEq, Repr

/-- tryMergeInvisibleCharIssue: find the first issue with the same line
number and char type and increment its Count. -/
def tryMergeInvisible (issues : List InvisibleCharIssue) (ln : Int)
    (ct : String) : Option (List InvisibleCharIssue) :=
  match issues with
  | [] => none
  | e :: rest =>
    if e.LineNumber == ln && e.CharType == ct then
      some ({ e with Count := e.Count + 1 } :: rest)
    else
      (tryMergeInvisible rest ln ct).map (e :: ·)

/-- One step of the invisible-char Detect loop: one (byte position, rune)
pair of the line. -/
def newInvisibleIssue (line : GoStr) (lineNum : Nat) (charType : String)
    (pos : Nat) : InvisibleCharIssue :=
  { CharType := charType, LineNumber := (lineNum : Int) + 1,
    Position := (pos : Int), Context := extractContext line pos,
    Count := 1, IsEvasion := isLikelyEvasion line pos }

def invisibleStep (line : GoStr) (lineNum : Nat)
    (issues : List InvisibleCharIssue) (posr : Nat × Char) :
    List InvisibleCharIssue :=
  match zeroWidthCharMap posr.2 with
  | none => issues
  | some charType =>
    match tryMergeInvisible issues ((lineNum : Int) + 1) charType with
    | some merged => merged
    | none => issues ++ [newInvisibleIssue line lineNum charType posr.1]

/-- Body of the invisible-char Detect loop for one line (the Go code ranges
over the string, so Position is a byte offset). -/
def invisibleDetectLine (line : GoStr) (lineNum : Nat)
    (issues0 : List InvisibleCharIssue) : List InvisibleCharIssue :=
  (runesWithBytePos line).foldl (invisibleStep line lineNum) issues0

/-- Detect of InvisibleCharDetector. -/
def invisibleDetect (lines : List GoStr) : List InvisibleCharIssue :=
  lines.enum.foldl (fun issues (kl : Nat × GoStr) =>
    invisibleDetectLine kl.2 kl.1 issues) []

/-- Number of occurrences of invisible char type t on a line. -/
def occCount (line : GoStr) (t : String) : Nat :=
  ((runesWithBytePos line).filter fun pc =>
    zeroWidthCharMap pc.2 == some t).length

/-- Sum of the Count fields of the issues of char type t. -/
def sumCounts (issues : List InvisibleCharIssue) (t : String) : Int :=
  ((issues.filter fun i => i.CharType == t).map (·.Count)).sum

/-- Occurrences of type t in a rune list tail. -/
def occIn (rl : List (Nat × Char)) (t : String) : Nat :=
  (rl.filter fun pc => zeroWidthCharMap pc.2 == some t).length

/-- Specification of tryMergeInvisible: on none, no issue matches; on some,
exactly the first matching issue has its Count incremented. -/
theorem tryMergeInvisible_spec (issues : List InvisibleCharIssue) (ln : Int)
    (ct : String) :
    (tryMergeInvisible issues ln ct = none →
      ∀ e ∈ issues, ¬(e.LineNumber = ln ∧ e.CharType = ct)) ∧
    (∀ out, tryMergeInvisible issues ln ct = some out →
      ∃ A e B, issues = A ++ e :: B ∧ e.LineNumber = ln ∧ e.CharType = ct ∧
        (∀ a ∈ A, ¬(a.LineNumber = ln ∧ a.CharType = ct)) ∧
        out = A ++ { e with Count := e.Count + 1 } :: B) := by
  induction issues with
  | nil => exact ⟨fun _ e he => absurd he (List.not_mem_nil e),
      fun out h => by simp [tryMergeInvisible] at h⟩
  | cons e rest ih =>
    constructor
    · intro h x hx
      rw [tryMergeInvisible] at h
      by_cases hc : (e.LineNumber == ln && e.CharType == ct) = true
      · rw [if_pos hc] at h; cases h
      · rw [if_neg hc] at h
        rcases List.mem_cons.mp hx with rfl | hx
        · intro ⟨h1, h2⟩
          exact hc (by simp [h1, h2])
        · rcases Option.map_eq_none'.mp h with hnone
          exact ih.1 hnone x hx
    · intro out h
      rw [tryMergeInvisible] at h
      by_cases hc : (e.LineNumber == ln && e.CharType == ct) = true
      · rw [if_pos hc] at h
        cases Option.some.inj h
        rcases Bool.and_eq_true _ _ |>.mp hc with ⟨h1, h2⟩
        exact ⟨[], e, rest, rfl, by simpa using h1, by simpa using h2,
          fun a ha => absurd ha (List.not_mem_nil a), rfl⟩
      · rw [if_neg hc] at h
        rcases Option.map_eq_some'.mp h with ⟨out2, hout2, rfl⟩
        rcases ih.2 out2 hout2 with ⟨A, f, B, h1, h2, h3, h4, h5⟩
        refine ⟨e :: A, f, B, by rw [h1]; rfl, h2, h3, ?_, by rw [h5]; rfl⟩
        intro a ha
        rcases List.mem_cons.mp ha with rfl | ha
        · intro ⟨hx1, hx2⟩
          exact hc (by simp [hx1, hx2])
        · exact h4 a ha

/-- Merging skips a prefix that contains no matching issue. -/
theorem tryMergeInvisible_append (L M : List InvisibleCharIssue) (ln : Int)
    (ct : String) (hL : ∀ e ∈ L, ¬(e.LineNumber = ln ∧ e.CharType = ct)) :
    tryMergeInvisible (L ++ M) ln ct =
      (tryMergeInvisible M ln ct).map (L ++ ·) := by
  induction L with
  | nil => simp [Option.map_id']
  | cons e L ih =>
    have he : ¬(e.LineNumber = ln ∧ e.CharType = ct) :=
      hL e (List.mem_cons_self _ _)
    have hc : (e.LineNumber == ln && e.CharType == ct) = false := by
      rcases Bool.eq_false_or_eq_true (e.LineNumber == ln &&
        e.CharType == ct) with h | h
      · rcases Bool.and_eq_true _ _ |>.mp h with ⟨h1, h2⟩
        exact absurd ⟨by simpa using h1, by simpa using h2⟩ he
      · exact h
    rw [List.cons_append, tryMergeInvisible, hc]
    simp only [Bool.false_eq_true, if_false]
    rw [ih fun a ha => hL a (List.mem_cons_of_mem _ ha)]
    cases tryMergeInvisible M ln ct <;> rfl

/-- sumCounts distributes over append. -/
theorem sumCounts_append (X Y : List InvisibleCharIssue) (t : String) :
    sumCounts (X ++ Y) t = sumCounts X t + sumCounts Y t := by
  simp [sumCounts, List.filter_append]

/-- sumCounts of a cons cell. -/
theorem sumCounts_cons (i : InvisibleCharIssue) (M : List InvisibleCharIssue)
    (t : String) :
    sumCounts (i :: M) t =
      (if i.CharType == t then i.Count else 0) + sumCounts M t := by
  by_cases h : (i.CharType == t) = true <;> simp [sumCounts, List.filter_cons, h]

/-- sumCounts vanishes when no issue has the type. -/
theorem sumCounts_eq_zero (M : List InvisibleCharIssue) (t : String)
    (h : ∀ i ∈ M, i.CharType ≠ t) : sumCounts M t = 0 := by
  induction M with
  | nil => simp [sumCounts]
  | cons i M ih =>
    rw [sumCounts_cons, ih fun j hj => h j (List.mem_cons_of_mem _ hj)]
    have hi : (i.CharType == t) = false := by
      simpa using h i (List.mem_cons_self _ _)
    simp [hi]

/-- With pairwise distinct types, the total count of a type is the Count of
its unique issue. -/
theorem sumCounts_eq_of_nodup (M : List InvisibleCharIssue)
    (hnd : (M.map (·.CharType)).Nodup) (i : InvisibleCharIssue)
    (hi : i ∈ M) : sumCounts M i.CharType = i.Count := by
  induction M with
  | nil => cases hi
  | cons j M ih =>
    rcases List.mem_cons.mp hi with rfl | hi
    · have hnot : ∀ x ∈ M, x.CharType ≠ i.CharType := by
        intro x hx hxe
        exact (List.nodup_cons.mp hnd).1 (List.mem_map.mpr ⟨x, hx, hxe⟩)
      rw [sumCounts_cons, sumCounts_eq_zero M _ hnot]
      simp
    · have hne : (j.CharType == i.CharType) = false := by
        rcases Bool.eq_false_or_eq_true (j.CharType == i.CharType) with h | h
        · exact absurd
            (List.mem_map.mpr ⟨i, hi, (beq_iff_eq.mp h).symm⟩)
            (List.nodup_cons.mp hnd).1
        · exact h
      rw [sumCounts_cons, hne]
      simp only [Bool.false_eq_true, if_false, zero_add]
      exact ih (List.nodup_cons.mp hnd).2 hi

/-- One line of invisible-char detection: the prefix of foreign-line issues
is untouched, and the per-type totals grow by the occurrence counts of the
remaining rune list. -/
theorem invisibleStep_fold (k : Nat) (line : GoStr)
    (rl : List (Nat × Char)) (L M : List InvisibleCharIssue)
    (hL : ∀ e ∈ L, e.LineNumber ≠ (k : Int) + 1)
    (hM : ∀ i ∈ M, i.LineNumber = (k : Int) + 1)
    (hNd : (M.map (·.CharType)).Nodup) :
    ∃ M2,
      rl.foldl (invisibleStep line k) (L ++ M) = L ++ M2 ∧
      (∀ i ∈ M2, i.LineNumber = (k : Int) + 1) ∧
      ((M2.map (·.CharType)).Nodup) ∧
      (∀ t, sumCounts M2 t = sumCounts M t + (occIn rl t : Int)) := by
  induction rl generalizing M with
  | nil =>
    exact ⟨M, rfl, hM, hNd, fun t => by simp [occIn]⟩
  | cons p rest ih =>
    rw [List.foldl_cons]
    cases hmap : zeroWidthCharMap p.2 with
    | none =>
      have hstep : invisibleStep line k (L ++ M) p = L ++ M := by
        simp only [invisibleStep, hmap]
      rw [hstep]
      rcases ih M hM hNd with ⟨M2, h1, h2, h3, h4⟩
      refine ⟨M2, h1, h2, h3, fun t => ?_⟩
      rw [h4 t]
      have hone : occIn (p :: rest) t = occIn rest t := by
        unfold occIn
        rw [List.filter_cons]
        have hfa : (zeroWidthCharMap p.2 == some t) = false := by
          rw [hmap]; rfl
        simp [hfa]
      rw [hone]
    | some ct =>
      have hLm : ∀ e ∈ L, ¬(e.LineNumber = (k : Int) + 1 ∧ e.CharType = ct) :=
        fun e he hc => hL e he hc.1
      have happ := tryMergeInvisible_append L M ((k : Int) + 1) ct hLm
      have hocc : ∀ t, (occIn (p :: rest) t : Int) =
          (if ct == t then 1 else 0) + occIn rest t := by
        intro t
        unfold occIn
        rw [List.filter_cons]
        have hbeq : (zeroWidthCharMap p.2 == some t) = (ct == t) := by
          rw [hmap]
          cases hct : (ct == t) <;> simp [hct]
        by_cases h : (ct == t) = true <;>
          simp [hbeq, h] <;> push_cast <;> ring
      cases hmerge : tryMergeInvisible M ((k : Int) + 1) ct with
      | some M2 =>
        have hstep : invisibleStep line k (L ++ M) p = L ++ M2 := by
          simp only [invisibleStep, hmap, happ, hmerge, Option.map_some']
        rw [hstep]
        rcases (tryMergeInvisible_spec M ((k : Int) + 1) ct).2 M2 hmerge with
          ⟨A, e, B, hMeq, he1, he2, _, hM2eq⟩
        have hM2line : ∀ i ∈ M2, i.LineNumber = (k : Int) + 1 := by
          intro i hi
          rw [hM2eq] at hi
          rcases List.mem_append.mp hi with hi | hi
          · exact hM i (by rw [hMeq]; exact List.mem_append_left _ hi)
          · rcases List.mem_cons.mp hi with rfl | hi
            · exact he1
            · exact hM i (by
                rw [hMeq]
                exact List.mem_append_right _ (List.mem_cons_of_mem _ hi))
        have hM2nd : (M2.map (·.CharType)).Nodup := by
          have hmapeq : M2.map (·.CharType) = M.map (·.CharType) := by
            rw [hM2eq, hMeq]
            simp
          rw [hmapeq]; exact hNd
        rcases ih M2 hM2line hM2nd with ⟨M3, h1, h2, h3, h4⟩
        refine ⟨M3, h1, h2, h3, fun t => ?_⟩
        rw [h4 t, hocc t]
        have hsum : sumCounts M2 t = sumCounts M t +
            (if ct == t then 1 else 0) := by
          rw [hM2eq, hMeq, sumCounts_append, sumCounts_append,
            sumCounts_cons, sumCounts_cons]
          have hty : ({ e with Count := e.Count + 1 } :
              InvisibleCharIssue).CharType = e.CharType := rfl
          rw [hty, he2]
          by_cases h : (ct == t) = true <;> simp [h] <;> ring
        rw [hsum]
        ring
      | none =>
        have hfresh : ∀ i ∈ M, i.CharType ≠ ct := by
          intro i hi hct
          exact (tryMergeInvisible_spec M ((k : Int) + 1) ct).1 hmerge i hi
            ⟨hM i hi, hct⟩
        have hstep : invisibleStep line k (L ++ M) p =
            L ++ (M ++ [newInvisibleIssue line k ct p.1]) := by
          simp only [invisibleStep, hmap, happ, hmerge, Option.map_none']
          simp
        rw [hstep]
        have hM2line : ∀ i ∈ M ++ [newInvisibleIssue line k ct p.1],
            i.LineNumber = (k : Int) + 1 := by
          intro i hi
          rcases List.mem_append.mp hi with hi | hi
          · exact hM i hi
          · rcases List.mem_singleton.mp hi with rfl
            rfl
        have hM2nd : ((M ++ [newInvisibleIssue line k ct p.1]).map
            (·.CharType)).Nodup := by
          rw [List.map_append]
          refine List.Nodup.append hNd (by simp) ?_
          intro x hx hx2
          simp only [List.map_cons, List.map_nil, List.mem_singleton] at hx2
          rcases List.mem_map.mp hx with ⟨i, hi, rfl⟩
          exact hfresh i hi (by simpa [newInvisibleIssue] using hx2)
        rcases ih _ hM2line hM2nd with ⟨M3, h1, h2, h3, h4⟩
        refine ⟨M3, h1, h2, h3, fun t => ?_⟩
        rw [h4 t, hocc t, sumCounts_append, sumCounts_cons]
        have hty : (newInvisibleIssue line k ct p.1).CharType = ct := rfl
        have hcnt : (newInvisibleIssue line k ct p.1).Count = 1 := rfl
        rw [hty, hcnt]
        by_cases h : (ct == t) = true <;> simp [sumCounts, h] <;> ring

/-- Claim C6 invariant: issue keys are pairwise distinct and every Count is
the exact occurrence count of its character type on its line. -/
def InvisProps (lines : List GoStr) (issues : List InvisibleCharIssue) :
    Prop :=
  ((issues.map fun i => (i.LineNumber, i.CharType)).Nodup) ∧
  ∀ i ∈ issues, ∃ (k : Nat) (hk : k < lines.length),
    i.LineNumber = (k : Int) + 1 ∧
    i.Count = (occCount (lines.get ⟨k, hk⟩) i.CharType : Int)

/-- Distinct types yield distinct (line, type) keys. -/
theorem keys_nodup_of_types_nodup (M : List InvisibleCharIssue)
    (h : (M.map (·.CharType)).Nodup) :
    (M.map fun i => (i.LineNumber, i.CharType)).Nodup := by
  have : ((M.map fun i => (i.LineNumber, i.CharType)).map Prod.snd).Nodup := by
    rw [List.map_map]
    exact h
  exact this.of_map Prod.snd

/-- The outer fold of the invisible-char detector preserves the claim C6
properties over any tail of enumerated lines with fresh indices. -/
theorem invisible_fold_props (lines : List GoStr)
    (el : List (Nat × GoStr)) (issues : List InvisibleCharIssue)
    (helem : ∀ p ∈ el, ∃ hp : p.1 < lines.length, p.2 = lines.get ⟨p.1, hp⟩)
    (hnd : (el.map Prod.fst).Nodup)
    (hfresh : ∀ i ∈ issues, ∀ p ∈ el, i.LineNumber ≠ (p.1 : Int) + 1)
    (hinv : InvisProps lines issues) :
    InvisProps lines (el.foldl (fun iss kl =>
      invisibleDetectLine kl.2 kl.1 iss) issues) := by
  induction el generalizing issues with
  | nil => exact hinv
  | cons p rest ih =>
    rcases helem p (List.mem_cons_self _ _) with ⟨hp, hpe⟩
    have hL : ∀ e ∈ issues, e.LineNumber ≠ (p.1 : Int) + 1 :=
      fun e he => hfresh e he p (List.mem_cons_self _ _)
    rcases invisibleStep_fold p.1 p.2 (runesWithBytePos p.2) issues []
        hL (by intro i hi; cases hi) (by simp) with ⟨M2, h1, h2, h3, h4⟩
    rw [List.append_nil] at h1
    have hline : invisibleDetectLine p.2 p.1 issues = issues ++ M2 := h1
    rw [List.foldl_cons, hline]
    refine ih (issues ++ M2)
      (fun q hq => helem q (List.mem_cons_of_mem _ hq))
      (List.nodup_cons.mp hnd).2 ?_ ⟨?_, ?_⟩
    · intro i hi q hq
      rcases List.mem_append.mp hi with hi | hi
      · exact hfresh i hi q (List.mem_cons_of_mem _ hq)
      · rw [h2 i hi]
        intro hcon
        have hq1 : q.1 ≠ p.1 := by
          intro he
          exact (List.nodup_cons.mp hnd).1
            (by rw [← he]; exact List.mem_map_of_mem Prod.fst hq)
        have : (p.1 : Int) = q.1 := by omega
        exact hq1 (by exact_mod_cast this.symm)
    · rw [List.map_append]
      refine List.Nodup.append hinv.1 (keys_nodup_of_types_nodup M2 h3) ?_
      intro x hx hx2
      rcases List.mem_map.mp hx with ⟨i, hi, rfl⟩
      rcases List.mem_map.mp hx2 with ⟨j, hj, hkeyeq⟩
      have hLi : i.LineNumber ≠ (p.1 : Int) + 1 := hL i hi
      have hLj : j.LineNumber = (p.1 : Int) + 1 := h2 j hj
      have : j.LineNumber = i.LineNumber := congrArg Prod.fst hkeyeq
      rw [hLj] at this
      exact hLi this.symm
    · intro i hi
      rcases List.mem_append.mp hi with hi | hi
      · exact hinv.2 i hi
      · refine ⟨p.1, hp, h2 i hi, ?_⟩
        have hcnt := sumCounts_eq_of_nodup M2 h3 i hi
        have hc := h4 i.CharType
        have hz : sumCounts [] i.CharType = 0 := by simp [sumCounts]
        rw [hz, zero_add] at hc
        rw [← hpe]
        rw [← hcnt, hc]
        rfl

/-- Claim C6: after the invisible-character detector runs, the issue list
has at most one issue per (LineNumber, CharType) pair, and each issue's
Count equals the number of occurrences of that character type on its line.
-/
theorem invisible_unique_key_and_count (lines : List GoStr) :
    ((invisibleDetect lines).map fun i => (i.LineNumber, i.CharType)).Nodup ∧
    ∀ i ∈ invisibleDetect lines, ∃ (k : Nat) (hk : k < lines.length),
      i.LineNumber = (k : Int) + 1 ∧
      i.Count = (occCount (lines.get ⟨k, hk⟩) i.CharType : Int) := by
  have h := invisible_fold_props lines lines.enum [] ?_ ?_ ?_ ?_
  · exact h
  · intro q hq
    have h1 : q.1 < lines.length := by
      have := List.fst_lt_of_mem_enum hq
      simpa using this
    refine ⟨h1, ?_⟩
    have := List.mem_enum_iff_getElem?.mp hq
    simp only [List.getElem?_eq_getElem h1] at this
    simp [List.get_eq_getElem, ← Option.some_inj.mp this]
  · rw [List.enum_map_fst]
    exact List.nodup_range _
  · intro i hi; cases hi
  · exact ⟨by simp, by intro i hi; cases hi⟩

/-- Witness for claim C6 on the line a ZWSP b ZWSP ZWNJ c: the zwsp issue is
unique and carries Count 2. -/
theorem invisible_unique_key_and_count_witness :
    (({ CharType := "zwsp", LineNumber := 1, Position := 1
        Context := [97, 226, 128, 139, 98, 226, 128, 139, 226, 128, 140, 99]
        Count := 2, IsEvasion := false } : InvisibleCharIssue) ∈
      invisibleDetect [gs "a​b​‌c"]) ∧
    (∃ (k : Nat) (hk : k < ([gs "a​b​‌c"] : List GoStr).length),
      ({ CharType := "zwsp", LineNumber := 1, Position := 1
         Context := [97, 226, 128, 139, 98, 226, 128, 139, 226, 128, 140, 99]
         Count := 2, IsEvasion := false } :
           InvisibleCharIssue).LineNumber = (k : Int) + 1 ∧
      ({ CharType := "zwsp", LineNumber := 1, Position := 1
         Context := [97, 226, 128, 139, 98, 226, 128, 139, 226, 128, 140, 99]
         Count := 2, IsEvasion := false } : InvisibleCharIssue).Count =
        (occCount (([gs "a​b​‌c"] : List GoStr).get ⟨k, hk⟩)
          "zwsp" : Int)) :=
  ⟨by decide, (invisible_unique_key_and_count [gs "a​b​‌c"]).2 _ (by decide)⟩

/-!
Emoji detector (detector_emoji.go).
-/

/-- emojiRanges: Unicode ranges used for emoji detection. -/
def emojiRanges : List (Nat × Nat) :=
  [(0x1F600, 0x1F64F), (0x1F300, 0x1F5FF), (0x1F680, 0x1F6FF),
   (0x1F1E0, 0x1F1FF), (0x1F900, 0x1F9FF), (0x2600, 0x26FF),
   (0x2700, 0x27BF)]

/-- Go isEmoji. -/
def isEmoji (r : Char) : Bool :=
  emojiRanges.any fun p => p.1 ≤ r.toNat && r.toNat ≤ p.2

/-- Go estimateEmojiTokenCost. -/
def estimateEmojiTokenCost (emojiType : String) : Int :=
  if emojiType == "zwj_sequence" then 3
  else if emojiType == "skin_tone" then 2
  else if emojiType == "flag" then 2
  else 1

/-- Classification of one emoji occurrence: the type tests only run when a
following rune exists on the line (the Go i+1 < len(runes) guard is the
match on the optional next rune). -/
def emojiClassify (runes : List Char) (i : Nat) (r : Char) : String :=
  match runes.get? (i + 1) with
  | none => "standard"
  | some next =>
    if next.toNat == 0x200D then "zwj_sequence"
    else if 0x1F3FB ≤ r.toNat && r.toNat ≤ 0x1F3FF then "skin_tone"
    else if 0x1F1E0 ≤ r.toNat && r.toNat ≤ 0x1F1FF then "flag"
    else "standard"

/-- EmojiIssue record. -/
structure EmojiIssue where
  Emoji : GoStr
  EmojiType : String
  LineNumber : Int
  Count : Int
  LineContent : GoStr
  TokenCost : Int
  deriving DecidableEq, Repr

/-- tryMergeEmojiIssue plus the two mutations the Go caller performs on the
returned issue: Count increments and TokenCost grows by the cost of the new
occurrence. -/
def tryMergeEmoji (issues : List EmojiIssue) (ln : Int) (ty : String) :
    Option (List EmojiIssue) :=
  match issues with
  | [] => none
  | e :: rest =>
    if e.LineNumber == ln && e.EmojiType == ty then
      some ({ e with Count := e.Count + 1,
                     TokenCost := e.TokenCost +
                       estimateEmojiTokenCost ty } :: rest)
    else
      (tryMergeEmoji rest ln ty).map (e :: ·)

/-- One step of the emoji Detect loop. -/
def emojiStep (line : GoStr) (lineNum : Nat)
    (issues : List EmojiIssue) (ir : Nat × Char) : List EmojiIssue :=
  if isEmoji ir.2 then
    let emojiType := emojiClassify line ir.1 ir.2
    match tryMergeEmoji issues ((lineNum : Int) + 1) emojiType with
    | some merged => merged
    | none =>
      issues ++
        [{ Emoji := [ir.2], EmojiType := emojiType
           LineNumber := (lineNum : Int) + 1, Count := 1
           LineContent := line
           TokenCost := estimateEmojiTokenCost emojiType }]
  else issues

/-- Detect of EmojiDetector (the loop index over the rune slice is the
classification index). -/
def emojiDetect (lines : List GoStr) : List EmojiIssue :=
  lines.enum.foldl (fun issues (kl : Nat × GoStr) =>
    kl.2.enum.foldl (emojiStep kl.2 kl.1) issues) []

/-- Presence of an emoji issue key in a list. -/
def emojiKeyPresent (issues : List EmojiIssue) (ln : Int) (ty : String) :
    Prop :=
  ∃ i ∈ issues, i.LineNumber = ln ∧ i.EmojiType = ty

/-- Merging preserves the key fields of all issues. -/
theorem tryMergeEmoji_keys (issues : List EmojiIssue) (ln : Int)
    (ty : String) (out : List EmojiIssue)
    (h : tryMergeEmoji issues ln ty = some out) :
    ∀ y ∈ issues, ∃ x ∈ out,
      x.LineNumber = y.LineNumber ∧ x.EmojiType = y.EmojiType := by
  induction issues generalizing out with
  | nil => simp [tryMergeEmoji] at h
  | cons e rest ih =>
    rw [tryMergeEmoji] at h
    by_cases hc : (e.LineNumber == ln && e.EmojiType == ty) = true
    · rw [if_pos hc] at h
      cases Option.some.inj h
      intro y hy
      rcases List.mem_cons.mp hy with rfl | hy
      · exact ⟨_, List.mem_cons_self _ _, rfl, rfl⟩
      · exact ⟨y, List.mem_cons_of_mem _ hy, rfl, rfl⟩
    · rw [if_neg hc] at h
      rcases Option.map_eq_some'.mp h with ⟨out2, hout2, rfl⟩
      intro y hy
      rcases List.mem_cons.mp hy with rfl | hy
      · exact ⟨y, List.mem_cons_self _ _, rfl, rfl⟩
      · rcases ih out2 hout2 y hy with ⟨x, hx, h1, h2⟩
        exact ⟨x, List.mem_cons_of_mem _ hx, h1, h2⟩

/-- One emoji step preserves key presence. -/
theorem emojiStep_presence (line : GoStr) (k : Nat) (issues : List EmojiIssue)
    (ir : Nat × Char) (ln : Int) (ty : String)
    (h : emojiKeyPresent issues ln ty) :
    emojiKeyPresent (emojiStep line k issues ir) ln ty := by
  unfold emojiStep
  by_cases he : isEmoji ir.2 = true
  · simp only [he, if_true]
    cases hmerge : tryMergeEmoji issues ((k : Int) + 1)
        (emojiClassify line ir.1 ir.2) with
    | some merged =>
      rcases h with ⟨i, hi, h1, h2⟩
      rcases tryMergeEmoji_keys issues _ _ merged hmerge i hi with
        ⟨x, hx, hx1, hx2⟩
      exact ⟨x, hx, hx1.trans h1, hx2.trans h2⟩
    | none =>
      rcases h with ⟨i, hi, h1, h2⟩
      exact ⟨i, List.mem_append_left _ hi, h1, h2⟩
  · simp only [he]
    simpa using h

/-- A fold of emoji steps preserves key presence. -/
theorem emojiStep_fold_presence (line : GoStr) (k : Nat)
    (rl : List (Nat × Char)) (issues : List EmojiIssue) (ln : Int)
    (ty : String) (h : emojiKeyPresent issues ln ty) :
    emojiKeyPresent (rl.foldl (emojiStep line k) issues) ln ty := by
  induction rl generalizing issues with
  | nil => exact h
  | cons p rest ih =>
    rw [List.foldl_cons]
    exact ih _ (emojiStep_presence line k issues p ln ty h)

/-- The outer line fold preserves key presence. -/
theorem emojiDetect_fold_presence (el : List (Nat × GoStr))
    (issues : List EmojiIssue) (ln : Int) (ty : String)
    (h : emojiKeyPresent issues ln ty) :
    emojiKeyPresent (el.foldl (fun iss kl =>
      kl.2.enum.foldl (emojiStep kl.2 kl.1) iss) issues) ln ty := by
  induction el generalizing issues with
  | nil => exact h
  | cons p rest ih =>
    rw [List.foldl_cons]
    exact ih _ (emojiStep_fold_presence p.2 p.1 p.2.enum issues ln ty h)

/-- Processing the final rune of a line leaves an issue with the standard
type present when that rune is an emoji. -/
theorem emojiStep_last (line : GoStr) (k : Nat) (issues : List EmojiIssue)
    (pre : List Char) (r : Char) (hline : line = pre ++ [r])
    (he : isEmoji r = true) :
    emojiKeyPresent (emojiStep line k issues (pre.length, r))
      ((k : Int) + 1) "standard" := by
  have hclass : emojiClassify line pre.length r = "standard" := by
    unfold emojiClassify
    have : line.get? (pre.length + 1) = none := by
      refine List.get?_eq_none.mpr ?_
      rw [hline]
      simp
    rw [this]
  simp only [emojiStep, he, if_true, hclass]
  cases hmerge : tryMergeEmoji issues ((k : Int) + 1) "standard" with
  | some merged =>
    -- a standard issue already existed on this line and is preserved
    rcases (by
      induction issues generalizing merged with
      | nil => simp [tryMergeEmoji] at hmerge
      | cons e rest ih =>
        rw [tryMergeEmoji] at hmerge
        by_cases hc : (e.LineNumber == ((k : Int) + 1) &&
            e.EmojiType == "standard") = true
        · rw [if_pos hc] at hmerge
          cases Option.some.inj hmerge
          rcases Bool.and_eq_true _ _ |>.mp hc with ⟨h1, h2⟩
          exact ⟨{ e with Count := e.Count + 1,
                          TokenCost := e.TokenCost +
                            estimateEmojiTokenCost "standard" },
            List.mem_cons_self _ _, by simpa using h1, by simpa using h2⟩
        · rw [if_neg hc] at hmerge
          rcases Option.map_eq_some'.mp hmerge with ⟨out2, hout2, rfl⟩
          rcases ih out2 hout2 with ⟨x, hx, h1, h2⟩
          exact ⟨x, List.mem_cons_of_mem _ hx, h1, h2⟩ :
        emojiKeyPresent merged ((k : Int) + 1) "standard") with ⟨x, hx, h1, h2⟩
    exact ⟨x, hx, h1, h2⟩
  | none =>
    refine ⟨_, List.mem_append_right _ (List.mem_singleton.mpr rfl), rfl, rfl⟩

/-- Presence of a standard-type issue for every enumerated line that ends in
an emoji rune. -/
theorem emojiDetect_present_of_line (el : List (Nat × GoStr))
    (issues : List EmojiIssue) (k : Nat) (line : GoStr) (pre : List Char)
    (r : Char) (hmem : (k, line) ∈ el) (hline : line = pre ++ [r])
    (he : isEmoji r = true) :
    emojiKeyPresent (el.foldl (fun iss kl =>
      kl.2.enum.foldl (emojiStep kl.2 kl.1) iss) issues)
      ((k : Int) + 1) "standard" := by
  induction el generalizing issues with
  | nil => cases hmem
  | cons p rest ih =>
    rw [List.foldl_cons]
    rcases List.mem_cons.mp hmem with heq | hmem2
    · cases heq
      have henum : line.enum = pre.enum ++ [(pre.length, r)] := by
        rw [hline, List.enum_append]
        rfl
      have hfold : line.enum.foldl (emojiStep line k) issues =
          emojiStep line k (pre.enum.foldl (emojiStep line k) issues)
            (pre.length, r) := by
        rw [henum, List.foldl_append, List.foldl_cons, List.foldl_nil]
      have hpres := emojiStep_last line k
        (pre.enum.foldl (emojiStep line k) issues) pre r hline he
      rw [← hfold] at hpres
      exact emojiDetect_fold_presence rest _ _ _ hpres
    · exact ih _ hmem2

/-- Claim C9: when the final rune of a line is an emoji, the detector
classifies that occurrence as EmojiType standard with token cost 1 — the
type tests (ZWJ, skin tone U+1F3FB..U+1F3FF, flag U+1F1E0..U+1F1FF) are only
performed when a following rune exists — and the detector output contains a
standard-type issue for that line.  Both special ranges are inside
emojiRanges, so the claim covers them. -/
theorem emoji_last_rune_standard (lines : List GoStr) (k : Nat)
    (hk : k < lines.length) (pre : List Char) (r : Char)
    (hline : lines.get ⟨k, hk⟩ = pre ++ [r]) (he : isEmoji r = true) :
    emojiClassify (lines.get ⟨k, hk⟩) pre.length r = "standard" ∧
    estimateEmojiTokenCost "standard" = 1 ∧
    emojiKeyPresent (emojiDetect lines) ((k : Int) + 1) "standard" ∧
    (∀ c : Char, 0x1F1E0 ≤ c.toNat → c.toNat ≤ 0x1F1FF →
      isEmoji c = true) ∧
    (∀ c : Char, 0x1F3FB ≤ c.toNat → c.toNat ≤ 0x1F3FF →
      isEmoji c = true) := by
  refine ⟨?_, rfl, ?_, ?_, ?_⟩
  · unfold emojiClassify
    have hnone : (lines.get ⟨k, hk⟩).get? (pre.length + 1) = none := by
      refine List.get?_eq_none.mpr ?_
      rw [hline]
      simp
    rw [hnone]
  · have hmem : (k, lines.get ⟨k, hk⟩) ∈ lines.enum := by
      refine List.mem_enum_iff_getElem?.mpr ?_
      simp [List.getElem?_eq_getElem hk, List.get_eq_getElem]
    exact emojiDetect_present_of_line lines.enum [] k _ pre r hmem hline he
  · intro c h1 h2
    unfold isEmoji emojiRanges
    simp only [List.any_cons, List.any_nil, Bool.or_eq_true]
    refine Or.inr (Or.inr (Or.inr (Or.inl ?_)))
    simp only [Bool.and_eq_true, decide_eq_true_eq]
    omega
  · intro c h1 h2
    unfold isEmoji emojiRanges
    simp only [List.any_cons, List.any_nil, Bool.or_eq_true]
    refine Or.inr (Or.inl ?_)
    simp only [Bool.and_eq_true, decide_eq_true_eq]
    omega

/-- Witness for claim C9 on the line ok followed by the regional indicator
U+1F1E6 (flag range) as final rune. -/
theorem emoji_last_rune_standard_witness :
    (([gs "ok🇦"] : List GoStr).get ⟨0, by decide⟩ =
      gs "ok" ++ [Char.ofNat 0x1F1E6]) ∧
    isEmoji (Char.ofNat 0x1F1E6) = true ∧
    (0x1F1E0 ≤ (Char.ofNat 0x1F1E6).toNat ∧
      (Char.ofNat 0x1F1E6).toNat ≤ 0x1F1FF) ∧
    (emojiClassify (([gs "ok🇦"] : List GoStr).get ⟨0, by decide⟩)
        (gs "ok").length (Char.ofNat 0x1F1E6) = "standard" ∧
      estimateEmojiTokenCost "standard" = 1 ∧
      emojiKeyPresent (emojiDetect [gs "ok🇦"]) ((0 : Int) + 1) "standard" ∧
      (∀ c : Char, 0x1F1E0 ≤ c.toNat → c.toNat ≤ 0x1F1FF →
        isEmoji c = true) ∧
      (∀ c : Char, 0x1F3FB ≤ c.toNat → c.toNat ≤ 0x1F3FF →
        isEmoji c = true)) :=
  ⟨by decide, by decide, by decide,
    emoji_last_rune_standard [gs "ok🇦"] 0 (by decide) (gs "ok")
      (Char.ofNat 0x1F1E6) (by decide) (by decide)⟩

/-!
Go sort.Slice.

The analyzer sorts with sort.Slice (and sort.Ints), whose algorithm in the
Go standard library (Go 1.19 and later) is pdqsort; sort.Slice is documented
as not stable.  The functions below are a direct translation of the sort
package's pdqsort functions; the list plays the role of the Go slice, an
out-of-range swap leaves the list unchanged (the Go code never swaps out of
range), and reads use getI.  The xorshift generator is seeded with the
length, exactly as in Go, so the whole procedure is deterministic.
-/

section GoSort

variable {α : Type} [Inhabited α]

/-- Swap of two positions of a list (a Go slice element swap). -/
def lswap (l : List α) (i j : Nat) : List α :=
  if i < l.length ∧ j < l.length then
    (l.set i (l.getI j)).set j (l.getI i)
  else l

/-- Inner loop of insertionSort: move the element at j left while it is
less than its left neighbour. -/
def goInsertInner (less : α → α → Bool) (lo : Nat) :
    List α → Nat → List α
  | arr, 0 => arr
  | arr, j + 1 =>
    if j + 1 > lo && less (arr.getI (j + 1)) (arr.getI j) then
      goInsertInner less lo (lswap arr (j + 1) j) j
    else arr

/-- Outer loop of insertionSort over i in [lo+1, hi). -/
def goInsertionSortLoop (less : α → α → Bool) (lo hi : Nat) :
    List α → Nat → Nat → List α
  | arr, _, 0 => arr
  | arr, i, fuel + 1 =>
    if i < hi then
      goInsertionSortLoop less lo hi (goInsertInner less lo arr i) (i + 1)
        fuel
    else arr

/-- Go insertionSort on the range [lo, hi). -/
def goInsertionSort (less : α → α → Bool) (arr : List α) (lo hi : Nat) :
    List α :=
  goInsertionSortLoop less lo hi arr (lo + 1) hi

/-- Go siftDown loop. -/
def goSiftDownLoop (less : α → α → Bool) (first hi : Nat) :
    List α → Nat → Nat → List α
  | arr, _, 0 => arr
  | arr, root, fuel + 1 =>
    let child0 := 2 * root + 1
    if child0 ≥ hi then arr
    else
      let child :=
        if child0 + 1 < hi &&
            less (arr.getI (first + child0)) (arr.getI (first + child0 + 1))
        then child0 + 1 else child0
      if !less (arr.getI (first + root)) (arr.getI (first + child)) then arr
      else
        goSiftDownLoop less first hi
          (lswap arr (first + root) (first + child)) child fuel

/-- Go siftDown. -/
def goSiftDown (less : α → α → Bool) (arr : List α) (lo hi first : Nat) :
    List α :=
  goSiftDownLoop less first hi arr lo hi

/-- Heap construction: siftDown for i = (hi-1)/2 down to 0 (the counter is
the current index plus one). -/
def goHeapBuild (less : α → α → Bool) (first hi : Nat) :
    List α → Nat → List α
  | arr, 0 => arr
  | arr, i + 1 => goHeapBuild less first hi (goSiftDown less arr i hi first) i

/-- Heap pop phase: for i = hi-1 down to 1, swap the maximum out and sift. -/
def goHeapPop (less : α → α → Bool) (first : Nat) :
    List α → Nat → List α
  | arr, 0 => arr
  | arr, i + 1 =>
    goHeapPop less first
      (goSiftDown less (lswap arr first (first + (i + 1))) 0 (i + 1) first) i

/-- Go heapSort on [a, b). -/
def goHeapSort (less : α → α → Bool) (arr : List α) (a b : Nat) : List α :=
  let first := a
  let hi := b - a
  goHeapPop less first (goHeapBuild less first hi arr ((hi - 1) / 2 + 1))
    (hi - 1)

/-- Go reverseRange loop. -/
def goReverseLoop : List α → Nat → Nat → Nat → List α
  | arr, _, _, 0 => arr
  | arr, i, j, fuel + 1 =>
    if i < j then goReverseLoop (lswap arr i j) (i + 1) (j - 1) fuel else arr

/-- Go reverseRange on [a, b). -/
def goReverseRange (arr : List α) (a b : Nat) : List α :=
  goReverseLoop arr a (b - 1) b

/-- Advance of the scan inside Go partialInsertionSort: the first i with
i = b or a descent at i. -/
def goPartInsAdvance (less : α → α → Bool) (b : Nat) (arr : List α) :
    Nat → Nat → Nat
  | i, 0 => i
  | i, fuel + 1 =>
    if i < b && !less (arr.getI i) (arr.getI (i - 1)) then
      goPartInsAdvance less b arr (i + 1) fuel
    else i

/-- Left shift loop of Go partialInsertionSort (the Go loop bound is the
absolute index 1). -/
def goShiftLeft (less : α → α → Bool) : List α → Nat → Nat → List α
  | arr, _, 0 => arr
  | arr, j, fuel + 1 =>
    if j ≥ 1 then
      if !less (arr.getI j) (arr.getI (j - 1)) then arr
      else goShiftLeft less (lswap arr j (j - 1)) (j - 1) fuel
    else arr

/-- Right shift loop of Go partialInsertionSort. -/
def goShiftRight (less : α → α → Bool) (b : Nat) :
    List α → Nat → Nat → List α
  | arr, _, 0 => arr
  | arr, j, fuel + 1 =>
    if j < b then
      if !less (arr.getI j) (arr.getI (j - 1)) then arr
      else goShiftRight less b (lswap arr j (j - 1)) (j + 1) fuel
    else arr

/-- Step loop of Go partialInsertionSort (maxSteps 5, shortestShifting 50);
returns the (possibly mutated) slice and whether it ended sorted. -/
def goPartInsSteps (less : α → α → Bool) (a b : Nat) :
    List α → Nat → Nat → List α × Bool
  | arr, _, 0 => (arr, false)
  | arr, i, steps + 1 =>
    let i2 := goPartInsAdvance less b arr i b
    if i2 = b then (arr, true)
    else if b - a < 50 then (arr, false)
    else
      let arr2 := lswap arr i2 (i2 - 1)
      let arr3 := if i2 - a ≥ 2 then goShiftLeft less arr2 (i2 - 1) i2
        else arr2
      let arr4 := if b - i2 ≥ 2 then goShiftRight less b arr3 (i2 + 1) b
        else arr3
      goPartInsSteps less a b arr4 i2 steps

/-- Go partialInsertionSort on [a, b). -/
def goPartInsSort (less : α → α → Bool) (arr : List α) (a b : Nat) :
    List α × Bool :=
  goPartInsSteps less a b arr (a + 1) 5

/-- Go sort package xorshift step on 64-bit state. -/
def xorshiftNext (r : Nat) : Nat :=
  let r1 := (r ^^^ (r <<< 13)) % 2 ^ 64
  let r2 := r1 ^^^ (r1 >>> 7)
  (r2 ^^^ (r2 <<< 17)) % 2 ^ 64

/-- Go bits.Len. -/
def goBitsLen (n : Nat) : Nat := if n = 0 then 0 else Nat.log2 n + 1

/-- Go breakPatterns: three pseudorandom swaps around the middle when the
range has at least 8 elements. -/
def goBreakPatterns (arr : List α) (a b : Nat) : List α :=
  let length := b - a
  if length ≥ 8 then
    let modulus := 1 <<< goBitsLen length
    let idx := a + length / 4 * 2 - 1
    let r1 := xorshiftNext length
    let o1 := r1 &&& (modulus - 1)
    let o1 := if o1 ≥ length then o1 - length else o1
    let arr1 := lswap arr (idx - 1) (a + o1)
    let r2 := xorshiftNext r1
    let o2 := r2 &&& (modulus - 1)
    let o2 := if o2 ≥ length then o2 - length else o2
    let arr2 := lswap arr1 idx (a + o2)
    let r3 := xorshiftNext r2
    let o3 := r3 &&& (modulus - 1)
    let o3 := if o3 ≥ length then o3 - length else o3
    lswap arr2 (idx + 1) (a + o3)
  else arr

/-- Sortedness hints of the Go sort package. -/
inductive SortHint where
  | increasingHint
  | decreasingHint
  | unknownHint
  deriving DecidableEq, Repr

/-- Go order2: indices in comparison order plus the updated swap counter. -/
def goOrder2 (less : α → α → Bool) (arr : List α) (i j s : Nat) :
    Nat × Nat × Nat :=
  if less (arr.getI j) (arr.getI i) then (j, i, s + 1) else (i, j, s)

/-- Go median of the values at three indices. -/
def goMedian (less : α → α → Bool) (arr : List α) (i j k s : Nat) :
    Nat × Nat :=
  let p1 := goOrder2 less arr i j s
  let p2 := goOrder2 less arr p1.2.1 k p1.2.2
  let p3 := goOrder2 less arr p1.1 p2.1 p2.2.2
  (p3.2.1, p3.2.2)

/-- Go medianAdjacent. -/
def goMedianAdjacent (less : α → α → Bool) (arr : List α) (i s : Nat) :
    Nat × Nat :=
  goMedian less arr (i - 1) i (i + 1) s

/-- Go choosePivot (shortestNinther 50, maxSwaps 12). -/
def goChoosePivot (less : α → α → Bool) (arr : List α) (a b : Nat) :
    Nat × SortHint :=
  let l := b - a
  let i := a + l / 4 * 1
  let j := a + l / 4 * 2
  let k := a + l / 4 * 3
  if l ≥ 8 then
    let t :=
      if l ≥ 50 then
        let m1 := goMedianAdjacent less arr i 0
        let m2 := goMedianAdjacent less arr j m1.2
        let m3 := goMedianAdjacent less arr k m2.2
        (m1.1, m2.1, m3.1, m3.2)
      else (i, j, k, 0)
    let m := goMedian less arr t.1 t.2.1 t.2.2.1 t.2.2.2
    if m.2 = 0 then (m.1, SortHint.increasingHint)
    else if m.2 = 12 then (m.1, SortHint.decreasingHint)
    else (m.1, SortHint.unknownHint)
  else (j, SortHint.increasingHint)

/-- Advance of i in Go partition: stop at i > j or at an element not less
than the pivot at index a. -/
def goPartAdvI (less : α → α → Bool) (arr : List α) (a j : Nat) :
    Nat → Nat → Nat
  | i, 0 => i
  | i, fuel + 1 =>
    if i ≤ j && less (arr.getI i) (arr.getI a) then
      goPartAdvI less arr a j (i + 1) fuel
    else i

/-- Retreat of j in Go partition. -/
def goPartRetJ (less : α → α → Bool) (arr : List α) (a i : Nat) :
    Nat → Nat → Nat
  | j, 0 => j
  | j, fuel + 1 =>
    if i ≤ j && !less (arr.getI j) (arr.getI a) then
      goPartRetJ less arr a i (j - 1) fuel
    else j

/-- Main loop of Go partition after the first crossing swap. -/
def goPartitionLoop (less : α → α → Bool) (a b : Nat) :
    List α → Nat → Nat → Nat → List α × Nat
  | arr, _, j, 0 => (arr, j)
  | arr, i, j, fuel + 1 =>
    let i2 := goPartAdvI less arr a j i b
    let j2 := goPartRetJ less arr a i2 j b
    if i2 > j2 then (arr, j2)
    else goPartitionLoop less a b (lswap arr i2 j2) (i2 + 1) (j2 - 1) fuel

/-- Go partition of [a, b) around the value at pivot; yields the slice, the
new pivot position and whether the range was already partitioned. -/
def goPartition (less : α → α → Bool) (arr0 : List α) (a b pivot : Nat) :
    List α × Nat × Bool :=
  let arr := lswap arr0 a pivot
  let i1 := goPartAdvI less arr a (b - 1) (a + 1) b
  let j1 := goPartRetJ less arr a i1 (b - 1) b
  if i1 > j1 then (lswap arr j1 a, j1, true)
  else
    let arr2 := lswap arr i1 j1
    let p := goPartitionLoop less a b arr2 (i1 + 1) (j1 - 1) b
    (lswap p.1 p.2 a, p.2, false)

/-- Advance of i in Go partitionEqual. -/
def goPartEqAdvI (less : α → α → Bool) (arr : List α) (a j : Nat) :
    Nat → Nat → Nat
  | i, 0 => i
  | i, fuel + 1 =>
    if i ≤ j && !less (arr.getI a) (arr.getI i) then
      goPartEqAdvI less arr a j (i + 1) fuel
    else i

/-- Retreat of j in Go partitionEqual. -/
def goPartEqRetJ (less : α → α → Bool) (arr : List α) (a i : Nat) :
    Nat → Nat → Nat
  | j, 0 => j
  | j, fuel + 1 =>
    if i ≤ j && less (arr.getI a) (arr.getI j) then
      goPartEqRetJ less arr a i (j - 1) fuel
    else j

/-- Loop of Go partitionEqual; yields the slice and the first index of the
strictly-greater suffix. -/
def goPartitionEqualLoop (less : α → α → Bool) (a b : Nat) :
    List α → Nat → Nat → Nat → List α × Nat
  | arr, i, _, 0 => (arr, i)
  | arr, i, j, fuel + 1 =>
    let i2 := goPartEqAdvI less arr a j i b
    let j2 := goPartEqRetJ less arr a i2 j b
    if i2 > j2 then (arr, i2)
    else goPartitionEqualLoop less a b (lswap arr i2 j2) (i2 + 1) (j2 - 1) fuel

/-- Go partitionEqual of [a, b) around the value at pivot. -/
def goPartitionEqual (less : α → α → Bool) (arr0 : List α)
    (a b pivot : Nat) : List α × Nat :=
  let arr := lswap arr0 a pivot
  goPartitionEqualLoop less a b arr (a + 1) (b - 1) b

/-- Straight-line prelude of one Go pdqsort loop iteration: the optional
breakPatterns with limit decrement, choosePivot, the reversal on a
decreasing hint, and the optional partialInsertionSort.  Returns the slice,
the remaining limit, the pivot position and whether the early sorted exit
fired. -/
def goPdqPrelude (less : α → α → Bool) (arr : List α)
    (a b limit : Nat) (wasBalanced wasPartitioned : Bool) :
    List α × Nat × Nat × Bool :=
  let st :=
    if !wasBalanced then (goBreakPatterns arr a b, limit - 1)
    else (arr, limit)
  let pv := goChoosePivot less st.1 a b
  let st2 :=
    if pv.2 = SortHint.decreasingHint then
      (goReverseRange st.1 a b, (b - 1) - (pv.1 - a),
        SortHint.increasingHint)
    else (st.1, pv.1, pv.2)
  let st3 :=
    if wasBalanced && wasPartitioned &&
        st2.2.2 = SortHint.increasingHint then
      goPartInsSort less st2.1 a b
    else (st2.1, false)
  (st3.1, st.2, st2.2.1, st3.2)

/-- Go pdqsort on [a, b); maxInsertion is 12.  The fuel only bounds the
total number of loop iterations and recursive calls and is chosen large
enough at the top entry. -/
def goPdqsort (less : α → α → Bool) :
    Nat → List α → Nat → Nat → Nat → Bool → Bool → List α
  | 0, arr, _, _, _, _, _ => arr
  | fuel + 1, arr, a, b, limit, wasBalanced, wasPartitioned =>
    let length := b - a
    if length ≤ 12 then goInsertionSort less arr a b
    else if limit = 0 then goHeapSort less arr a b
    else
      let pre := goPdqPrelude less arr a b limit wasBalanced wasPartitioned
      let arr3 := pre.1
      let limit1 := pre.2.1
      let pivot := pre.2.2.1
      if pre.2.2.2 then arr3
      else if a > 0 && !less (arr3.getI (a - 1)) (arr3.getI pivot) then
        let pe := goPartitionEqual less arr3 a b pivot
        goPdqsort less fuel pe.1 pe.2 b limit1 wasBalanced wasPartitioned
      else
        let pt := goPartition less arr3 a b pivot
        let mid := pt.2.1
        let wasPartitioned2 := pt.2.2
        let leftLen := mid - a
        let rightLen := b - mid
        let balanceThreshold := length / 8
        let wasBalanced2 := min leftLen rightLen ≥ balanceThreshold
        if leftLen < rightLen then
          let arr5 := goPdqsort less fuel pt.1 a mid limit1 true true
          goPdqsort less fuel arr5 (mid + 1) b limit1
            (decide wasBalanced2) wasPartitioned2
        else
          let arr5 := goPdqsort less fuel pt.1 (mid + 1) b limit1 true true
          goPdqsort less fuel arr5 a mid limit1
            (decide wasBalanced2) wasPartitioned2

/-- Go sort.Slice: pdqsort over the whole slice with limit = bits.Len(n). -/
def goSortSlice (less : α → α → Bool) (l : List α) : List α :=
  goPdqsort less ((l.length + 1) * (l.length + 1) + 1) l 0 l.length
    (goBitsLen l.length) true true

end GoSort

section GoSortPerm

variable {α : Type} [Inhabited α] [DecidableEq α]

/-- A slice swap permutes the list. -/
theorem lswap_perm (l : List α) (i j : Nat) : (lswap l i j).Perm l := by
  unfold lswap
  split
  · rename_i hb
    rcases hb with ⟨hi, hj⟩
    rw [List.perm_iff_count]
    intro a
    have hj2 : j < (l.set i (l.getI j)).length := by simpa using hj
    rw [List.count_set _ _ _ _ hj2, List.count_set _ _ _ _ hi]
    simp only [List.getI_eq_getElem _ hi, List.getI_eq_getElem _ hj]
    have h1 : (if (l[i] == a) = true then 1 else 0) ≤ l.count a := by
      split
      · rename_i hh
        exact List.one_le_count_iff.mpr (by
          rw [← beq_iff_eq.mp hh]; exact List.getElem_mem hi)
      · omega
    have h2 : (if (l[j] == a) = true then 1 else 0) ≤ l.count a := by
      split
      · rename_i hh
        exact List.one_le_count_iff.mpr (by
          rw [← beq_iff_eq.mp hh]; exact List.getElem_mem hj)
      · omega
    by_cases hij : i = j
    · subst hij
      rw [List.getElem_set_self]
      omega
    · rw [List.getElem_set_ne (by omega)]
      omega
  · exact List.Perm.refl l

theorem goInsertInner_perm (less : α → α → Bool) (lo : Nat) (j : Nat) :
    ∀ arr : List α, (goInsertInner less lo arr j).Perm arr := by
  induction j with
  | zero => intro arr; exact List.Perm.refl _
  | succ j ih =>
    intro arr
    rw [goInsertInner]
    split
    · exact (ih _).trans (lswap_perm arr (j + 1) j)
    · exact List.Perm.refl _

theorem goInsertionSortLoop_perm (less : α → α → Bool) (lo hi : Nat)
    (fuel : Nat) : ∀ (arr : List α) (i : Nat),
    (goInsertionSortLoop less lo hi arr i fuel).Perm arr := by
  induction fuel with
  | zero => intro arr i; exact List.Perm.refl _
  | succ fuel ih =>
    intro arr i
    rw [goInsertionSortLoop]
    split
    · exact (ih _ _).trans (goInsertInner_perm less lo i arr)
    · exact List.Perm.refl _

theorem goInsertionSort_perm (less : α → α → Bool) (arr : List α)
    (lo hi : Nat) : (goInsertionSort less arr lo hi).Perm arr :=
  goInsertionSortLoop_perm less lo hi hi arr (lo + 1)

theorem goSiftDownLoop_perm (less : α → α → Bool) (first hi : Nat)
    (fuel : Nat) : ∀ (arr : List α) (root : Nat),
    (goSiftDownLoop less first hi arr root fuel).Perm arr := by
  induction fuel with
  | zero => intro arr root; exact List.Perm.refl _
  | succ fuel ih =>
    intro arr root
    rw [goSiftDownLoop]
    dsimp only
    split
    · exact List.Perm.refl _
    · split
      · split
        · exact List.Perm.refl _
        · exact (ih _ _).trans (lswap_perm arr _ _)
      · split
        · exact List.Perm.refl _
        · exact (ih _ _).trans (lswap_perm arr _ _)

theorem goSiftDown_perm (less : α → α → Bool) (arr : List α)
    (lo hi first : Nat) : (goSiftDown less arr lo hi first).Perm arr :=
  goSiftDownLoop_perm less first hi hi arr lo

theorem goHeapBuild_perm (less : α → α → Bool) (first hi : Nat) (i : Nat) :
    ∀ arr : List α, (goHeapBuild less first hi arr i).Perm arr := by
  induction i with
  | zero => intro arr; exact List.Perm.refl _
  | succ i ih =>
    intro arr
    rw [goHeapBuild]
    exact (ih _).trans (goSiftDown_perm less arr i hi first)

theorem goHeapPop_perm (less : α → α → Bool) (first : Nat) (i : Nat) :
    ∀ arr : List α, (goHeapPop less first arr i).Perm arr := by
  induction i with
  | zero => intro arr; exact List.Perm.refl _
  | succ i ih =>
    intro arr
    rw [goHeapPop]
    exact ((ih _).trans (goSiftDown_perm less _ 0 (i + 1) first)).trans
      (lswap_perm arr first (first + (i + 1)))

theorem goHeapSort_perm (less : α → α → Bool) (arr : List α) (a b : Nat) :
    (goHeapSort less arr a b).Perm arr :=
  (goHeapPop_perm less a (b - a - 1) _).trans
    (goHeapBuild_perm less a (b - a) ((b - a - 1) / 2 + 1) arr)

theorem goReverseLoop_perm (fuel : Nat) : ∀ (arr : List α) (i j : Nat),
    (goReverseLoop arr i j fuel).Perm arr := by
  induction fuel with
  | zero => intro arr i j; exact List.Perm.refl _
  | succ fuel ih =>
    intro arr i j
    rw [goReverseLoop]
    split
    · exact (ih _ _ _).trans (lswap_perm arr i j)
    · exact List.Perm.refl _

theorem goReverseRange_perm (arr : List α) (a b : Nat) :
    (goReverseRange arr a b).Perm arr :=
  goReverseLoop_perm b arr a (b - 1)

theorem goShiftLeft_perm (less : α → α → Bool) (fuel : Nat) :
    ∀ (arr : List α) (j : Nat), (goShiftLeft less arr j fuel).Perm arr := by
  induction fuel with
  | zero => intro arr j; exact List.Perm.refl _
  | succ fuel ih =>
    intro arr j
    rw [goShiftLeft]
    split
    · split
      · exact List.Perm.refl _
      · exact (ih _ _).trans (lswap_perm arr j (j - 1))
    · exact List.Perm.refl _

theorem goShiftRight_perm (less : α → α → Bool) (b : Nat) (fuel : Nat) :
    ∀ (arr : List α) (j : Nat),
    (goShiftRight less b arr j fuel).Perm arr := by
  induction fuel with
  | zero => intro arr j; exact List.Perm.refl _
  | succ fuel ih =>
    intro arr j
    rw [goShiftRight]
    split
    · split
      · exact List.Perm.refl _
      · exact (ih _ _).trans (lswap_perm arr j (j - 1))
    · exact List.Perm.refl _

theorem goPartInsSteps_perm (less : α → α → Bool) (a b : Nat)
    (steps : Nat) : ∀ (arr : List α) (i : Nat),
    (goPartInsSteps less a b arr i steps).1.Perm arr := by
  induction steps with
  | zero => intro arr i; exact List.Perm.refl _
  | succ steps ih =>
    intro arr i
    rw [goPartInsSteps]
    split
    · exact List.Perm.refl _
    · split
      · exact List.Perm.refl _
      · have h2 : (lswap arr (goPartInsAdvance less b arr i b)
            ((goPartInsAdvance less b arr i b) - 1)).Perm arr :=
          lswap_perm _ _ _
        generalize hg : lswap arr (goPartInsAdvance less b arr i b)
            ((goPartInsAdvance less b arr i b) - 1) = arr2 at h2 ⊢
        refine (ih _ _).trans ?_
        split
        · refine (goShiftRight_perm less b b _ _).trans ?_
          split
          · exact (goShiftLeft_perm less _ _ _).trans h2
          · exact h2
        · split
          · exact (goShiftLeft_perm less _ _ _).trans h2
          · exact h2

theorem goPartInsSort_perm (less : α → α → Bool) (arr : List α)
    (a b : Nat) : (goPartInsSort less arr a b).1.Perm arr :=
  goPartInsSteps_perm less a b 5 arr (a + 1)

theorem goBreakPatterns_perm (arr : List α) (a b : Nat) :
    (goBreakPatterns arr a b).Perm arr := by
  unfold goBreakPatterns
  dsimp only
  split
  · exact ((lswap_perm _ _ _).trans (lswap_perm _ _ _)).trans
      (lswap_perm _ _ _)
  · exact List.Perm.refl _

theorem goPartitionLoop_perm (less : α → α → Bool) (a b : Nat)
    (fuel : Nat) : ∀ (arr : List α) (i j : Nat),
    (goPartitionLoop less a b arr i j fuel).1.Perm arr := by
  induction fuel with
  | zero => intro arr i j; exact List.Perm.refl _
  | succ fuel ih =>
    intro arr i j
    rw [goPartitionLoop]
    split
    · exact List.Perm.refl _
    · exact (ih _ _ _).trans (lswap_perm arr _ _)

theorem goPartition_perm (less : α → α → Bool) (arr0 : List α)
    (a b pivot : Nat) : (goPartition less arr0 a b pivot).1.Perm arr0 := by
  unfold goPartition
  dsimp only
  split
  · exact (lswap_perm _ _ _).trans (lswap_perm _ _ _)
  · refine (lswap_perm _ _ _).trans ?_
    refine (goPartitionLoop_perm less a b b _ _ _).trans ?_
    exact (lswap_perm _ _ _).trans (lswap_perm _ _ _)

theorem goPartitionEqualLoop_perm (less : α → α → Bool) (a b : Nat)
    (fuel : Nat) : ∀ (arr : List α) (i j : Nat),
    (goPartitionEqualLoop less a b arr i j fuel).1.Perm arr := by
  induction fuel with
  | zero => intro arr i j; exact List.Perm.refl _
  | succ fuel ih =>
    intro arr i j
    rw [goPartitionEqualLoop]
    split
    · exact List.Perm.refl _
    · exact (ih _ _ _).trans (lswap_perm arr _ _)

theorem goPartitionEqual_perm (less : α → α → Bool) (arr0 : List α)
    (a b pivot : Nat) : (goPartitionEqual less arr0 a b pivot).1.Perm arr0 :=
  (goPartitionEqualLoop_perm less a b b _ (a + 1) (b - 1)).trans
    (lswap_perm arr0 a pivot)

theorem goPdqPrelude_perm (less : α → α → Bool) (arr : List α)
    (a b limit : Nat) (wb wp : Bool) :
    (goPdqPrelude less arr a b limit wb wp).1.Perm arr := by
  unfold goPdqPrelude
  dsimp only
  have h1 : ((if !wb then (goBreakPatterns arr a b, limit - 1)
      else (arr, limit)) : List α × Nat).1.Perm arr := by
    split
    · exact goBreakPatterns_perm arr a b
    · exact List.Perm.refl _
  generalize hst : ((if !wb then (goBreakPatterns arr a b, limit - 1)
      else (arr, limit)) : List α × Nat) = st at h1 ⊢
  have h2 : ((if (goChoosePivot less st.1 a b).2 = SortHint.decreasingHint
      then (goReverseRange st.1 a b,
        (b - 1) - ((goChoosePivot less st.1 a b).1 - a),
        SortHint.increasingHint)
      else (st.1, (goChoosePivot less st.1 a b).1,
        (goChoosePivot less st.1 a b).2)) :
          List α × Nat × SortHint).1.Perm st.1 := by
    split
    · exact goReverseRange_perm st.1 a b
    · exact List.Perm.refl _
  generalize hst2 : ((if (goChoosePivot less st.1 a b).2 =
      SortHint.decreasingHint
      then (goReverseRange st.1 a b,
        (b - 1) - ((goChoosePivot less st.1 a b).1 - a),
        SortHint.increasingHint)
      else (st.1, (goChoosePivot less st.1 a b).1,
        (goChoosePivot less st.1 a b).2)) :
          List α × Nat × SortHint) = st2 at h2 ⊢
  have h3 : ((if wb && wp && st2.2.2 = SortHint.increasingHint then
      goPartInsSort less st2.1 a b
      else (st2.1, false)) : List α × Bool).1.Perm st2.1 := by
    split
    · exact goPartInsSort_perm less st2.1 a b
    · exact List.Perm.refl _
  generalize hst3 : ((if wb && wp && st2.2.2 = SortHint.increasingHint then
      goPartInsSort less st2.1 a b
      else (st2.1, false)) : List α × Bool) = st3 at h3 ⊢
  exact (h3.trans h2).trans h1

theorem goPdqsort_perm (less : α → α → Bool) (fuel : Nat) :
    ∀ (arr : List α) (a b limit : Nat) (wb wp : Bool),
    (goPdqsort less fuel arr a b limit wb wp).Perm arr := by
  induction fuel with
  | zero => intro arr a b limit wb wp; exact List.Perm.refl _
  | succ fuel ih =>
    intro arr a b limit wb wp
    rw [goPdqsort]
    dsimp only
    split
    · exact goInsertionSort_perm less arr a b
    · split
      · exact goHeapSort_perm less arr a b
      · split
        · exact goPdqPrelude_perm less arr a b limit wb wp
        · split
          · exact (ih _ _ _ _ _ _).trans
              ((goPartitionEqual_perm less _ a b _).trans
                (goPdqPrelude_perm less arr a b limit wb wp))
          · split
            · exact ((ih _ _ _ _ _ _).trans (ih _ _ _ _ _ _)).trans
                ((goPartition_perm less _ a b _).trans
                  (goPdqPrelude_perm less arr a b limit wb wp))
            · exact ((ih _ _ _ _ _ _).trans (ih _ _ _ _ _ _)).trans
                ((goPartition_perm less _ a b _).trans
                  (goPdqPrelude_perm less arr a b limit wb wp))

/-- Go sort.Slice returns a permutation of its input. -/
theorem goSortSlice_perm (less : α → α → Bool) (l : List α) :
    (goSortSlice less l).Perm l :=
  goPdqsort_perm less _ l 0 l.length (goBitsLen l.length) true true

/-- Go sort.Slice preserves the length. -/
theorem goSortSlice_length (less : α → α → Bool) (l : List α) :
    (goSortSlice less l).length = l.length :=
  (goSortSlice_perm less l).length_eq

end GoSortPerm

/-!
Stable sort reference and the insertion-sort range of Go sort.Slice.

For slices of at most 12 elements Go pdqsort is insertionSort, which is
stable; goStableSort below is the canonical stable sort (each element is
inserted after every earlier element whose key is not greater), and the
lemmas relate the two.  Comparators of the analyzer are key-valued:
less x y = decide (key x < key y) for a linearly ordered key.
-/

section GoStable

variable {α : Type} [Inhabited α] {K : Type} [LinearOrder K]

/-- The comparator determined by a key. -/
def keyLess (key : α → K) : α → α → Bool :=
  fun x y => decide (key x < key y)

/-- Insert x after the longest prefix of elements that are not greater than
x; on a sorted list this is exactly where Go insertionSort leaves the new
last element, and ties keep the earlier element first. -/
def insertRightSorted (less : α → α → Bool) (s : List α) (x : α) :
    List α :=
  (s.takeWhile fun y => !less x y) ++ x :: (s.dropWhile fun y => !less x y)

/-- The canonical stable sort: left fold of right-biased insertion. -/
def goStableSort (less : α → α → Bool) (l : List α) : List α :=
  l.foldl (insertRightSorted less) []

/-- Non-decreasing keys. -/
def KeySorted (key : α → K) (l : List α) : Prop :=
  l.Pairwise fun u v => key u ≤ key v

theorem insertRightSorted_length (less : α → α → Bool) (s : List α)
    (x : α) : (insertRightSorted less s x).length = s.length + 1 := by
  unfold insertRightSorted
  rw [List.length_append, List.length_cons]
  have := congrArg List.length
    (List.takeWhile_append_dropWhile (p := fun y => !less x y) (l := s))
  rw [List.length_append] at this
  omega

/-- All elements pass: insertion at the very end. -/
theorem insertRightSorted_all (less : α → α → Bool) (s : List α) (x : α)
    (h : ∀ z ∈ s, less x z = false) :
    insertRightSorted less s x = s ++ [x] := by
  unfold insertRightSorted
  have ht : s.takeWhile (fun y => !less x y) = s := by
    refine List.takeWhile_eq_self_iff.mpr ?_
    intro a ha
    simp [h a ha]
  have hd : s.dropWhile (fun y => !less x y) = [] := by
    refine List.dropWhile_eq_nil_iff.mpr ?_
    intro a ha
    simp [h a ha]
  rw [ht, hd]

/-- Appending a strictly greater last element commutes with insertion. -/
theorem insertRightSorted_snoc (less : α → α → Bool) (s : List α) (x y : α)
    (h : less x y = true) :
    insertRightSorted less (s ++ [y]) x =
      insertRightSorted less s x ++ [y] := by
  unfold insertRightSorted
  induction s with
  | nil => simp [List.takeWhile, List.dropWhile, h]
  | cons a s ih =>
    by_cases ha : less x a = true
    · simp [List.takeWhile_cons, List.dropWhile_cons, ha]
    · have ha2 : less x a = false := by
        simpa using ha
      simp only [List.cons_append, List.takeWhile_cons,
        List.dropWhile_cons, ha2]
      simp only [Bool.not_false, if_true]
      simp [ih]

theorem getI_append_cons (A : List α) (c : α) (B : List α) :
    (A ++ c :: B).getI A.length = c := by
  induction A with
  | nil => simp [List.getI_cons_zero]
  | cons a A ih => simpa [List.getI_cons_succ] using ih

theorem set_append_cons (A : List α) (c d : α) (B : List α) :
    (A ++ c :: B).set A.length d = A ++ d :: B := by
  induction A with
  | nil => simp
  | cons a A ih => simp [List.set_cons_succ, ih]

theorem lswap_adjacent (A : List α) (u v : α) (B : List α) :
    lswap (A ++ u :: v :: B) (A.length + 1) A.length = A ++ v :: u :: B := by
  unfold lswap
  have h1 : (A ++ u :: v :: B).getI A.length = u := getI_append_cons A u _
  have h2 : (A ++ u :: v :: B).getI (A.length + 1) = v := by
    have he : A ++ u :: v :: B = (A ++ [u]) ++ v :: B := by simp
    have hl : (A ++ [u]).length = A.length + 1 := by simp
    rw [he, ← hl]
    exact getI_append_cons (A ++ [u]) v B
  rw [if_pos (by constructor <;> simp)]
  rw [h1, h2]
  have hs1 : (A ++ u :: v :: B).set (A.length + 1) u =
      A ++ u :: u :: B := by
    have he : A ++ u :: v :: B = (A ++ [u]) ++ v :: B := by simp
    have hl : (A ++ [u]).length = A.length + 1 := by simp
    rw [he, ← hl, set_append_cons (A ++ [u]) v u B]
    simp
  rw [hs1, set_append_cons A u v (u :: B)]

theorem goInsertInner_insert (key : α → K) (s : List α) (x : α)
    (rest : List α) (hs : KeySorted key s) :
    goInsertInner (keyLess key) 0 (s ++ x :: rest) s.length =
      insertRightSorted (keyLess key) s x ++ rest := by
  induction s using List.reverseRecOn generalizing rest with
  | nil => simp [goInsertInner, insertRightSorted]
  | append_singleton s2 y ih =>
    have hs2 : KeySorted key s2 := (List.pairwise_append.mp hs).1
    have hlen : (s2 ++ [y]).length = s2.length + 1 := by simp
    have harr : (s2 ++ [y]) ++ x :: rest = s2 ++ y :: x :: rest := by simp
    rw [hlen, harr, goInsertInner]
    have hg1 : (s2 ++ y :: x :: rest).getI s2.length = y :=
      getI_append_cons s2 y _
    have hg2 : (s2 ++ y :: x :: rest).getI (s2.length + 1) = x := by
      have he : s2 ++ y :: x :: rest = (s2 ++ [y]) ++ x :: rest := by simp
      rw [he, ← hlen]
      exact getI_append_cons (s2 ++ [y]) x rest
    rw [hg1, hg2]
    by_cases hxy : keyLess key x y = true
    · rw [if_pos (by simp [hxy])]
      rw [lswap_adjacent s2 y x rest]
      rw [ih (y :: rest) hs2]
      rw [insertRightSorted_snoc (keyLess key) s2 x y hxy]
      simp
    · have hxy2 : keyLess key x y = false := by simpa using hxy
      rw [if_neg (by simp [hxy2])]
      have hall : ∀ z ∈ s2 ++ [y], keyLess key x z = false := by
        intro z hz
        have hnxy : ¬ key x < key y := by
          simpa [keyLess] using hxy2
        rcases List.mem_append.mp hz with hz | hz
        · have hzy : key z ≤ key y := by
            have := (List.pairwise_append.mp hs).2.2
            exact this z hz y (List.mem_singleton.mpr rfl)
          simp only [keyLess, decide_eq_false_iff_not]
          intro hc
          exact hnxy (lt_of_lt_of_le hc hzy)
        · rcases List.mem_singleton.mp hz with rfl
          exact hxy2
      rw [insertRightSorted_all (keyLess key) (s2 ++ [y]) x hall]
      simp

theorem keyLt_of_mem_dropWhile (key : α → K) (s : List α) (x : α)
    (hs : KeySorted key s) :
    ∀ v ∈ s.dropWhile (fun y => !keyLess key x y), key x < key v := by
  induction s with
  | nil => intro v hv; cases hv
  | cons a s ih =>
    intro v hv
    rw [List.dropWhile_cons] at hv
    by_cases ha : keyLess key x a = true
    · have : (!keyLess key x a) = false := by simp [ha]
      rw [this] at hv
      simp only [Bool.false_eq_true, if_false] at hv
      rcases List.mem_cons.mp hv with rfl | hv
      · simpa [keyLess] using ha
      · have hav : key a ≤ key v :=
          (List.pairwise_cons.mp hs).1 v hv
        exact lt_of_lt_of_le (by simpa [keyLess] using ha) hav
    · have ha2 : keyLess key x a = false := by simpa using ha
      have : (!keyLess key x a) = true := by simp [ha2]
      rw [this] at hv
      simp only [if_true] at hv
      exact ih (List.pairwise_cons.mp hs).2 v hv

theorem keySorted_insertRightSorted (key : α → K) (s : List α) (x : α)
    (hs : KeySorted key s) :
    KeySorted key (insertRightSorted (keyLess key) s x) := by
  unfold insertRightSorted KeySorted
  rw [List.pairwise_append]
  refine ⟨hs.sublist (List.takeWhile_sublist _), ?_, ?_⟩
  · rw [List.pairwise_cons]
    refine ⟨?_, hs.sublist (List.dropWhile_sublist _)⟩
    intro v hv
    exact le_of_lt (keyLt_of_mem_dropWhile key s x hs v hv)
  · intro u hu w hw
    have hux : key u ≤ key x := by
      have := List.mem_takeWhile_imp hu
      simp only [Bool.not_eq_eq_eq_not, Bool.not_true, keyLess,
        decide_eq_false_iff_not] at this
      exact le_of_not_lt this
    rcases List.mem_cons.mp hw with rfl | hw
    · exact hux
    · exact le_trans hux
        (le_of_lt (keyLt_of_mem_dropWhile key s x hs w hw))

theorem keySorted_goStableSort (key : α → K) (l : List α) :
    KeySorted key (goStableSort (keyLess key) l) := by
  have hgen : ∀ (l : List α) (s : List α), KeySorted key s →
      KeySorted key (l.foldl (insertRightSorted (keyLess key)) s) := by
    intro l
    induction l with
    | nil => intro s hs; exact hs
    | cons x l ih =>
      intro s hs
      exact ih _ (keySorted_insertRightSorted key s x hs)
  exact hgen l [] (List.Pairwise.nil)

theorem goStableSort_length (less : α → α → Bool) (l : List α) :
    (goStableSort less l).length = l.length := by
  have hgen : ∀ (l : List α) (s : List α),
      (l.foldl (insertRightSorted less) s).length = s.length + l.length := by
    intro l
    induction l with
    | nil => intro s; simp
    | cons x l ih =>
      intro s
      rw [List.foldl_cons, ih, insertRightSorted_length]
      simp only [List.length_cons]
      omega
  simpa using hgen l []

theorem goInsertionSortLoop_stable (key : α → K) (rest : List α) :
    ∀ (s : List α) (fuel hi i : Nat), KeySorted key s →
    rest.length ≤ fuel → hi = s.length + rest.length → i = s.length →
    goInsertionSortLoop (keyLess key) 0 hi (s ++ rest) i fuel
      = rest.foldl (insertRightSorted (keyLess key)) s := by
  induction rest with
  | nil =>
    intro s fuel hi i _ _ hhi hii
    subst hhi hii
    cases fuel with
    | zero => simp [goInsertionSortLoop]
    | succ fuel => simp [goInsertionSortLoop]
  | cons x rest ih =>
    intro s fuel hi i hs hfuel hhi hii
    subst hhi hii
    cases fuel with
    | zero => simp at hfuel
    | succ fuel =>
      rw [goInsertionSortLoop, if_pos (by simp)]
      rw [goInsertInner_insert key s x rest hs]
      rw [ih (insertRightSorted (keyLess key) s x) fuel _ _
        (keySorted_insertRightSorted key s x hs)
        (by simpa using hfuel)
        (by rw [insertRightSorted_length, List.length_cons]; omega)
        (insertRightSorted_length (keyLess key) s x).symm]
      rfl

theorem goInsertionSort_stable (key : α → K) (l : List α) :
    goInsertionSort (keyLess key) l 0 l.length =
      goStableSort (keyLess key) l := by
  cases l with
  | nil => rfl
  | cons x l2 =>
    unfold goInsertionSort
    have h := goInsertionSortLoop_stable key l2 [x] (x :: l2).length
      (x :: l2).length (0 + 1) (List.pairwise_singleton _ _)
      (by simp) (by simp; omega) (by simp)
    have harr : ([x] : List α) ++ l2 = x :: l2 := rfl
    rw [harr] at h
    rw [h]
    rfl

/-- For at most 12 elements Go sort.Slice is insertionSort, which computes
the canonical stable sort of a key-valued comparator. -/
theorem goSortSlice_short (key : α → K) (l : List α)
    (hlen : l.length ≤ 12) :
    goSortSlice (keyLess key) l = goStableSort (keyLess key) l := by
  unfold goSortSlice
  rw [goPdqsort]
  dsimp only
  rw [if_pos (by simpa using hlen)]
  exact goInsertionSort_stable key l

end GoStable

/-!
Remaining data model records (models.go, part_007/part_008, detector_url.go).
Go float64 fields are modelled as Rat (see the file header).
-/

/-- Model of Go float64. -/
abbrev GoFloat := Rat

/-- LineInsight record. -/
structure LineInsight where
  LineNumber : Int
  Content : GoStr
  Tokens : Int
  Chars : Int
  TokenCharRatioVal : GoFloat
  IsEmpty : Bool
  IsWhitespaceOnly : Bool
  HasUnicode : Bool
  deriving DecidableEq, Repr, Inhabited

/-- Token record of the api package (Position is a byte offset). -/
structure Token where
  Text : GoStr
  Position : Int
  Length : Int
  deriving DecidableEq, Repr

/-- OOVStringIssue record. -/
structure OOVStringIssue where
  StringVal : GoStr
  StringType : String
  LineNumber : Int
  TokenCount : Int
  Context : GoStr
  Recommendation : String
  deriving DecidableEq, Repr

/-- ConfusableIssue record. -/
structure ConfusableIssue where
  OriginalChar : Char
  ConfusableChar : Char
  CharName : GoStr
  LineNumber : Int
  Position : Int
  Context : List Nat
  Count : Int
  IsMixedScript : Bool
  deriving DecidableEq, Repr

/-- EncodingIssue record. -/
structure EncodingIssue where
  EncodingType : String
  EncodedText : GoStr
  DecodedText : GoStr
  LineNumber : Int
  Position : Int
  Length : Int
  TokenCost : Int
  deriving DecidableEq, Repr

/-- NormalizationIssue record. -/
structure NormalizationIssue where
  OriginalText : GoStr
  NormalizedText : GoStr
  FormExpected : String
  LineNumber : Int
  Position : Int
  IssueType : String
  deriving DecidableEq, Repr

/-- GlitchTokenIssue record. -/
structure GlitchTokenIssue where
  Token : GoStr
  TokenID : GoStr
  LineNumber : Int
  Position : Int
  KnownIssue : String
  Severity : String
  Context : List Nat
  deriving DecidableEq, Repr

/-- ContextPlacementIssue record. -/
structure ContextPlacementIssue where
  TotalTokens : Int
  ImportantAtStart : Bool
  ImportantAtEnd : Bool
  ImportantInMiddle : Bool
  RecommendedChanges : String
  deriving DecidableEq, Repr

/-- AmbiguityIssue record. -/
structure AmbiguityIssue where
  Pattern : String
  LineNumber : Int
  Description : String
  Example : GoStr
  Severity : String
  deriving DecidableEq, Repr

/-- URLIssue record (detector_url.go). -/
structure URLIssue where
  URL : GoStr
  Length : Int
  Occurrences : Int
  LineNumbers : List Int
  TokenCost : Int
  deriving DecidableEq, Repr

/-- URLPattern record. -/
structure URLPattern where
  URL : GoStr
  Length : Int
  Occurrences : Int
  LineNumbers : List Int
  TokenCost : Int
  deriving DecidableEq, Repr

/-- ConsecutiveEmptyLines record. -/
structure ConsecutiveEmptyLines where
  StartLine : Int
  EndLine : Int
  Count : Int
  deriving DecidableEq, Repr

/-- LongLine record; Content holds the byte string produced by
utils.Truncate. -/
structure LongLine where
  LineNumber : Int
  Length : Int
  Tokens : Int
  Content : List Nat
  deriving DecidableEq, Repr

/-- RepeatedPhrase record. -/
structure RepeatedPhrase where
  Phrase : GoStr
  Count : Int
  TotalTokens : Int
  LineNumbers : List Int
  deriving DecidableEq, Repr, Inhabited

/-- AdvancedPatterns record. -/
structure AdvancedPatterns where
  URLs : List URLPattern
  ConsecutiveEmpty : List ConsecutiveEmptyLines
  LongLines : List LongLine
  deriving DecidableEq, Repr

/-- Patterns record. -/
structure Patterns where
  EmptyLines : Int
  EmptyLineTokens : Int
  WhitespaceOnlyLines : Int
  WhitespaceTokens : Int
  HighRatioLines : List LineInsight
  UnicodeLines : List LineInsight
  RepeatedPhrases : List RepeatedPhrase
  deriving DecidableEq, Repr

/-- Recommendation record.  The three computed text fields hold Go byte
strings (Go string concatenation and Truncate act on bytes), modelled as
lists of byte values. -/
structure Recommendation where
  Title : String
  Description : List Nat
  AffectedLines : List Int
  EstimatedSave : Int
  SavePercentage : GoFloat
  Priority : Int
  Difficulty : String
  BeforeExample : List Nat
  AfterExample : List Nat
  IsQuickWin : Bool
  deriving DecidableEq, Repr, Inhabited

/-- LLMSafetyAnalysis record. -/
structure LLMSafetyAnalysis where
  EmojiIssues : List EmojiIssue
  InvisibleCharIssues : List InvisibleCharIssue
  NumberFormatIssues : List NumberFormatIssue
  OOVStringIssues : List OOVStringIssue
  BiDiControlIssues : List BiDiControlIssue
  ConfusableIssues : List ConfusableIssue
  EncodingIssues : List EncodingIssue
  NormalizationIssues : List NormalizationIssue
  GlitchTokenIssues : List GlitchTokenIssue
  ContextIssues : List ContextPlacementIssue
  AmbiguityIssues : List AmbiguityIssue
  TotalIssues : Int
  TokensSaved : Int
  ReliabilityScore : Int
  deriving DecidableEq, Repr

/-- CategoryBreakdown record. -/
structure CategoryBreakdown where
  Prose : Int
  CodeBlocks : Int
  URLs : Int
  Formatting : Int
  Whitespace : Int
  Total : Int
  deriving DecidableEq, Repr

/-- PercentileStats record. -/
structure PercentileStats where
  Min : Int
  Percentile25 : Int
  Median : Int
  Percentile75 : Int
  Percentile90 : Int
  Percentile95 : Int
  Max : Int
  Top10Pct : GoFloat
  deriving DecidableEq, Repr

/-- DensityBlock record. -/
structure DensityBlock where
  StartLine : Int
  EndLine : Int
  Tokens : Int
  Percentage : GoFloat
  IsHot : Bool
  deriving DecidableEq, Repr

/-- TokenDensityMap record. -/
structure TokenDensityMap where
  Blocks : List DensityBlock
  deriving DecidableEq, Repr

/-- Analysis record (the aggregate root). -/
structure Analysis where
  TotalTokens : Int
  TotalLines : Int
  TotalChars : Int
  AvgTokensPerLine : GoFloat
  EfficiencyScore : Int
  LineInsights : List LineInsight
  Patterns : Patterns
  AdvancedPatterns : AdvancedPatterns
  CategoryBreakdown : CategoryBreakdown
  Percentiles : PercentileStats
  DensityMap : TokenDensityMap
  LLMSafetyAnalysis : LLMSafetyAnalysis
  Recommendations : List Recommendation
  QuickWins : List Recommendation
  PotentialSavings : Int
  WasteTokens : Int
  deriving DecidableEq, Repr

/-!
GetTopExpensiveLines (analyzer.go).  The Go method copies the LineInsights
slice, sorts the copy with sort.Slice by token count descending, clamps n to
the length from above, and returns the slice lines[:n], which panics when n
is negative.  The embedding returns none for the panic and also returns the
analysis value, which the method leaves unchanged because it sorts only the
copy.
-/

/-- The comparator of GetTopExpensiveLines. -/
def lineTokensLess (x y : LineInsight) : Bool := decide (y.Tokens < x.Tokens)

/-- The comparator is the key comparator of the negated token count. -/
theorem lineTokensLess_eq_keyLess :
    lineTokensLess = keyLess (fun li : LineInsight => -li.Tokens) := by
  funext x y
  unfold lineTokensLess keyLess
  dsimp only
  exact decide_eq_decide.mpr (by omega)

/-- GetTopExpensiveLines. -/
def getTopExpensiveLines (a : Analysis) (n : Int) :
    Option (List LineInsight) × Analysis :=
  let lines := a.LineInsights
  let sorted := goSortSlice lineTokensLess lines
  let n2 := if n > (lines.length : Int) then (lines.length : Int) else n
  (if n2 < 0 then none else some (sorted.take n2.toNat), a)

/-- A line insight with the given line number and token count and zero
values elsewhere (concrete test input constructor). -/
def mkInsight (ln tok : Int) : LineInsight :=
  { LineNumber := ln, Content := [], Tokens := tok, Chars := 0,
    TokenCharRatioVal := 0, IsEmpty := false, IsWhitespaceOnly := false,
    HasUnicode := false }

/-- An analysis with the given line insights and zero values elsewhere
(concrete test input constructor). -/
def mkAnalysis (insights : List LineInsight) : Analysis :=
  { TotalTokens := 0, TotalLines := 0, TotalChars := 0, AvgTokensPerLine := 0,
    EfficiencyScore := 0, LineInsights := insights,
    Patterns := ⟨0, 0, 0, 0, [], [], []⟩,
    AdvancedPatterns := ⟨[], [], []⟩,
    CategoryBreakdown := ⟨0, 0, 0, 0, 0, 0⟩,
    Percentiles := ⟨0, 0, 0, 0, 0, 0, 0, 0⟩,
    DensityMap := ⟨[]⟩,
    LLMSafetyAnalysis := ⟨[], [], [], [], [], [], [], [], [], [], [], 0, 0, 0⟩,
    Recommendations := [], QuickWins := [], PotentialSavings := 0,
    WasteTokens := 0 }

/-- Thirteen insights, line numbers 1..13, all token counts tied at 0
except line 2. -/
def c8Insights : List LineInsight :=
  [mkInsight 1 0, mkInsight 2 1, mkInsight 3 0, mkInsight 4 0, mkInsight 5 0,
   mkInsight 6 0, mkInsight 7 0, mkInsight 8 0, mkInsight 9 0, mkInsight 10 0,
   mkInsight 11 0, mkInsight 12 0, mkInsight 13 0]

/-- C10: GetTopExpensiveLines panics (none) exactly for negative n; for
n >= 0 it returns min(n, len(LineInsights)) elements; and the analysis
value is unchanged, because the method sorts a copy of the slice. -/
theorem getTopExpensiveLines_safety (a : Analysis) (n : Int) :
    ((n < 0 → (getTopExpensiveLines a n).1 = none) ∧
     (0 ≤ n → ∃ l, (getTopExpensiveLines a n).1 = some l ∧
        l.length = min n.toNat a.LineInsights.length)) ∧
    (getTopExpensiveLines a n).2 = a := by
  unfold getTopExpensiveLines
  dsimp only
  have hlen : (goSortSlice lineTokensLess a.LineInsights).length
      = a.LineInsights.length := goSortSlice_length _ _
  refine ⟨⟨?_, ?_⟩, rfl⟩
  · intro hneg
    rw [if_neg (by omega : ¬ n > (a.LineInsights.length : Int))]
    rw [if_pos hneg]
  · intro hpos
    by_cases hgt : n > (a.LineInsights.length : Int)
    · rw [if_pos hgt,
        if_neg (by omega : ¬ ((a.LineInsights.length : Int) < 0))]
      refine ⟨_, rfl, ?_⟩
      rw [List.length_take, hlen]
      omega
    · rw [if_neg hgt, if_neg (by omega : ¬ n < 0)]
      refine ⟨_, rfl, ?_⟩
      rw [List.length_take, hlen]

/-- Witness for C10 at a concrete analysis and both a negative and a
non-negative argument. -/
theorem getTopExpensiveLines_safety_witness :
    ((((-1 : Int) < 0 →
        (getTopExpensiveLines (mkAnalysis c8Insights) (-1)).1 = none) ∧
      ((0 : Int) ≤ -1 → ∃ l,
        (getTopExpensiveLines (mkAnalysis c8Insights) (-1)).1 = some l ∧
        l.length =
          min (-1 : Int).toNat (mkAnalysis c8Insights).LineInsights.length)) ∧
     (getTopExpensiveLines (mkAnalysis c8Insights) (-1)).2 =
       mkAnalysis c8Insights) ∧
    (((5 : Int) < 0 →
        (getTopExpensiveLines (mkAnalysis c8Insights) 5).1 = none) ∧
      ((0 : Int) ≤ 5 → ∃ l,
        (getTopExpensiveLines (mkAnalysis c8Insights) 5).1 = some l ∧
        l.length =
          min (5 : Int).toNat (mkAnalysis c8Insights).LineInsights.length)) ∧
     (getTopExpensiveLines (mkAnalysis c8Insights) 5).2 =
       mkAnalysis c8Insights :=
  ⟨getTopExpensiveLines_safety (mkAnalysis c8Insights) (-1),
   getTopExpensiveLines_safety (mkAnalysis c8Insights) 5⟩

/-- C8 counterexample: on the thirteen insights of c8Insights (token
counts tied at 0 everywhere except line 2) GetTopExpensiveLines 13
returns the tied lines in order 7, 3, 4, 5, 6, 1, ... — not their
original order 1, 3, 4, 5, 6, 7, ...: the sort.Slice pdqsort is not
stable above twelve elements. -/
theorem getTopExpensive_ties_reordered :
    (getTopExpensiveLines (mkAnalysis c8Insights) 13).1.map
        (List.map fun li => li.LineNumber) =
      some [2, 7, 3, 4, 5, 6, 1, 8, 9, 10, 11, 12, 13] ∧
    c8Insights.map (fun li => (li.LineNumber, li.Tokens)) =
      [(1, 0), (2, 1), (3, 0), (4, 0), (5, 0), (6, 0), (7, 0), (8, 0),
       (9, 0), (10, 0), (11, 0), (12, 0), (13, 0)] := by
  constructor
  · rfl
  · rfl

/-- C8 amended: for every analysis of at most twelve line insights and
every n >= 0, GetTopExpensiveLines returns the first n elements of the
canonical stable sort by token count descending, and the returned list
is pairwise non-increasing in token count. -/
theorem getTopExpensiveLines_stable_short (a : Analysis) (n : Int)
    (hn : 0 ≤ n) (hle : a.LineInsights.length ≤ 12) :
    (getTopExpensiveLines a n).1 =
      some ((goStableSort lineTokensLess a.LineInsights).take n.toNat) ∧
    ∀ l, (getTopExpensiveLines a n).1 = some l →
      l.Pairwise fun u v => v.Tokens ≤ u.Tokens := by
  have hsort : goSortSlice lineTokensLess a.LineInsights =
      goStableSort lineTokensLess a.LineInsights := by
    rw [lineTokensLess_eq_keyLess]
    exact goSortSlice_short _ _ hle
  have hslen : (goStableSort lineTokensLess a.LineInsights).length =
      a.LineInsights.length := goStableSort_length _ _
  have hpair : (goStableSort lineTokensLess a.LineInsights).Pairwise
      fun u v => v.Tokens ≤ u.Tokens := by
    have hks := keySorted_goStableSort
      (fun li : LineInsight => -li.Tokens) a.LineInsights
    rw [← lineTokensLess_eq_keyLess] at hks
    unfold KeySorted at hks
    refine hks.imp ?_
    intro u v h
    dsimp only at h
    omega
  have hmain : (getTopExpensiveLines a n).1 =
      some ((goStableSort lineTokensLess a.LineInsights).take n.toNat) := by
    unfold getTopExpensiveLines
    dsimp only
    rw [hsort]
    by_cases hgt : n > (a.LineInsights.length : Int)
    · rw [if_pos hgt,
        if_neg (by omega : ¬ ((a.LineInsights.length : Int) < 0))]
      have h1 : (goStableSort lineTokensLess a.LineInsights).length ≤
          ((a.LineInsights.length : Int)).toNat := by omega
      have h2 : (goStableSort lineTokensLess a.LineInsights).length ≤
          n.toNat := by omega
      rw [List.take_of_length_le h1, List.take_of_length_le h2]
    · rw [if_neg hgt, if_neg (by omega : ¬ n < 0)]
  refine ⟨hmain, ?_⟩
  intro l hl
  rw [hmain] at hl
  cases Option.some.inj hl
  exact List.Pairwise.sublist (List.take_sublist _ _) hpair

/-- Witness for the C8 amended theorem at a three-insight analysis. -/
theorem getTopExpensiveLines_stable_short_witness :
    (0 : Int) ≤ 2 ∧
    (mkAnalysis [mkInsight 1 5, mkInsight 2 9, mkInsight 3 5]).LineInsights.length ≤ 12 ∧
    ((getTopExpensiveLines
        (mkAnalysis [mkInsight 1 5, mkInsight 2 9, mkInsight 3 5]) 2).1 =
      some ((goStableSort lineTokensLess
        (mkAnalysis [mkInsight 1 5, mkInsight 2 9,
          mkInsight 3 5]).LineInsights).take (2 : Int).toNat) ∧
     ∀ l, (getTopExpensiveLines
        (mkAnalysis [mkInsight 1 5, mkInsight 2 9, mkInsight 3 5]) 2).1 =
          some l →
       l.Pairwise fun u v => v.Tokens ≤ u.Tokens) :=
  ⟨by decide, by decide,
   getTopExpensiveLines_stable_short
     (mkAnalysis [mkInsight 1 5, mkInsight 2 9, mkInsight 3 5]) 2
     (by decide) (by decide)⟩

/-!
generateEnhancedRecommendations (analyzer.go) and its generator functions.
All Go string concatenation and utils.Truncate work on bytes, so computed
text fields are byte lists.  The generators that collect affected line
numbers as keys of a map[int]bool and then sort.Ints them always produce
the ascending list of the distinct line numbers, independent of the map
iteration order, so that step is embedded as dedup followed by an
ascending sort.
-/

/-- Decimal byte string of an integer (fmt.Sprintf of %d). -/
def goDigits (n : Int) : List Nat :=
  if n < 0 then 45 :: (Nat.toDigits 10 (-n).toNat).map Char.toNat
  else (Nat.toDigits 10 n.toNat).map Char.toNat

/-- formatNumber: insert a comma before every group of three digits
counted from the right (positions with i > 0 and (len-i) mod 3 = 0). -/
def formatNumber (n : Int) : List Nat :=
  let numStr := goDigits n
  if numStr.length ≤ 3 then numStr
  else
    numStr.enum.foldl (fun acc p =>
      acc ++ (if 0 < p.1 ∧ (numStr.length - p.1) % 3 = 0 then [44] else [])
        ++ [p.2]) []

/-- formatLineRange. -/
def formatLineRange (start finish : Int) : List Nat :=
  if start = finish then formatNumber start
  else goBytes (gs "Lines ") ++ formatNumber start ++ [45] ++
    formatNumber finish

/-- utils.Truncate on a byte string: keep the first maxLen bytes and
append an ASCII ellipsis when longer than maxLen. -/
def goTruncateB (s : List Nat) (maxLen : Int) : List Nat :=
  if (s.length : Int) ≤ maxLen then s
  else s.take maxLen.toNat ++ [46, 46, 46]

/-- Sorted insert for sort.Ints. -/
def insInt (x : Int) : List Int → List Int
  | [] => [x]
  | y :: ys => if x ≤ y then x :: y :: ys else y :: insInt x ys

/-- Ascending sort of an integer list (sort.Ints). -/
def sortInts (l : List Int) : List Int := l.foldr insInt []

/-- Keys of a map[int]bool built from l, then sort.Ints: the ascending
list of distinct elements (independent of Go map iteration order). -/
def distinctSortedInts (l : List Int) : List Int := sortInts l.dedup

/-- The inclusive integer range start..finish of a Go counting loop. -/
def intRangeIncl (start finish : Int) : List Int :=
  (List.range (finish - start + 1).toNat).map (fun k => start + k)

/-- Sum of an integer-valued field over a list. -/
def sumBy {α : Type} (f : α → Int) (l : List α) : Int :=
  l.foldl (fun acc x => acc + f x) 0

/-- The float64 nearest 0.3 (unicodeSavingsPercentage), exactly. -/
def unicodeSavingsPercentage : GoFloat :=
  (5404319552844595 : GoFloat) / (2 ^ 54)

/-- The float64 nearest 0.15 (longLineSavingsPercentage), exactly. -/
def longLineSavingsPercentage : GoFloat :=
  (5404319552844595 : GoFloat) / (2 ^ 55)

/-- Go int(f): truncation of a float toward zero. -/
def ratToGoInt (q : GoFloat) : Int :=
  if 0 ≤ q then q.floor else -((-q).floor)

/-- generateConsecutiveEmptyRecommendations. -/
def generateConsecutiveEmptyRecommendations (ap : AdvancedPatterns)
    (totalTokens : Int) : List Recommendation :=
  match ap.ConsecutiveEmpty with
  | [] => []
  | r0 :: rest =>
    let runs := r0 :: rest
    let totalSave := sumBy (fun r => r.Count - 1) runs
    let affectedLines :=
      runs.foldl (fun acc r => acc ++ intRangeIncl r.StartLine r.EndLine) []
    let exampleLines := formatLineRange r0.StartLine r0.EndLine
    if totalSave > 0 then
      [{ Title := "Consolidate consecutive empty lines",
         Description := goBytes (gs "Multiple empty lines in a row can be reduced to single empty lines"),
         AffectedLines := affectedLines,
         EstimatedSave := totalSave,
         SavePercentage := (totalSave : GoFloat) / (totalTokens : GoFloat) * 100,
         Priority := 1,
         Difficulty := "easy",
         BeforeExample := exampleLines ++ goBytes (gs ": ") ++
           formatNumber r0.Count ++ goBytes (gs "+ empty lines"),
         AfterExample := goBytes (gs "1 empty line per group"),
         IsQuickWin := true }]
    else []

/-- generateURLRecommendations. -/
def generateURLRecommendations (ap : AdvancedPatterns)
    (totalTokens : Int) : List Recommendation :=
  let repeatedURLs := ap.URLs.filter fun url =>
    url.Occurrences ≥ 2 && url.Length > 40
  repeatedURLs.map fun url =>
    let estimatedSave :=
      url.TokenCost * url.Occurrences - (url.TokenCost + url.Occurrences * 2)
    { Title := "Use link references for repeated URL",
      Description := goBytes (gs "Long URL appears multiple times. Use markdown reference links [1]"),
      AffectedLines := url.LineNumbers,
      EstimatedSave := estimatedSave,
      SavePercentage := (estimatedSave : GoFloat) / (totalTokens : GoFloat) * 100,
      Priority := 1,
      Difficulty := "easy",
      BeforeExample := goTruncateB (goBytes url.URL) 50 ++
        goBytes (gs " (") ++ formatNumber url.Occurrences ++
        goBytes (gs " times)"),
      AfterExample := goBytes (gs "[1] reference + definition at bottom"),
      IsQuickWin := estimatedSave > 10 }

/-- generateUnicodeRecommendations. -/
def generateUnicodeRecommendations (p : Patterns)
    (totalTokens : Int) : List Recommendation :=
  if p.UnicodeLines.length > 5 then
    let unicodeTokens := sumBy (fun li => li.Tokens) p.UnicodeLines
    let affectedLines := p.UnicodeLines.map fun li => li.LineNumber
    let estimatedSave :=
      ratToGoInt ((unicodeTokens : GoFloat) * unicodeSavingsPercentage)
    [{ Title := "Replace Unicode box-drawing characters",
       Description := goBytes (gs "Box-drawing chars (â”œâ”€â”€, â”‚, â””â”€â”€) use multiple tokens each"),
       AffectedLines := affectedLines,
       EstimatedSave := estimatedSave,
       SavePercentage := (estimatedSave : GoFloat) / (totalTokens : GoFloat) * 100,
       Priority := 2,
       Difficulty := "medium",
       BeforeExample := goBytes (gs "â”œâ”€â”€ file.go (Unicode box-drawing)"),
       AfterExample := goBytes (gs "  - file.go (plain indentation)"),
       IsQuickWin := false }]
  else []

/-- generateLongLineRecommendations. -/
def generateLongLineRecommendations (ap : AdvancedPatterns)
    (totalTokens : Int) : List Recommendation :=
  if ap.LongLines.length > 10 then
    let longLineTokens := sumBy (fun ll => ll.Tokens) ap.LongLines
    let affectedLines := ap.LongLines.map fun ll => ll.LineNumber
    let estimatedSave :=
      ratToGoInt ((longLineTokens : GoFloat) * longLineSavingsPercentage)
    [{ Title := "Wrap long lines",
       Description := goBytes (gs "Lines longer than 120 characters can often be wrapped for better readability"),
       AffectedLines := affectedLines,
       EstimatedSave := estimatedSave,
       SavePercentage := (estimatedSave : GoFloat) / (totalTokens : GoFloat) * 100,
       Priority := 3,
       Difficulty := "easy",
       BeforeExample := goBytes (gs "Single line >120 chars"),
       AfterExample := goBytes (gs "Wrapped to multiple shorter lines"),
       IsQuickWin := false }]
  else []

/-- generatePhraseRecommendations. -/
def generatePhraseRecommendations (p : Patterns)
    (totalTokens : Int) : List Recommendation :=
  (p.RepeatedPhrases.filter fun ph => ph.Count ≥ 5).map fun ph =>
    let estimatedSave := Int.div ph.TotalTokens 2
    { Title := "Abbreviate repeated phrase",
      Description := [34] ++ goTruncateB (goBytes ph.Phrase) 40 ++
        goBytes (gs "\" appears ") ++ formatNumber ph.Count ++
        goBytes (gs " times"),
      AffectedLines := ph.LineNumbers,
      EstimatedSave := estimatedSave,
      SavePercentage := (estimatedSave : GoFloat) / (totalTokens : GoFloat) * 100,
      Priority := 2,
      Difficulty := "medium",
      BeforeExample := goBytes ph.Phrase ++ goBytes (gs " (full text each time)"),
      AfterExample := goBytes (gs "Use abbreviation or variable"),
      IsQuickWin := false }

/-- EmojiRecommendationGenerator.GenerateRecommendations. -/
def emojiRecommendations (sa : LLMSafetyAnalysis)
    (totalTokens : Int) : List Recommendation :=
  if sa.EmojiIssues.length = 0 then []
  else
    let affectedLines :=
      distinctSortedInts (sa.EmojiIssues.map fun i => i.LineNumber)
    let totalEmojiTokens := sumBy (fun i => i.TokenCost) sa.EmojiIssues
    [{ Title := "Remove emojis for LLM safety",
       Description := goBytes (gs "Emojis, especially ZWJ sequences, reduce judge reliability and split unpredictably across tokenizers (arXiv:2411.01077)"),
       AffectedLines := affectedLines,
       EstimatedSave := totalEmojiTokens,
       SavePercentage := (totalEmojiTokens : GoFloat) / (totalTokens : GoFloat) * 100,
       Priority := 1,
       Difficulty := "easy",
       BeforeExample := goBytes (gs "Deploy now ðŸš€âœ…ðŸ’¯"),
       AfterExample := goBytes (gs "Deploy now (or use: Deploy now <rocket><check><perfect>)"),
       IsQuickWin := sa.EmojiIssues.length ≤ 5 }]

/-- InvisibleCharRecommendationGenerator.GenerateRecommendations. -/
def invisibleRecommendations (sa : LLMSafetyAnalysis)
    (totalTokens : Int) : List Recommendation :=
  if sa.InvisibleCharIssues.length = 0 then []
  else
    let affectedLines :=
      distinctSortedInts (sa.InvisibleCharIssues.map fun i => i.LineNumber)
    let evasionCount :=
      (sa.InvisibleCharIssues.countP fun i => i.IsEvasion : Int)
    let description :=
      goBytes (gs "Zero-width characters enable prompt injection and confuse model reasoning (Trend Micro, 2025)") ++
      (if evasionCount > 0 then
        goBytes (gs " CRITICAL: ") ++ goDigits evasionCount ++
          goBytes (gs " potential evasion patterns detected")
       else [])
    [{ Title := "Remove invisible Unicode characters",
       Description := description,
       AffectedLines := affectedLines,
       EstimatedSave := (sa.InvisibleCharIssues.length : Int) * 2,
       SavePercentage := ((sa.InvisibleCharIssues.length : Int) * 2 : GoFloat) / (totalTokens : GoFloat) * 100,
       Priority := 1,
       Difficulty := "easy",
       BeforeExample := goBytes (gs "Text withâ€Œhiddenâ€Œzero-widths"),
       AfterExample := goBytes (gs "Text with hidden zero widths"),
       IsQuickWin := true }]

/-- NumberFormatRecommendationGenerator.GenerateRecommendations. -/
def numberFormatRecommendations (sa : LLMSafetyAnalysis)
    (totalTokens : Int) : List Recommendation :=
  if sa.NumberFormatIssues.length = 0 then []
  else
    let affectedLines :=
      distinctSortedInts (sa.NumberFormatIssues.map fun i => i.LineNumber)
    let totalSave := sumBy (fun i => i.SaveEstimate) sa.NumberFormatIssues
    [{ Title := "Format large numbers with commas",
       Description := goBytes (gs "Comma-grouped digits (e.g., 1,234,567) improve LLM arithmetic accuracy by 8-15%"),
       AffectedLines := affectedLines,
       EstimatedSave := totalSave,
       SavePercentage := (totalSave : GoFloat) / (totalTokens : GoFloat) * 100,
       Priority := 2,
       Difficulty := "easy",
       BeforeExample := goBytes (gs "1234567890 users"),
       AfterExample := goBytes (gs "1,234,567,890 users"),
       IsQuickWin := true }]

/-- OOVRecommendationGenerator.GenerateRecommendations. -/
def oovRecommendations (sa : LLMSafetyAnalysis)
    (totalTokens : Int) : List Recommendation :=
  if sa.OOVStringIssues.length = 0 then []
  else
    let affectedLines :=
      distinctSortedInts (sa.OOVStringIssues.map fun i => i.LineNumber)
    let totalTokens2 := sumBy (fun i => i.TokenCount) sa.OOVStringIssues
    [{ Title := "Replace OOV strings with semantic placeholders",
       Description := goBytes (gs "Long URLs, hashes, and IDs split into many subword tokens, harming embeddings and accuracy (arXiv:2406.08477)"),
       AffectedLines := affectedLines,
       EstimatedSave := Int.div totalTokens2 2,
       SavePercentage := ((Int.div totalTokens2 2 : Int) : GoFloat) / (totalTokens : GoFloat) * 100,
       Priority := 2,
       Difficulty := "medium",
       BeforeExample := goBytes (gs "https://github.com/.../releases/.../app.tar.gz OR 2f4a45fa34d6a6ff..."),
       AfterExample := goBytes (gs "<RELEASE_URL> OR <HASH> OR <UUID>"),
       IsQuickWin := false }]

/-- BiDiControlRecommendationGenerator.GenerateRecommendations. -/
def bidiRecommendations (sa : LLMSafetyAnalysis)
    (totalTokens : Int) : List Recommendation :=
  if sa.BiDiControlIssues.length = 0 then []
  else
    let affectedLines :=
      distinctSortedInts (sa.BiDiControlIssues.map fun i => i.LineNumber)
    let trojanCount :=
      (sa.BiDiControlIssues.countP fun i => i.IsTrojanSource : Int)
    let description :=
      goBytes (gs "Bidirectional text controls enable Trojan Source attacks (CVE-2021-42574)") ++
      (if trojanCount > 0 then
        goBytes (gs " CRITICAL: ") ++ goDigits trojanCount ++
          goBytes (gs " Trojan Source patterns detected")
       else [])
    [{ Title := "Remove BiDi control characters",
       Description := description,
       AffectedLines := affectedLines,
       EstimatedSave := (sa.BiDiControlIssues.length : Int) * 2,
       SavePercentage := ((sa.BiDiControlIssues.length : Int) * 2 : GoFloat) / (totalTokens : GoFloat) * 100,
       Priority := 1,
       Difficulty := "easy",
       BeforeExample := goBytes (gs "Code with hidden BiDi controls"),
       AfterExample := goBytes (gs "Code without BiDi controls"),
       IsQuickWin := true }]

/-- ConfusableRecommendationGenerator.GenerateRecommendations. -/
def confusableRecommendations (sa : LLMSafetyAnalysis)
    (totalTokens : Int) : List Recommendation :=
  if sa.ConfusableIssues.length = 0 then []
  else
    let affectedLines :=
      distinctSortedInts (sa.ConfusableIssues.map fun i => i.LineNumber)
    let mixedScriptCount :=
      (sa.ConfusableIssues.countP fun i => i.IsMixedScript : Int)
    let description :=
      goBytes (gs "Homoglyphs and mixed-script identifiers enable spoofing attacks (UTS #39)") ++
      (if mixedScriptCount > 0 then
        goBytes (gs ". ") ++ goDigits mixedScriptCount ++
          goBytes (gs " mixed-script identifiers detected")
       else [])
    [{ Title := "Replace confusable characters with ASCII equivalents",
       Description := description,
       AffectedLines := affectedLines,
       EstimatedSave := (sa.ConfusableIssues.length : Int) * 1,
       SavePercentage := ((sa.ConfusableIssues.length : Int) : GoFloat) / (totalTokens : GoFloat) * 100,
       Priority := 1,
       Difficulty := "easy",
       BeforeExample := goBytes (gs "Ð¡yrillic ") ++ [39] ++
         goBytes (gs "Ð°") ++ [39] ++
         goBytes (gs " (U+0430) in identifier"),
       AfterExample := goBytes (gs "Latin ") ++ [39, 97, 39] ++
         goBytes (gs " (U+0061) in identifier"),
       IsQuickWin := true }]

/-- EncodingRecommendationGenerator.GenerateRecommendations. -/
def encodingRecommendations (sa : LLMSafetyAnalysis)
    (totalTokens : Int) : List Recommendation :=
  if sa.EncodingIssues.length = 0 then []
  else
    let affectedLines :=
      distinctSortedInts (sa.EncodingIssues.map fun i => i.LineNumber)
    let base64Count :=
      (sa.EncodingIssues.countP fun i => i.EncodingType == "base64" : Int)
    let hexCount :=
      (sa.EncodingIssues.countP fun i => i.EncodingType == "hex" : Int)
    let totalCost := sumBy (fun i => i.TokenCost) sa.EncodingIssues
    let description :=
      goBytes (gs "Encoded text bypasses moderation and confuses models (NeurIPS 2024 JAM)") ++
      (if base64Count > 0 ∨ hexCount > 0 then
        goBytes (gs ". Found ") ++ goDigits base64Count ++
          goBytes (gs " Base64 and ") ++ goDigits hexCount ++
          goBytes (gs " hex patterns")
       else [])
    [{ Title := "Decode or remove encoded/obfuscated text",
       Description := description,
       AffectedLines := affectedLines,
       EstimatedSave := totalCost,
       SavePercentage := (totalCost : GoFloat) / (totalTokens : GoFloat) * 100,
       Priority := 1,
       Difficulty := "easy",
       BeforeExample := goBytes (gs "SGVsbG8gV29ybGQh (Base64) or 0x48656c6c6f (hex)"),
       AfterExample := goBytes (gs "Hello World (decoded plaintext)"),
       IsQuickWin := true }]

/-- NormalizationRecommendationGenerator.GenerateRecommendations. -/
def normalizationRecommendations (sa : LLMSafetyAnalysis)
    (totalTokens : Int) : List Recommendation :=
  if sa.NormalizationIssues.length = 0 then []
  else
    let affectedLines :=
      distinctSortedInts (sa.NormalizationIssues.map fun i => i.LineNumber)
    [{ Title := "Normalize Unicode to NFC form",
       Description := goBytes (gs "Non-normalized text causes tokenization inconsistencies (UAX #15)"),
       AffectedLines := affectedLines,
       EstimatedSave := (sa.NormalizationIssues.length : Int) * 2,
       SavePercentage := ((sa.NormalizationIssues.length : Int) * 2 : GoFloat) / (totalTokens : GoFloat) * 100,
       Priority := 2,
       Difficulty := "easy",
       BeforeExample := goBytes (gs "Ã© (e + combining acute U+0301)"),
       AfterExample := goBytes (gs "Ã© (single char U+00E9)"),
       IsQuickWin := false }]

/-- GlitchTokenRecommendationGenerator.GenerateRecommendations. -/
def glitchRecommendations (sa : LLMSafetyAnalysis)
    (totalTokens : Int) : List Recommendation :=
  if sa.GlitchTokenIssues.length = 0 then []
  else
    let affectedLines :=
      distinctSortedInts (sa.GlitchTokenIssues.map fun i => i.LineNumber)
    [{ Title := "Remove or replace glitch tokens",
       Description := goBytes (gs "Known glitch tokens cause unstable model behavior (arXiv:2404.09894)"),
       AffectedLines := affectedLines,
       EstimatedSave := (sa.GlitchTokenIssues.length : Int) * 10,
       SavePercentage := ((sa.GlitchTokenIssues.length : Int) * 10 : GoFloat) / (totalTokens : GoFloat) * 100,
       Priority := 1,
       Difficulty := "medium",
       BeforeExample := goBytes (gs " SolidGoldMagikarp"),
       AfterExample := goBytes (gs "SolidGoldMagikarp (space-separated)"),
       IsQuickWin := false }]

/-- ContextPlacementRecommendationGenerator.GenerateRecommendations. -/
def contextRecommendations (sa : LLMSafetyAnalysis)
    (_totalTokens : Int) : List Recommendation :=
  if sa.ContextIssues.length = 0 then []
  else
    (sa.ContextIssues.filter fun i => i.ImportantInMiddle).map fun _ =>
      { Title := "Move important content to start/end (Lost-in-the-Middle)",
        Description := goBytes (gs "Key facts in middle sections receive less attention (arXiv:2307.03172)"),
        AffectedLines := [],
        EstimatedSave := 0,
        SavePercentage := 0,
        Priority := 2,
        Difficulty := "medium",
        BeforeExample := goBytes (gs "Instructions buried in middle of long context"),
        AfterExample := goBytes (gs "TL;DR at top, recap at bottom"),
        IsQuickWin := false }

/-- AmbiguityRecommendationGenerator.GenerateRecommendations. -/
def ambiguityRecommendations (sa : LLMSafetyAnalysis)
    (_totalTokens : Int) : List Recommendation :=
  if sa.AmbiguityIssues.length = 0 then []
  else
    let affectedLines :=
      distinctSortedInts (sa.AmbiguityIssues.map fun i => i.LineNumber)
    let highSeverityCount :=
      (sa.AmbiguityIssues.countP fun i => i.Severity == "high" : Int)
    let description :=
      goBytes (gs "Ambiguous or sycophantic prompts reduce truthfulness (PLOS ONE 2025)") ++
      (if highSeverityCount > 0 then
        goBytes (gs ". ") ++ goDigits highSeverityCount ++
          goBytes (gs " high-severity patterns detected")
       else [])
    [{ Title := "Clarify prompts and remove sycophantic framing",
       Description := description,
       AffectedLines := affectedLines,
       EstimatedSave := 0,
       SavePercentage := 0,
       Priority := 2,
       Difficulty := "medium",
       BeforeExample := goBytes (gs "You are a helpful assistant who always agrees with the user"),
       AfterExample := goBytes (gs "You are a truthful assistant. Cite evidence before answering."),
       IsQuickWin := false }]

/-- generateLLMSafetyRecommendations: early return when TotalIssues = 0,
otherwise the eleven issue generators in registration order. -/
def generateLLMSafetyRecommendations (sa : LLMSafetyAnalysis)
    (totalTokens : Int) : List Recommendation :=
  if sa.TotalIssues = 0 then []
  else
    emojiRecommendations sa totalTokens ++
    invisibleRecommendations sa totalTokens ++
    numberFormatRecommendations sa totalTokens ++
    oovRecommendations sa totalTokens ++
    bidiRecommendations sa totalTokens ++
    confusableRecommendations sa totalTokens ++
    encodingRecommendations sa totalTokens ++
    normalizationRecommendations sa totalTokens ++
    glitchRecommendations sa totalTokens ++
    contextRecommendations sa totalTokens ++
    ambiguityRecommendations sa totalTokens

/-- The recommendation list before the final sort: safety-issue
recommendations first, then the five pattern generators in call order. -/
def allRecommendations (p : Patterns) (ap : AdvancedPatterns)
    (totalTokens : Int) (sa : LLMSafetyAnalysis) : List Recommendation :=
  generateLLMSafetyRecommendations sa totalTokens ++
  generateConsecutiveEmptyRecommendations ap totalTokens ++
  generateURLRecommendations ap totalTokens ++
  generateUnicodeRecommendations p totalTokens ++
  generateLongLineRecommendations ap totalTokens ++
  generatePhraseRecommendations p totalTokens

/-- The sort.Slice comparator of generateEnhancedRecommendations. -/
def recLess (x y : Recommendation) : Bool :=
  if x.IsQuickWin ≠ y.IsQuickWin then x.IsQuickWin
  else if x.Priority ≠ y.Priority then decide (x.Priority < y.Priority)
  else decide (y.EstimatedSave < x.EstimatedSave)

/-- The sort key realising recLess: quick wins first, priority
ascending, estimated save descending, lexicographically. -/
def recKey (r : Recommendation) : Int ×ₗ (Int ×ₗ Int) :=
  toLex ((if r.IsQuickWin then 0 else 1),
    toLex (r.Priority, -r.EstimatedSave))

/-- generateEnhancedRecommendations: concatenate the generator outputs
and sort.Slice them with recLess.  The categoryBreakdown and lines
parameters of the Go function are unused by its body. -/
def generateEnhancedRecommendations (p : Patterns) (ap : AdvancedPatterns)
    (_cb : CategoryBreakdown) (totalTokens : Int) (_lines : List GoStr)
    (sa : LLMSafetyAnalysis) : List Recommendation :=
  goSortSlice recLess (allRecommendations p ap totalTokens sa)

/-- recLess is the key comparator of recKey. -/
theorem recLess_eq_keyLess : recLess = keyLess recKey := by
  funext x y
  unfold recLess keyLess recKey
  have heq : ∀ (hx : x.IsQuickWin = y.IsQuickWin),
      (if x.Priority ≠ y.Priority then decide (x.Priority < y.Priority)
       else decide (y.EstimatedSave < x.EstimatedSave)) =
      decide (toLex ((if x.IsQuickWin then (0 : Int) else 1),
          toLex (x.Priority, -x.EstimatedSave)) <
        toLex ((if y.IsQuickWin then (0 : Int) else 1),
          toLex (y.Priority, -y.EstimatedSave))) := by
    intro hx
    rw [hx]
    by_cases hp : x.Priority = y.Priority
    · rw [if_neg (by simp [hp])]
      refine (decide_eq_decide.mpr ?_).symm
      rw [Prod.Lex.lt_iff]
      constructor
      · rintro (h | ⟨-, h⟩)
        · exact absurd h (lt_irrefl _)
        · rw [Prod.Lex.lt_iff] at h
          rcases h with h | ⟨-, h⟩
          · exact absurd h (by omega)
          · omega
      · intro h
        refine Or.inr ⟨rfl, ?_⟩
        rw [Prod.Lex.lt_iff]
        exact Or.inr ⟨hp, by omega⟩
    · rw [if_pos hp]
      refine (decide_eq_decide.mpr ?_).symm
      rw [Prod.Lex.lt_iff]
      constructor
      · rintro (h | ⟨-, h⟩)
        · exact absurd h (lt_irrefl _)
        · rw [Prod.Lex.lt_iff] at h
          rcases h with h | ⟨h, -⟩
          · exact h
          · exact absurd h hp
      · intro h
        refine Or.inr ⟨rfl, ?_⟩
        rw [Prod.Lex.lt_iff]
        exact Or.inl h
  cases hx : x.IsQuickWin <;> cases hy : y.IsQuickWin
  · rw [if_neg (by simp)]
    have := heq (by rw [hx, hy])
    rw [hx, hy] at this
    exact this
  · rw [if_pos (by simp)]
    refine (decide_eq_false ?_).symm
    intro h
    rw [Prod.Lex.lt_iff] at h
    rcases h with h | ⟨h, -⟩
    · exact absurd h (by simp)
    · exact absurd h (by simp)
  · rw [if_pos (by simp)]
    refine (decide_eq_true ?_).symm
    rw [Prod.Lex.lt_iff]
    exact Or.inl (by simp)
  · rw [if_neg (by simp)]
    have := heq (by rw [hx, hy])
    rw [hx, hy] at this
    exact this

/-- A URL pattern occurring twice with the given line number and token
cost, long enough for the URL recommendation generator. -/
def mkURL (ln tc : Int) : URLPattern :=
  { URL := gs "u", Length := 41, Occurrences := 2, LineNumbers := [ln],
    TokenCost := tc }

/-- Empty pattern statistics. -/
def emptyPatterns : Patterns := ⟨0, 0, 0, 0, [], [], []⟩

/-- Empty category breakdown. -/
def emptyBreakdown : CategoryBreakdown := ⟨0, 0, 0, 0, 0, 0⟩

/-- A safety analysis with no issues. -/
def emptySafety : LLMSafetyAnalysis :=
  ⟨[], [], [], [], [], [], [], [], [], [], [], 0, 0, 0⟩

/-- Thirteen repeated URLs: all resulting recommendations are quick wins
of priority 1, with estimated save 11 except the second, which saves 12. -/
def c4Advanced : AdvancedPatterns :=
  ⟨[mkURL 1 15, mkURL 2 16, mkURL 3 15, mkURL 4 15, mkURL 5 15,
    mkURL 6 15, mkURL 7 15, mkURL 8 15, mkURL 9 15, mkURL 10 15,
    mkURL 11 15, mkURL 12 15, mkURL 13 15], [], []⟩

/-- Two repeated URLs, well under the insertion-sort bound. -/
def c4SmallAdvanced : AdvancedPatterns := ⟨[mkURL 1 15, mkURL 2 16], [], []⟩

/-- C4 counterexample: thirteen URL recommendations, all quick wins of
priority 1 with estimated save 11 except the second (save 12), leave
generateEnhancedRecommendations in affected-line order
2, 7, 3, 4, 5, 6, 1, 8, ..., 13: the tied recommendations are not in
their input concatenation order 1, 3, 4, 5, 6, 7, ..., so the
sort.Slice pdqsort is not a stable sort of the generator output. -/
theorem recommendations_ties_reordered :
    (generateEnhancedRecommendations emptyPatterns c4Advanced emptyBreakdown
        1000 [] emptySafety).map (fun r => r.AffectedLines) =
      [[2], [7], [3], [4], [5], [6], [1], [8], [9], [10], [11], [12], [13]] ∧
    (allRecommendations emptyPatterns c4Advanced 1000 emptySafety).map
        (fun r => (r.AffectedLines, r.IsQuickWin, r.Priority,
          r.EstimatedSave)) =
      [([1], true, 1, 11), ([2], true, 1, 12), ([3], true, 1, 11),
       ([4], true, 1, 11), ([5], true, 1, 11), ([6], true, 1, 11),
       ([7], true, 1, 11), ([8], true, 1, 11), ([9], true, 1, 11),
       ([10], true, 1, 11), ([11], true, 1, 11), ([12], true, 1, 11),
       ([13], true, 1, 11)] :=
  ⟨rfl, rfl⟩

/-- C4 amended: when the concatenated generator output has at most twelve
recommendations, generateEnhancedRecommendations is its canonical stable
sort under the comparator (quick wins first, then priority ascending,
then estimated save descending), so ties keep their input order, and the
result is sorted by that lexicographic key. -/
theorem generateEnhancedRecommendations_stable_short (p : Patterns)
    (ap : AdvancedPatterns) (cb : CategoryBreakdown) (totalTokens : Int)
    (lines : List GoStr) (sa : LLMSafetyAnalysis)
    (hle : (allRecommendations p ap totalTokens sa).length ≤ 12) :
    generateEnhancedRecommendations p ap cb totalTokens lines sa =
      goStableSort recLess (allRecommendations p ap totalTokens sa) ∧
    KeySorted recKey
      (generateEnhancedRecommendations p ap cb totalTokens lines sa) := by
  have h1 : generateEnhancedRecommendations p ap cb totalTokens lines sa =
      goSortSlice recLess (allRecommendations p ap totalTokens sa) := rfl
  have h2 : goSortSlice recLess (allRecommendations p ap totalTokens sa) =
      goStableSort recLess (allRecommendations p ap totalTokens sa) := by
    rw [recLess_eq_keyLess]
    exact goSortSlice_short _ _ hle
  refine ⟨h1.trans h2, ?_⟩
  rw [h1, h2, recLess_eq_keyLess]
  exact keySorted_goStableSort _ _

/-- Witness for the C4 amended theorem at a two-recommendation input. -/
theorem generateEnhancedRecommendations_stable_short_witness :
    (allRecommendations emptyPatterns c4SmallAdvanced 1000
        emptySafety).length ≤ 12 ∧
    (generateEnhancedRecommendations emptyPatterns c4SmallAdvanced
        emptyBreakdown 1000 [] emptySafety =
      goStableSort recLess
        (allRecommendations emptyPatterns c4SmallAdvanced 1000
          emptySafety) ∧
     KeySorted recKey
       (generateEnhancedRecommendations emptyPatterns c4SmallAdvanced
         emptyBreakdown 1000 [] emptySafety)) :=
  ⟨by decide,
   generateEnhancedRecommendations_stable_short emptyPatterns
     c4SmallAdvanced emptyBreakdown 1000 [] emptySafety (by decide)⟩

/-!
ContextPlacementDetector (detector_context_placement.go) and
calculateReliabilityScore (analyzer.go), with the aggregate step of
extractLLMSafetyAnalysis.
-/

/-- DetectionContext record (models.go). -/
structure DetectionContext where
  Content : GoStr
  Lines : List GoStr
  Tokens : List Token
  LineInsights : List LineInsight
  TotalTokens : Int
  deriving Repr

/-- detectContextImportantContent: some line contains one of the
keywords after lowercasing. -/
def detectContextImportantContent (lines : List GoStr) : Bool :=
  lines.any fun line =>
    [gs "system:", gs "instruction:", gs "important:", gs "note:",
     gs "critical:", gs "must:", gs "required:"].any fun kw =>
      goContains (goToLower line) kw

/-- ContextPlacementDetector.Detect: below 4000 tokens no issue;
otherwise exactly one issue describing where important content sits. -/
def contextPlacementDetect (ctx : DetectionContext) :
    List ContextPlacementIssue :=
  if ctx.TotalTokens < 4000 then []
  else
    let lines := ctx.Lines
    let importantAtStart :=
      detectContextImportantContent (lines.take (min 5 lines.length))
    let importantAtEnd :=
      detectContextImportantContent (lines.drop (max 0 (lines.length - 5)))
    let middleStart := lines.length / 3
    let middleEnd := 2 * lines.length / 3
    let importantInMiddle :=
      if middleEnd > middleStart then
        detectContextImportantContent
          ((lines.drop middleStart).take (middleEnd - middleStart))
      else false
    [{ TotalTokens := ctx.TotalTokens,
       ImportantAtStart := importantAtStart,
       ImportantAtEnd := importantAtEnd,
       ImportantInMiddle := importantInMiddle,
       RecommendedChanges := "Move key facts to start/end; avoid burying instructions in middle" }]

/-- The two clamp statements at the end of calculateReliabilityScore. -/
def goClamp (s : Int) : Int :=
  let s1 := if s < 0 then 0 else s
  if s1 > 100 then 100 else s1

/-- calculateReliabilityScore. -/
def calculateReliabilityScore (sa : LLMSafetyAnalysis) : Int :=
  if sa.TotalIssues = 0 then 100
  else
    goClamp (100
      - (sa.EmojiIssues.length : Int) * 3
      - sumBy (fun i => if i.IsEvasion then 10 else 5) sa.InvisibleCharIssues
      - sumBy (fun i => if i.IsTrojanSource then 15 else 5)
          sa.BiDiControlIssues
      - (sa.ConfusableIssues.length : Int) * 8
      - sumBy (fun i =>
          if i.EncodingType = "base64" ∨ i.EncodingType = "hex" ∨
              i.EncodingType = "leetspeak" ∨ i.EncodingType = "rot13" then 10
          else if i.EncodingType = "ascii_art" then 12
          else 8) sa.EncodingIssues
      - (sa.NormalizationIssues.length : Int) * 3
      - (sa.GlitchTokenIssues.length : Int) * 12
      - sumBy (fun i => if i.TotalTokens > 8000 then 5 else 0) sa.ContextIssues
      - sumBy (fun i =>
          if i.Severity = "high" then 8
          else if i.Severity = "medium" then 6
          else if i.Severity = "low" then 3
          else 0) sa.AmbiguityIssues
      - (sa.NumberFormatIssues.length : Int) * 2
      - sumBy (fun i =>
          if i.StringType = "hash" ∨ i.StringType = "uuid" then 3
          else if i.StringType = "url" then 2
          else 1) sa.OOVStringIssues)

/-- The aggregate tail of extractLLMSafetyAnalysis: TotalIssues is the
sum of the eleven list lengths and ReliabilityScore is computed from the
filled record. -/
def extractSafetyFromIssues (em : List EmojiIssue)
    (inv : List InvisibleCharIssue) (num : List NumberFormatIssue)
    (oov : List OOVStringIssue) (bidi : List BiDiControlIssue)
    (conf : List ConfusableIssue) (enc : List EncodingIssue)
    (norm : List NormalizationIssue) (gl : List GlitchTokenIssue)
    (ctxIssues : List ContextPlacementIssue) (amb : List AmbiguityIssue) :
    LLMSafetyAnalysis :=
  let total : Int := (em.length : Int) + inv.length + num.length +
    oov.length + bidi.length + conf.length + enc.length + norm.length +
    gl.length + ctxIssues.length + amb.length
  let base : LLMSafetyAnalysis :=
    ⟨em, inv, num, oov, bidi, conf, enc, norm, gl, ctxIssues, amb,
      total, 0, 0⟩
  { base with ReliabilityScore := calculateReliabilityScore base }

/-- goClamp lands in [0, 100]. -/
theorem goClamp_range (s : Int) : 0 ≤ goClamp s ∧ goClamp s ≤ 100 := by
  unfold goClamp
  dsimp only
  split <;> split <;> omega

/-- A context of one line of plain text and 5000 tokens. -/
def c1Ctx : DetectionContext :=
  { Content := gs "x", Lines := [gs "x"], Tokens := [], LineInsights := [],
    TotalTokens := 5000 }

/-- The safety analysis extracted from running the context placement
detector alone on c1Ctx. -/
def c1Safety : LLMSafetyAnalysis :=
  extractSafetyFromIssues [] [] [] [] [] [] [] [] []
    (contextPlacementDetect c1Ctx) []

/-- C1 counterexample: a 5000-token context yields one
ContextPlacementIssue, so TotalIssues = 1, yet the reliability score is
100: the context deduction applies only above 8000 tokens, so a score of
100 does not imply zero issues. -/
theorem reliability_100_with_issue :
    c1Safety.TotalIssues = 1 ∧ c1Safety.ReliabilityScore = 100 ∧
    c1Safety.ContextIssues.length = 1 := by
  refine ⟨rfl, ?_, rfl⟩
  decide

/-- C1 amended: the reliability score always lies in [0, 100], and zero
issues force a score of 100; the converse fails. -/
theorem calculateReliabilityScore_range (sa : LLMSafetyAnalysis) :
    0 ≤ calculateReliabilityScore sa ∧ calculateReliabilityScore sa ≤ 100 ∧
    (sa.TotalIssues = 0 → calculateReliabilityScore sa = 100) := by
  unfold calculateReliabilityScore
  by_cases h : sa.TotalIssues = 0
  · rw [if_pos h]
    exact ⟨by norm_num, by norm_num, fun _ => rfl⟩
  · rw [if_neg h]
    rcases goClamp_range (100
      - (sa.EmojiIssues.length : Int) * 3
      - sumBy (fun i => if i.IsEvasion then 10 else 5) sa.InvisibleCharIssues
      - sumBy (fun i => if i.IsTrojanSource then 15 else 5)
          sa.BiDiControlIssues
      - (sa.ConfusableIssues.length : Int) * 8
      - sumBy (fun i =>
          if i.EncodingType = "base64" ∨ i.EncodingType = "hex" ∨
              i.EncodingType = "leetspeak" ∨ i.EncodingType = "rot13" then 10
          else if i.EncodingType = "ascii_art" then 12
          else 8) sa.EncodingIssues
      - (sa.NormalizationIssues.length : Int) * 3
      - (sa.GlitchTokenIssues.length : Int) * 12
      - sumBy (fun i => if i.TotalTokens > 8000 then 5 else 0) sa.ContextIssues
      - sumBy (fun i =>
          if i.Severity = "high" then 8
          else if i.Severity = "medium" then 6
          else if i.Severity = "low" then 3
          else 0) sa.AmbiguityIssues
      - (sa.NumberFormatIssues.length : Int) * 2
      - sumBy (fun i =>
          if i.StringType = "hash" ∨ i.StringType = "uuid" then 3
          else if i.StringType = "url" then 2
          else 1) sa.OOVStringIssues) with ⟨h0, h100⟩
    exact ⟨h0, h100, fun hc => absurd hc h⟩

/-- Witness for the C1 amended theorem at the empty safety analysis. -/
theorem calculateReliabilityScore_range_witness :
    0 ≤ calculateReliabilityScore emptySafety ∧
    calculateReliabilityScore emptySafety ≤ 100 ∧
    (emptySafety.TotalIssues = 0 →
      calculateReliabilityScore emptySafety = 100) :=
  calculateReliabilityScore_range emptySafety

/-!
Byte-string utilities shared by the remaining detectors.
-/

/-- First byte index of n in h, or -1 (strings.Index).  Fuel is the
number of start positions left to try. -/
def goIndexB (h n : List Nat) : Int :=
  go (h.length + 1) 0 h
where
  go : Nat → Nat → List Nat → Int
    | 0, _, _ => -1
    | _ + 1, _, [] => if n = [] then 0 else -1
    | fuel + 1, i, c :: rest =>
      if n.isPrefixOf (c :: rest) then (i : Int)
      else go fuel (i + 1) rest

/-- Non-overlapping occurrence count of a non-empty pattern
(strings.Count). -/
def goCountB (h n : List Nat) : Int :=
  go (h.length + 1) h
where
  go : Nat → List Nat → Int
    | 0, _ => 0
    | _ + 1, [] => 0
    | fuel + 1, c :: rest =>
      if n.isPrefixOf (c :: rest) then
        1 + go fuel ((c :: rest).drop n.length)
      else go fuel rest

/-- strings.Contains via the byte index (byte occurrences of valid UTF-8
always align with rune boundaries, so this agrees with the rune view). -/
def goContainsB (h n : List Nat) : Bool := goIndexB h n ≥ 0

/-- strings.TrimRight with a set of single-byte cut characters. -/
def goTrimRightSet (s : GoStr) (cutset : List Char) : GoStr :=
  (s.reverse.dropWhile fun c => cutset.contains c).reverse

/-- strings.Join with separator newline. -/
def goJoinNL (lines : List GoStr) : GoStr :=
  List.intercalate [Char.ofNat 10] lines

/-- Apply a map enumeration order given as a list of indices. -/
def permuteIdx {α : Type} (ord : List Nat) (l : List α) : List α :=
  ord.filterMap fun i => l.get? i

/-!
ConsecutiveEmptyDetector and LongLineDetector (they read LineInsights).
-/

/-- ConsecutiveEmptyDetector.Detect: fold tracking the current run of
empty lines; runs of at least 2 are emitted when they end. -/
def consecutiveEmptyDetect (insights : List LineInsight) :
    List ConsecutiveEmptyLines :=
  let step := fun (acc : List ConsecutiveEmptyLines ×
      Option ConsecutiveEmptyLines) (insight : LineInsight) =>
    if insight.IsEmpty then
      match acc.2 with
      | none => (acc.1,
          some ⟨insight.LineNumber, insight.LineNumber, 1⟩)
      | some r => (acc.1,
          some ⟨r.StartLine, insight.LineNumber, r.Count + 1⟩)
    else
      match acc.2 with
      | some r => (if r.Count ≥ 2 then acc.1 ++ [r] else acc.1, none)
      | none => (acc.1, none)
  let fin := insights.foldl step ([], none)
  match fin.2 with
  | some r => if r.Count ≥ 2 then fin.1 ++ [r] else fin.1
  | none => fin.1

/-- LongLineDetector.Detect: lines over 120 characters with tokens. -/
def longLineDetect (insights : List LineInsight) : List LongLine :=
  (insights.filter fun li => li.Chars > 120 && li.Tokens > 0).map fun li =>
    { LineNumber := li.LineNumber, Length := li.Chars,
      Tokens := li.Tokens,
      Content := goTruncateB (goBytes li.Content) 100 }

/-!
GlitchTokenDetector (detector_emoji.go): per line and per known glitch
token, one issue at the first byte occurrence.
-/

/-- The glitchTokens list, verbatim. -/
def glitchTokens : List GoStr :=
  [gs " SolidGoldMagikarp", gs " davidjl", gs " RandomRedditorWithNo",
   gs " TheNitromeFan", gs "?????-?????-", gs " externalToEVA",
   gs " externalToEVAOnly", gs " StreamerBot", gs " TPPStreamerBot",
   gs " SolidGoldMagikarp123", gs "--------", gs " embedreportprint",
   gs " cloneembedreportprint", gs " rawdownload",
   gs " rawdownloadcloneembedreportprint", gs " InstoreAndOnline",
   gs " guiActiveUn", gs " guiActiveUnfocused", gs " guiName",
   gs " guiIcon", gs " externalTo", gs " ÃÂÃÂÃÂÃÂ", gs " ÃÂÃÂ",
   gs " \"><", gs " админист", gs " \"></", gs " StreamerBot",
   gs " oreAndOnline", gs " oreAndOnlineOnly", gs " DeliveryDate",
   gs " BuyableInstoreAndOnline", gs " MessageLookupByLibrary",
   gs " MessageType", gs " ForgeModLoader", gs " PsyNetMessage",
   gs " InputMethodManager", gs " ÃÂ", gs "龍喚士", gs " attRot",
   gs "\\<", gs " TheNitrome", gs " TheNitromeFan", gs " SolidGold"]

/-- GlitchTokenDetector.Detect. -/
def glitchDetect (lines : List GoStr) : List GlitchTokenIssue :=
  (lines.enum.map fun (p : Nat × GoStr) =>
    glitchTokens.filterMap fun tok =>
      let b := goBytes p.2
      let idx := goIndexB b (goBytes tok)
      if idx ≥ 0 then
        some { Token := tok, TokenID := [],
               LineNumber := (p.1 : Int) + 1, Position := idx,
               KnownIssue := "Known glitch token causes unstable behavior",
               Severity := "critical",
               Context := extractContext p.2 idx.toNat }
      else none).flatten

/-!
PromptAmbiguityDetector (part_006).
-/

/-- detectConflictingInstructions. -/
def detectConflictingInstructions (lower : GoStr) : Bool :=
  goContains lower (gs "but") &&
    (goContains lower (gs "however") || goContains lower (gs "although"))

/-- detectExcessiveQuotes: over six double or single quotes. -/
def detectExcessiveQuotes (line : GoStr) : Bool :=
  goCountB (goBytes line) [34] + goCountB (goBytes line) [39] > 6

/-- detectSycophantFraming. -/
def detectSycophantFraming (lower : GoStr) : Bool :=
  [gs "you are a helpful assistant who always agrees",
   gs "always support the user", gs "never disagree",
   gs "you must comply", gs "the user is always right",
   gs "don't contradict", gs "always agree with",
   gs "prioritize user satisfaction", gs "be positive",
   gs "don't be critical", gs "avoid disagreement",
   gs "support every request", gs "never say no"].any fun pat =>
    goContains lower pat

/-- detectRoleConfusion. -/
def detectRoleConfusion (lower : GoStr) : Bool :=
  [gs "you are now", gs "pretend you are", gs "act as if",
   gs "switch to", gs "become a", gs "imagine you are"].any fun pat =>
    goContains lower pat

/-- PromptAmbiguityDetector.Detect: four checks per line, in order. -/
def ambiguityDetect (lines : List GoStr) : List AmbiguityIssue :=
  (lines.enum.map fun (p : Nat × GoStr) =>
    let lower := goToLower p.2
    (if detectConflictingInstructions lower then
      [{ Pattern := "conflicting_instructions",
         LineNumber := (p.1 : Int) + 1,
         Description := "Line contains potentially conflicting instructions",
         Example := p.2, Severity := "medium" }]
     else []) ++
    (if detectExcessiveQuotes p.2 then
      [{ Pattern := "nested_quotes", LineNumber := (p.1 : Int) + 1,
         Description := "Excessive quote nesting can confuse parsing",
         Example := p.2, Severity := "low" }]
     else []) ++
    (if detectSycophantFraming lower then
      [{ Pattern := "sycophantic_frame", LineNumber := (p.1 : Int) + 1,
         Description := "Sycophantic framing reduces truthfulness",
         Example := p.2, Severity := "high" }]
     else []) ++
    (if detectRoleConfusion lower then
      [{ Pattern := "role_confusion", LineNumber := (p.1 : Int) + 1,
         Description := "Multiple or conflicting role definitions can confuse the model",
         Example := p.2, Severity := "high" }]
     else [])).flatten

/-!
NormalizationDetector, parameterized by the x/text NFC and NFKC
transformations.
-/

/-- One line of NormalizationDetector.Detect. -/
def normalizationDetectLine (nfc nfkc : GoStr → GoStr)
    (p : Nat × GoStr) : List NormalizationIssue :=
  (if p.2 ≠ nfc p.2 then
      [{ OriginalText := p.2, NormalizedText := nfc p.2,
         FormExpected := "NFC", LineNumber := (p.1 : Int) + 1,
         Position := 0, IssueType := "not_nfc" }]
     else []) ++
    (if p.2 ≠ nfkc p.2 then
      [{ OriginalText := p.2, NormalizedText := nfkc p.2,
         FormExpected := "NFKC", LineNumber := (p.1 : Int) + 1,
         Position := 0, IssueType := "not_nfkc" }]
     else [])

/-- NormalizationDetector.Detect. -/
def normalizationDetect (nfc nfkc : GoStr → GoStr) (lines : List GoStr) :
    List NormalizationIssue :=
  (lines.enum.map (normalizationDetectLine nfc nfkc)).flatten

/-!
ConfusablesDetector (detector_confusables.go), parameterized by the
UTS #39 skeleton of a single rune (the external confusables package).
The mixed-script helper indexes the line by BYTES while the caller
passes a RUNE index, exactly as the Go code does, so it works on the
byte string and re-decodes the selected word with Go rune semantics
(invalid bytes decode to U+FFFD).
-/

/-- Go UTF-8 decoding of a byte list ('for range' semantics: each
invalid byte yields U+FFFD).  Fuel is the number of bytes left. -/
def goDecodeRunes (b : List Nat) : List Char :=
  go (b.length + 1) b
where
  cont : Nat → Bool := fun x => 0x80 ≤ x && x ≤ 0xBF
  go : Nat → List Nat → List Char
    | 0, _ => []
    | _ + 1, [] => []
    | fuel + 1, b0 :: rest =>
      if b0 < 0x80 then Char.ofNat b0 :: go fuel rest
      else if 0xC2 ≤ b0 && b0 ≤ 0xDF then
        match rest with
        | b1 :: rest2 =>
          if cont b1 then
            Char.ofNat ((b0 % 0x20) * 0x40 + b1 % 0x40) :: go fuel rest2
          else Char.ofNat 0xFFFD :: go fuel rest
        | [] => Char.ofNat 0xFFFD :: go fuel rest
      else if 0xE0 ≤ b0 && b0 ≤ 0xEF then
        match rest with
        | b1 :: b2 :: rest2 =>
          if (if b0 = 0xE0 then 0xA0 ≤ b1 && b1 ≤ 0xBF
              else if b0 = 0xED then 0x80 ≤ b1 && b1 ≤ 0x9F
              else cont b1) && cont b2 then
            Char.ofNat ((b0 % 0x10) * 0x1000 + (b1 % 0x40) * 0x40 +
              b2 % 0x40) :: go fuel rest2
          else Char.ofNat 0xFFFD :: go fuel rest
        | _ => Char.ofNat 0xFFFD :: go fuel rest
      else if 0xF0 ≤ b0 && b0 ≤ 0xF4 then
        match rest with
        | b1 :: b2 :: b3 :: rest2 =>
          if (if b0 = 0xF0 then 0x90 ≤ b1 && b1 ≤ 0xBF
              else if b0 = 0xF4 then 0x80 ≤ b1 && b1 ≤ 0x8F
              else cont b1) && cont b2 && cont b3 then
            Char.ofNat ((b0 % 8) * 0x40000 + (b1 % 0x40) * 0x1000 +
              (b2 % 0x40) * 0x40 + b3 % 0x40) :: go fuel rest2
          else Char.ofNat 0xFFFD :: go fuel rest
        | _ => Char.ofNat 0xFFFD :: go fuel rest
      else Char.ofNat 0xFFFD :: go fuel rest

/-- isLetterOrDigit of the confusables detector, applied to a value that
Go obtained by casting one byte to a rune. -/
def isLetterOrDigitVal (r : Nat) : Bool :=
  (0x61 ≤ r && r ≤ 0x7A) || (0x41 ≤ r && r ≤ 0x5A) ||
  (0x30 ≤ r && r ≤ 0x39) || (0x400 ≤ r && r ≤ 0x4FF) ||
  (0x370 ≤ r && r ≤ 0x3FF) || (0x600 ≤ r && r ≤ 0x6FF) ||
  (0x590 ≤ r && r ≤ 0x5FF) || (0x4E00 ≤ r && r ≤ 0x9FFF)

/-- The leftward scan of detectMixedScriptConfusable. -/
def mixedScriptStart (b : List Nat) : Nat → Nat
  | 0 => 0
  | s + 1 => if isLetterOrDigitVal (b.getD s 0) then mixedScriptStart b s
             else s + 1

/-- The rightward scan of detectMixedScriptConfusable; fuel bounds the
number of steps. -/
def mixedScriptEnd (b : List Nat) : Nat → Nat → Nat
  | 0, e => e
  | fuel + 1, e =>
    if e < b.length - 1 && isLetterOrDigitVal (b.getD (e + 1) 0) then
      mixedScriptEnd b fuel (e + 1)
    else e

/-- detectMixedScriptConfusable. -/
def detectMixedScriptConfusable (line : GoStr) (pos : Nat) : Bool :=
  let b := goBytes line
  let start := mixedScriptStart b pos
  let stop := mixedScriptEnd b b.length pos
  if stop - start < 2 then false
  else
    let word := goDecodeRunes ((b.drop start).take (stop + 1 - start))
    let hasLatin := word.any fun r => 0x41 ≤ r.toNat && r.toNat ≤ 0x7A
    let hasCyrillic := word.any fun r => 0x400 ≤ r.toNat && r.toNat ≤ 0x4FF
    let hasGreek := word.any fun r => 0x370 ≤ r.toNat && r.toNat ≤ 0x3FF
    (if hasLatin then 1 else 0) + (if hasCyrillic then 1 else 0) +
      (if hasGreek then (1 : Nat) else 0) > 1

/-- getUnicodeScriptHelper. -/
def getUnicodeScriptHelper (r : Char) : String :=
  if 0x0400 ≤ r.toNat ∧ r.toNat ≤ 0x04FF then "Cyrillic"
  else if 0x0370 ≤ r.toNat ∧ r.toNat ≤ 0x03FF then "Greek"
  else if 0x0041 ≤ r.toNat ∧ r.toNat ≤ 0x007A then "Latin"
  else if 0x0600 ≤ r.toNat ∧ r.toNat ≤ 0x06FF then "Arabic"
  else if 0x0590 ≤ r.toNat ∧ r.toNat ≤ 0x05FF then "Hebrew"
  else if 0x4E00 ≤ r.toNat ∧ r.toNat ≤ 0x9FFF then "CJK"
  else if 0x1F00 ≤ r.toNat ∧ r.toNat ≤ 0x1FFF then "Greek Extended"
  else if 0x1D400 ≤ r.toNat ∧ r.toNat ≤ 0x1D7FF then "Mathematical"
  else if 0xFF00 ≤ r.toNat ∧ r.toNat ≤ 0xFFEF then "Fullwidth"
  else "Unicode"

/-- getConfusableCharNameHelper (the apostrophes are byte 39). -/
def getConfusableCharNameHelper (original confusable : Char) : GoStr :=
  gs (getUnicodeScriptHelper original) ++ [' ', Char.ofNat 39] ++
  [original] ++ [Char.ofNat 39] ++ gs " vs " ++
  gs (getUnicodeScriptHelper confusable) ++ [' ', Char.ofNat 39] ++
  [confusable] ++ [Char.ofNat 39]

/-- The merge step of ConfusablesDetector: first issue with the same
line number and original character gets its Count incremented. -/
def tryMergeConfusable (issues : List ConfusableIssue) (ln : Int)
    (r : Char) : Option (List ConfusableIssue) :=
  match issues with
  | [] => none
  | e :: rest =>
    if e.LineNumber = ln ∧ e.OriginalChar = r then
      some ({ e with Count := e.Count + 1 } :: rest)
    else
      (tryMergeConfusable rest ln r).map fun updated => e :: updated

/-- ConfusablesDetector.Detect, parameterized by the skeleton of a
single rune. -/
def confusablesDetect (skeleton : Char → GoStr) (lines : List GoStr) :
    List ConfusableIssue :=
  lines.enum.foldl (fun acc0 (p : Nat × GoStr) =>
    p.2.enum.foldl (fun acc (q : Nat × Char) =>
      if q.2.toNat < 128 then acc
      else
        let sk := skeleton q.2
        if sk ≠ [q.2] then
          let confusableRune := match sk with
            | [] => q.2
            | c :: _ => c
          match tryMergeConfusable acc ((p.1 : Int) + 1) q.2 with
          | some merged => merged
          | none => acc ++
              [{ OriginalChar := q.2, ConfusableChar := confusableRune,
                 CharName := getConfusableCharNameHelper q.2 confusableRune,
                 LineNumber := (p.1 : Int) + 1, Position := (q.1 : Int),
                 Context := extractContext p.2 q.1,
                 Count := 1,
                 IsMixedScript := detectMixedScriptConfusable p.2 q.1 }]
        else acc) acc0) []

/-!
URLDetector (detector_url.go).  The regular expression
https?://[^backslash-s closing-paren]+ matches, leftmost and
non-overlapping, an http:// or https:// prefix followed by the maximal
non-empty run of runes that are neither ASCII regex whitespace
(tab, newline, form feed, carriage return, space) nor a closing
parenthesis; the prefix characters themselves are in that class, so a
match is exactly such a maximal run that begins with the prefix.  The
final enumeration of the Go map is a permutation parameter.
-/

/-- The rune class of the URL pattern. -/
def urlClassChar (c : Char) : Bool :=
  !(c.toNat = 9 || c.toNat = 10 || c.toNat = 12 || c.toNat = 13 ||
    c.toNat = 32 || c = ')')

/-- FindAllString for the URL pattern. -/
def urlFindAll (line : GoStr) : List GoStr :=
  go (line.length + 1) line
where
  go : Nat → GoStr → List GoStr
    | 0, _ => []
    | _ + 1, [] => []
    | fuel + 1, c :: rest =>
      let s := c :: rest
      if (goHasPrefix s (gs "http://") ∨ goHasPrefix s (gs "https://")) then
        let pre := if goHasPrefix s (gs "https://") then 8 else 7
        let run := (s.drop pre).takeWhile urlClassChar
        if run.length = 0 then go fuel rest
        else
          (s.take pre ++ run) :: go fuel (s.drop (pre + run.length))
      else go fuel rest

/-- The upsert into urlMap keyed by the trimmed URL, with insertion
order preserved. -/
def urlUpsert (acc : List URLIssue) (url : GoStr) (ln : Int) :
    List URLIssue :=
  match acc with
  | [] =>
    [{ URL := url, Length := (goLen url : Int), Occurrences := 1,
       LineNumbers := [ln], TokenCost := ((goLen url : Int) + 3) / 4 }]
  | e :: rest =>
    if e.URL = url then
      { e with Occurrences := e.Occurrences + 1,
               LineNumbers := e.LineNumbers ++ [ln] } :: rest
    else e :: urlUpsert rest url ln

/-- The urlMap contents in key insertion order. -/
def urlCollect (lines : List GoStr) : List URLIssue :=
  lines.enum.foldl (fun acc (p : Nat × GoStr) =>
    (urlFindAll p.2).foldl (fun acc2 url =>
      let trimmed := goTrimRightSet url [ '.', ',', ';', ':', '!', '?' ]
      urlUpsert acc2 trimmed ((p.1 : Int) + 1)) acc) []

/-- URLDetector.Detect: the collected issues in the map enumeration
order ord. -/
def urlDetect (lines : List GoStr) (ord : List Nat) : List URLIssue :=
  permuteIdx ord (urlCollect lines)

/-!
RepeatedPhraseDetector (part_003).
-/

/-- findPhraseLines. -/
def findPhraseLines (lines : List GoStr) (phrase : GoStr) : List Int :=
  (lines.enum.filter fun p => goContainsB (goBytes p.2) (goBytes phrase)).map
    fun p => (p.1 : Int) + 1

/-- The candidate phrases. -/
def repeatedPhraseCandidates : List GoStr :=
  [gs "github.com/iota-uz/cc-token", gs "github.com/spf13/cobra",
   gs "github.com/hupe1980/go-tiktoken", gs "Renderer interface",
   gs "token count", gs "API key"]

/-- The phraseMap contents in candidate order: phrases occurring at
least three times in the newline-joined content. -/
def repeatedPhraseCollect (lines : List GoStr) : List RepeatedPhrase :=
  let content := goJoinNL lines
  repeatedPhraseCandidates.filterMap fun phrase =>
    let count := goCountB (goBytes content) (goBytes phrase)
    if count ≥ 3 then
      some { Phrase := phrase, Count := count,
             TotalTokens := (((goLen phrase : Int) + 3) / 4) * count,
             LineNumbers := findPhraseLines lines phrase }
    else none

/-- The sort.Slice comparator of RepeatedPhraseDetector. -/
def rpLess (x y : RepeatedPhrase) : Bool :=
  decide (y.TotalTokens < x.TotalTokens)

/-- RepeatedPhraseDetector.Detect: enumerate the map in order ord, then
sort.Slice by total tokens descending. -/
def repeatedPhraseDetect (lines : List GoStr) (ord : List Nat) :
    List RepeatedPhrase :=
  goSortSlice rpLess (permuteIdx ord (repeatedPhraseCollect lines))

/-!
OOVStringsDetector (detector_oov_strings.go).  Its four patterns are
simple enough for direct scanners:
 * https?://[^backslash-s]+ : an http(s):// prefix followed by the
   maximal non-empty run of non-whitespace runes (RE2 backslash-s is
   tab, newline, form feed, carriage return, space);
 * the uuid pattern is a fixed 36-character shape of lowercase hex and
   hyphens, matched leftmost non-overlapping;
 * backslash-b [0-9a-f]{32,} backslash-b : maximal lowercase-hex runs
   of length at least 32 with no word character on either side (a word
   boundary cannot fall inside a run, and a shorter suffix of a run is
   still followed by a hex character);
 * [a-zA-Z0-9_-]{20,} : maximal runs of the class with length at least
   20 (a position inside a shorter run only starts a shorter run).
-/

/-- RE2 whitespace class backslash-s. -/
def reSpace (c : Char) : Bool :=
  c.toNat = 9 || c.toNat = 10 || c.toNat = 12 || c.toNat = 13 ||
    c.toNat = 32

/-- FindAllString for https?://[^backslash-s]+. -/
def oovURLFindAll (line : GoStr) : List GoStr :=
  go (line.length + 1) line
where
  go : Nat → GoStr → List GoStr
    | 0, _ => []
    | _ + 1, [] => []
    | fuel + 1, c :: rest =>
      let s := c :: rest
      if (goHasPrefix s (gs "http://") ∨ goHasPrefix s (gs "https://")) then
        let pre := if goHasPrefix s (gs "https://") then 8 else 7
        let run := (s.drop pre).takeWhile fun d => !reSpace d
        if run.length = 0 then go fuel rest
        else (s.take pre ++ run) :: go fuel (s.drop (pre + run.length))
      else go fuel rest

/-- Lowercase hex digit. -/
def isHexLower (c : Char) : Bool :=
  ('0' ≤ c && c ≤ '9') || ('a' ≤ c && c ≤ 'f')

/-- Any hex digit. -/
def isHexAny (c : Char) : Bool :=
  ('0' ≤ c && c ≤ '9') || ('a' ≤ c && c ≤ 'f') || ('A' ≤ c && c ≤ 'F')

/-- Match the fixed uuid shape at the head of s: hex runs of lengths
8, 4, 4, 4, 12 separated by hyphens. -/
def uuidShape (s : GoStr) : Bool :=
  ((s.take 8).all isHexLower && (s.take 8).length = 8) &&
  s.getD 8 ' ' = '-' &&
  (((s.drop 9).take 4).all isHexLower && ((s.drop 9).take 4).length = 4) &&
  s.getD 13 ' ' = '-' &&
  (((s.drop 14).take 4).all isHexLower && ((s.drop 14).take 4).length = 4) &&
  s.getD 18 ' ' = '-' &&
  (((s.drop 19).take 4).all isHexLower && ((s.drop 19).take 4).length = 4) &&
  s.getD 23 ' ' = '-' &&
  (((s.drop 24).take 12).all isHexLower && ((s.drop 24).take 12).length = 12)

/-- FindAllString for the uuid pattern. -/
def uuidFindAll (line : GoStr) : List GoStr :=
  go (line.length + 1) line
where
  go : Nat → GoStr → List GoStr
    | 0, _ => []
    | _ + 1, [] => []
    | fuel + 1, c :: rest =>
      let s := c :: rest
      if uuidShape s then s.take 36 :: go fuel (s.drop 36)
      else go fuel rest

/-- FindAllString for the hash pattern: maximal lowercase-hex runs of
length at least 32 bounded by non-word characters. -/
def hashFindAll (line : GoStr) : List GoStr :=
  go (line.length + 1) false line
where
  go : Nat → Bool → GoStr → List GoStr
    | 0, _, _ => []
    | _ + 1, _, [] => []
    | fuel + 1, prevWord, c :: rest =>
      if isHexLower c then
        if prevWord then go fuel true (rest.dropWhile isHexLower)
        else
          let run := c :: rest.takeWhile isHexLower
          let rest2 := rest.dropWhile isHexLower
          let boundaryAfter := match rest2 with
            | [] => true
            | d :: _ => !isWordChar d
          if run.length ≥ 32 && boundaryAfter then
            run :: go fuel true rest2
          else go fuel true rest2
      else go fuel (isWordChar c) rest

/-- The id pattern class [a-zA-Z0-9_-]. -/
def idClassChar (c : Char) : Bool :=
  ('a' ≤ c && c ≤ 'z') || ('A' ≤ c && c ≤ 'Z') ||
  ('0' ≤ c && c ≤ '9') || c = '_' || c = '-'

/-- FindAllString for [a-zA-Z0-9_-]{20,}: maximal class runs of length
at least 20. -/
def idFindAll (line : GoStr) : List GoStr :=
  go (line.length + 1) line
where
  go : Nat → GoStr → List GoStr
    | 0, _ => []
    | _ + 1, [] => []
    | fuel + 1, c :: rest =>
      if idClassChar c then
        let run := c :: rest.takeWhile idClassChar
        let rest2 := rest.dropWhile idClassChar
        if run.length ≥ 20 then run :: go fuel rest2
        else go fuel rest2
      else go fuel rest

/-- isURL helper. -/
def isURL (s : GoStr) : Bool :=
  goHasPrefix s (gs "http://") || goHasPrefix s (gs "https://")

/-- isHash helper.  Go compares the correctly rounded double ratio with
the double nearest 0.8, which is 3602879701896397 / 2^52; the embedding
compares the exact ratio with that constant (cross-multiplied), which
agrees except when the true ratio lies within half an ulp of it. -/
def isHash (s : GoStr) : Bool :=
  if goLen s < 32 then false
  else
    let hexCount := (s.countP fun r => isHexAny r : Int)
    decide (hexCount * 4503599627370496 > 3602879701896397 * (goLen s : Int))

/-- OOVStringsDetector.Detect: the four pattern detectors per line, in
order, with their match filters. -/
def oovDetect (lines : List GoStr) : List OOVStringIssue :=
  (lines.enum.map fun (p : Nat × GoStr) =>
    ((oovURLFindAll p.2).filterMap fun m =>
      if (goLen m : Int) > 50 then
        some { StringVal := m, StringType := "url",
               LineNumber := (p.1 : Int) + 1,
               TokenCount := ((goLen m : Int) + 4) / 5,
               Context := p.2,
               Recommendation := "Replace with short URL or <URL> placeholder" }
      else none) ++
    ((uuidFindAll p.2).map fun m =>
      { StringVal := m, StringType := "uuid",
        LineNumber := (p.1 : Int) + 1, TokenCount := 5,
        Context := p.2,
        Recommendation := "Replace with <UUID> placeholder" }) ++
    ((hashFindAll p.2).filterMap fun m =>
      if (goLen m : Int) ≥ 32 then
        some { StringVal := m, StringType := "hash",
               LineNumber := (p.1 : Int) + 1,
               TokenCount := ((goLen m : Int) + 3) / 4,
               Context := p.2,
               Recommendation := "Replace with <HASH> placeholder or semantic name" }
      else none) ++
    ((idFindAll p.2).filterMap fun m =>
      if (goLen m : Int) > 20 && !isURL m && !isHash m then
        some { StringVal := m, StringType := "id",
               LineNumber := (p.1 : Int) + 1,
               TokenCount := (goLen m : Int) / 2,
               Context := p.2,
               Recommendation := "Use shorter identifier or break into semantic parts" }
      else none)).flatten

/-!
EncodingDetector (detector_number_formatting.go) and its helpers
(detector_helpers.go).  Positions are byte offsets of the match start,
as FindAllStringIndex returns.  unicode.IsLetter is an external table
and is a parameter.
-/

/-- Base64 class. -/
def isB64Char (c : Char) : Bool :=
  ('A' ≤ c && c ≤ 'Z') || ('a' ≤ c && c ≤ 'z') ||
  ('0' ≤ c && c ≤ '9') || c = '+' || c = '/'

/-- FindAllStringIndex for [A-Za-z0-9+/]{20,}={0,2}: maximal class runs
of length at least 20 followed greedily by up to two equals signs,
paired with the byte offset of the match. -/
def base64FindAll (line : GoStr) : List (Nat × GoStr) :=
  go (line.length + 1) 0 line
where
  go : Nat → Nat → GoStr → List (Nat × GoStr)
    | 0, _, _ => []
    | _ + 1, _, [] => []
    | fuel + 1, bpos, c :: rest =>
      if isB64Char c then
        let run := c :: rest.takeWhile isB64Char
        let rest2 := rest.dropWhile isB64Char
        if run.length ≥ 20 then
          let eqs := (rest2.takeWhile fun d => d = '=').take 2
          (bpos, run ++ eqs) ::
            go fuel (bpos + run.length + eqs.length) (rest2.drop eqs.length)
        else go fuel (bpos + run.length) rest2
      else go fuel (bpos + utf8Size c) rest

/-- FindAllStringIndex for the hex pattern: at each position, first a
backslash-x escape with exactly two hex digits, otherwise 0x with a
maximal run of at least eight hex digits. -/
def hexEncFindAll (line : GoStr) : List (Nat × GoStr) :=
  go (line.length + 1) 0 line
where
  go : Nat → Nat → GoStr → List (Nat × GoStr)
    | 0, _, _ => []
    | _ + 1, _, [] => []
    | fuel + 1, bpos, c :: rest =>
      let s := c :: rest
      if c = '\\' && s.getD 1 ' ' = 'x' && isHexAny (s.getD 2 ' ') &&
          isHexAny (s.getD 3 ' ') then
        (bpos, s.take 4) :: go fuel (bpos + 4) (s.drop 4)
      else if c = '0' && s.getD 1 ' ' = 'x' &&
          ((s.drop 2).takeWhile isHexAny).length ≥ 8 then
        let run := (s.drop 2).takeWhile isHexAny
        (bpos, s.take 2 ++ run) ::
          go fuel (bpos + 2 + run.length) ((s.drop 2).dropWhile isHexAny)
      else go fuel (bpos + utf8Size c) rest

/-- detectLeetspeak. -/
def detectLeetspeak (line : GoStr) : Bool :=
  [gs "1337", gs "h4x", gs "l33t", gs "w4nn4", gs "n00b", gs "pwn",
   gs "0wn", gs "d00d"].any fun pat => goContains (goToLower line) pat

/-- deLeetspeak.  The Go code applies the eight single-character
ReplaceAll calls in map iteration order; since every key is a digit or
symbol and every value is a letter that is not itself a key, the result
does not depend on that order and equals the per-character map. -/
def deLeetspeak (text : GoStr) : GoStr :=
  text.map fun c =>
    if c = '1' then 'l' else if c = '3' then 'e'
    else if c = '4' then 'a' else if c = '0' then 'o'
    else if c = '7' then 't' else if c = '$' then 's'
    else if c = '@' then 'a' else if c = '!' then 'i' else c

/-- detectROT13, parameterized by unicode.IsLetter.  The vowel-ratio
thresholds are the doubles nearest 0.25 (exact) and 0.60
(5404319552844595 / 2^53), compared exactly by cross-multiplication. -/
def detectROT13 (isLetter : Char → Bool) (text : GoStr) : Bool :=
  if goLen text < 20 then false
  else
    let vowels := gs "aeiouAEIOU"
    let letterCount := (text.countP fun r => isLetter r : Int)
    let vowelCount :=
      (text.countP fun r => isLetter r && vowels.contains r : Int)
    if letterCount = 0 then false
    else
      decide (vowelCount * 4 < letterCount) ||
      decide (vowelCount * 9007199254740992 >
        5404319552844595 * letterCount)

/-- rot13Decode. -/
def rot13Decode (text : GoStr) : GoStr :=
  text.map fun r =>
    if 'a' ≤ r ∧ r ≤ 'z' then
      Char.ofNat (97 + (r.toNat - 97 + 13) % 26)
    else if 'A' ≤ r ∧ r ≤ 'Z' then
      Char.ofNat (65 + (r.toNat - 65 + 13) % 26)
    else r

/-- The art character set of detectASCIIArt: the box-drawing characters
followed by the ASCII art characters (braces written as code points). -/
def asciiArtChars : List Char :=
  gs "─│┌┐└┘├┤┬┴┼═║╔╗╚╝╠╣╦╩╬" ++
  ['|', '-', '+', '/', '\\', '*', '#', '@', '_', '<', '>', '[', ']',
   Char.ofNat 0x7B, Char.ofNat 0x7D, '(', ')']

/-- detectASCIIArt: art-character runes make up more than half of the
byte length (float64 comparison with the exact double 0.5). -/
def detectASCIIArt (line : GoStr) : Bool :=
  if goLen line < 10 then false
  else
    let artCharCount := (line.countP fun r => asciiArtChars.contains r : Int)
    decide (artCharCount * 2 > (goLen line : Int))

/-- EncodingDetector.Detect. -/
def encodingDetect (isLetter : Char → Bool) (lines : List GoStr) :
    List EncodingIssue :=
  (lines.enum.map fun (p : Nat × GoStr) =>
    ((base64FindAll p.2).map fun m =>
      { EncodingType := "base64", EncodedText := m.2, DecodedText := [],
        LineNumber := (p.1 : Int) + 1, Position := (m.1 : Int),
        Length := (goLen m.2 : Int),
        TokenCost := (goLen m.2 : Int) / 4 }) ++
    ((hexEncFindAll p.2).map fun m =>
      { EncodingType := "hex", EncodedText := m.2, DecodedText := [],
        LineNumber := (p.1 : Int) + 1, Position := (m.1 : Int),
        Length := (goLen m.2 : Int),
        TokenCost := (goLen m.2 : Int) / 3 }) ++
    (if detectLeetspeak p.2 then
      [{ EncodingType := "leetspeak", EncodedText := p.2,
         DecodedText := deLeetspeak p.2, LineNumber := (p.1 : Int) + 1,
         Position := 0, Length := (goLen p.2 : Int), TokenCost := 5 }]
     else []) ++
    (if detectROT13 isLetter p.2 then
      [{ EncodingType := "rot13", EncodedText := p.2,
         DecodedText := rot13Decode p.2, LineNumber := (p.1 : Int) + 1,
         Position := 0, Length := (goLen p.2 : Int),
         TokenCost := (goLen p.2 : Int) / 4 }]
     else []) ++
    (if detectASCIIArt p.2 then
      [{ EncodingType := "ascii_art", EncodedText := p.2,
         DecodedText := [], LineNumber := (p.1 : Int) + 1,
         Position := 0, Length := (goLen p.2 : Int),
         TokenCost := (goLen p.2 : Int) }]
     else [])).flatten

/-!
The detector registry (models.go).  Every Detect method begins by
replacing the detector's issue slice with a fresh empty one, so the
state left by a previous run never leaks into the new result; the state
after RunAll is therefore a function of the context (and, for the two
detectors that enumerate Go maps, of the enumeration order) alone.
-/

/-- The issue lists of the fifteen registered detectors, in
registration order. -/
structure DetectorStates where
  emoji : List EmojiIssue
  invisible : List InvisibleCharIssue
  numberFormat : List NumberFormatIssue
  oov : List OOVStringIssue
  bidi : List BiDiControlIssue
  confusable : List ConfusableIssue
  encoding : List EncodingIssue
  normalization : List NormalizationIssue
  glitch : List GlitchTokenIssue
  contextPlacement : List ContextPlacementIssue
  ambiguity : List AmbiguityIssue
  url : List URLIssue
  consecutiveEmpty : List ConsecutiveEmptyLines
  longLine : List LongLine
  repeatedPhrase : List RepeatedPhrase
  deriving DecidableEq, Repr

/-- DetectorRegistry.RunAll: each detector discards its previous list
(the first statement of every Detect) and recomputes from the context;
skeleton, nfc, nfkc and isLetter are the external collaborators, and
ordU, ordR are the Go map enumeration orders inside URLDetector and
RepeatedPhraseDetector. -/
def runAllDetectors (_prev : DetectorStates) (ctx : DetectionContext)
    (skeleton : Char → GoStr) (nfc nfkc : GoStr → GoStr)
    (isLetter : Char → Bool) (ordU ordR : List Nat) : DetectorStates :=
  { emoji := emojiDetect ctx.Lines,
    invisible := invisibleDetect ctx.Lines,
    numberFormat := numberFormattingDetect ctx.Lines,
    oov := oovDetect ctx.Lines,
    bidi := bidiDetect ctx.Lines,
    confusable := confusablesDetect skeleton ctx.Lines,
    encoding := encodingDetect isLetter ctx.Lines,
    normalization := normalizationDetect nfc nfkc ctx.Lines,
    glitch := glitchDetect ctx.Lines,
    contextPlacement := contextPlacementDetect ctx,
    ambiguity := ambiguityDetect ctx.Lines,
    url := urlDetect ctx.Lines ordU,
    consecutiveEmpty := consecutiveEmptyDetect ctx.LineInsights,
    longLine := longLineDetect ctx.LineInsights,
    repeatedPhrase := repeatedPhraseDetect ctx.Lines ordR }

/-- States with empty issue lists (fresh registry). -/
def emptyDetectorStates : DetectorStates :=
  ⟨[], [], [], [], [], [], [], [], [], [], [], [], [], [], []⟩

/-- Enumerating the range of valid indices returns the list itself. -/
theorem filterMap_range_get {α : Type} (l : List α) :
    (List.range l.length).filterMap (fun i => l.get? i) = l := by
  induction l with
  | nil => rfl
  | cons x xs ih =>
    rw [List.length_cons, List.range_succ_eq_map, List.filterMap_cons,
      List.filterMap_map]
    have hf : ((fun i => (x :: xs).get? i) ∘ Nat.succ) =
        fun i => xs.get? i := funext fun i => rfl
    rw [hf]
    simp only [List.get?_eq_getElem?] at ih
    simp [ih]

/-- A valid map enumeration yields a permutation of the collected
list. -/
theorem permuteIdx_perm {α : Type} (ord : List Nat) (l : List α)
    (h : ord.Perm (List.range l.length)) : (permuteIdx ord l).Perm l := by
  have h1 : (permuteIdx ord l).Perm
      ((List.range l.length).filterMap (fun i => l.get? i)) :=
    List.Perm.filterMap _ h
  rw [filterMap_range_get] at h1
  exact h1

/-- Two URLs on one line. -/
def c5Lines : List GoStr := [gs "see http://aa.com and http://bb.com"]

/-- C5 counterexample: the URL detector stores its issues in a Go map
and emits them in map enumeration order; both enumeration orders of the
two collected URLs are valid, and they give different Issues() lists,
so a second Detect call on the same context need not reproduce the
first list. -/
theorem urlDetect_order_dependent :
    ([0, 1].Perm (List.range (urlCollect c5Lines).length) ∧
     [1, 0].Perm (List.range (urlCollect c5Lines).length)) ∧
    urlDetect c5Lines [0, 1] ≠ urlDetect c5Lines [1, 0] := by
  refine ⟨⟨by decide, by decide⟩, by decide⟩

/-- C5 amended: running the registry twice on one context, thirteen of
the fifteen detectors reproduce exactly the same issue list — the new
state never depends on the state left by the first run — while the
URL and repeated-phrase detectors reproduce the same issues up to
order (their Go map enumeration orders ordU, ordR may differ between
runs). -/
theorem detectors_rerun (prev : DetectorStates) (ctx : DetectionContext)
    (skeleton : Char → GoStr) (nfc nfkc : GoStr → GoStr)
    (isLetter : Char → Bool) (ordU1 ordU2 ordR1 ordR2 : List Nat)
    (hU1 : ordU1.Perm (List.range (urlCollect ctx.Lines).length))
    (hU2 : ordU2.Perm (List.range (urlCollect ctx.Lines).length))
    (hR1 : ordR1.Perm (List.range (repeatedPhraseCollect ctx.Lines).length))
    (hR2 : ordR2.Perm (List.range (repeatedPhraseCollect ctx.Lines).length)) :
    (runAllDetectors
        (runAllDetectors prev ctx skeleton nfc nfkc isLetter ordU1 ordR1)
        ctx skeleton nfc nfkc isLetter ordU2 ordR2).emoji =
      (runAllDetectors prev ctx skeleton nfc nfkc isLetter
        ordU1 ordR1).emoji ∧
    (runAllDetectors
        (runAllDetectors prev ctx skeleton nfc nfkc isLetter ordU1 ordR1)
        ctx skeleton nfc nfkc isLetter ordU2 ordR2).invisible =
      (runAllDetectors prev ctx skeleton nfc nfkc isLetter
        ordU1 ordR1).invisible ∧
    (runAllDetectors
        (runAllDetectors prev ctx skeleton nfc nfkc isLetter ordU1 ordR1)
        ctx skeleton nfc nfkc isLetter ordU2 ordR2).numberFormat =
      (runAllDetectors prev ctx skeleton nfc nfkc isLetter
        ordU1 ordR1).numberFormat ∧
    (runAllDetectors
        (runAllDetectors prev ctx skeleton nfc nfkc isLetter ordU1 ordR1)
        ctx skeleton nfc nfkc isLetter ordU2 ordR2).oov =
      (runAllDetectors prev ctx skeleton nfc nfkc isLetter
        ordU1 ordR1).oov ∧
    (runAllDetectors
        (runAllDetectors prev ctx skeleton nfc nfkc isLetter ordU1 ordR1)
        ctx skeleton nfc nfkc isLetter ordU2 ordR2).bidi =
      (runAllDetectors prev ctx skeleton nfc nfkc isLetter
        ordU1 ordR1).bidi ∧
    (runAllDetectors
        (runAllDetectors prev ctx skeleton nfc nfkc isLetter ordU1 ordR1)
        ctx skeleton nfc nfkc isLetter ordU2 ordR2).confusable =
      (runAllDetectors prev ctx skeleton nfc nfkc isLetter
        ordU1 ordR1).confusable ∧
    (runAllDetectors
        (runAllDetectors prev ctx skeleton nfc nfkc isLetter ordU1 ordR1)
        ctx skeleton nfc nfkc isLetter ordU2 ordR2).encoding =
      (runAllDetectors prev ctx skeleton nfc nfkc isLetter
        ordU1 ordR1).encoding ∧
    (runAllDetectors
        (runAllDetectors prev ctx skeleton nfc nfkc isLetter ordU1 ordR1)
        ctx skeleton nfc nfkc isLetter ordU2 ordR2).normalization =
      (runAllDetectors prev ctx skeleton nfc nfkc isLetter
        ordU1 ordR1).normalization ∧
    (runAllDetectors
        (runAllDetectors prev ctx skeleton nfc nfkc isLetter ordU1 ordR1)
        ctx skeleton nfc nfkc isLetter ordU2 ordR2).glitch =
      (runAllDetectors prev ctx skeleton nfc nfkc isLetter
        ordU1 ordR1).glitch ∧
    (runAllDetectors
        (runAllDetectors prev ctx skeleton nfc nfkc isLetter ordU1 ordR1)
        ctx skeleton nfc nfkc isLetter ordU2 ordR2).contextPlacement =
      (runAllDetectors prev ctx skeleton nfc nfkc isLetter
        ordU1 ordR1).contextPlacement ∧
    (runAllDetectors
        (runAllDetectors prev ctx skeleton nfc nfkc isLetter ordU1 ordR1)
        ctx skeleton nfc nfkc isLetter ordU2 ordR2).ambiguity =
      (runAllDetectors prev ctx skeleton nfc nfkc isLetter
        ordU1 ordR1).ambiguity ∧
    (runAllDetectors
        (runAllDetectors prev ctx skeleton nfc nfkc isLetter ordU1 ordR1)
        ctx skeleton nfc nfkc isLetter ordU2 ordR2).consecutiveEmpty =
      (runAllDetectors prev ctx skeleton nfc nfkc isLetter
        ordU1 ordR1).consecutiveEmpty ∧
    (runAllDetectors
        (runAllDetectors prev ctx skeleton nfc nfkc isLetter ordU1 ordR1)
        ctx skeleton nfc nfkc isLetter ordU2 ordR2).longLine =
      (runAllDetectors prev ctx skeleton nfc nfkc isLetter
        ordU1 ordR1).longLine ∧
    ((runAllDetectors
        (runAllDetectors prev ctx skeleton nfc nfkc isLetter ordU1 ordR1)
        ctx skeleton nfc nfkc isLetter ordU2 ordR2).url).Perm
      ((runAllDetectors prev ctx skeleton nfc nfkc isLetter
        ordU1 ordR1).url) ∧
    ((runAllDetectors
        (runAllDetectors prev ctx skeleton nfc nfkc isLetter ordU1 ordR1)
        ctx skeleton nfc nfkc isLetter ordU2 ordR2).repeatedPhrase).Perm
      ((runAllDetectors prev ctx skeleton nfc nfkc isLetter
        ordU1 ordR1).repeatedPhrase) := by
  refine ⟨rfl, rfl, rfl, rfl, rfl, rfl, rfl, rfl, rfl, rfl, rfl, rfl, rfl,
    ?_, ?_⟩
  · exact (permuteIdx_perm _ _ hU2).trans (permuteIdx_perm _ _ hU1).symm
  · exact ((goSortSlice_perm _ _).trans
      ((permuteIdx_perm _ _ hR2).trans
        (permuteIdx_perm _ _ hR1).symm)).trans
      (goSortSlice_perm _ _).symm

/-- Witness for the C5 amended theorem on the one-line 5000-token
context with empty enumeration orders. -/
theorem detectors_rerun_witness :
    ([].Perm (List.range (urlCollect c1Ctx.Lines).length) ∧
     [].Perm (List.range (repeatedPhraseCollect c1Ctx.Lines).length)) ∧
    (runAllDetectors
        (runAllDetectors emptyDetectorStates c1Ctx (fun c => [c]) id id
          (fun _ => false) [] [])
        c1Ctx (fun c => [c]) id id (fun _ => false) [] []).emoji =
      (runAllDetectors emptyDetectorStates c1Ctx (fun c => [c]) id id
        (fun _ => false) [] []).emoji :=
  ⟨⟨by decide, by decide⟩,
   (detectors_rerun emptyDetectorStates c1Ctx (fun c => [c]) id id
     (fun _ => false) [] [] [] [] (by decide) (by decide) (by decide)
     (by decide)).1⟩

/-!
The AnalyzeFile pipeline (analyzer.go, part_003, part_005,
detector_bidi.go).  Doubles appear as exact rationals:
0.9 = 8106479329266893/2^53, 0.95 = 4278419646001971/2^52,
0.8 = 3602879701896397/2^52, 0.6 = 5404319552844595/2^53,
0.4 = 3602879701896397/2^53; 0.25, 0.5, 0.75 and 1.5 are exact.
-/

/-- utils.CalculateLineStarts: byte offset of each line start. -/
def calculateLineStarts (lines : List GoStr) : List Int :=
  (lines.foldl (fun (acc : List Int × Int) line =>
    (acc.1 ++ [acc.2], acc.2 + (goLen line : Int) + 1)) ([], 0)).1

/-- utils.FindLineForPosition: the Go binary search; the fuel bounds the
iterations, which shrink the interval each round. -/
def findLineForPosition (pos : Int) (starts : List Int) : Int :=
  if starts.length = 0 then -1
  else go (starts.length + 1) 0 ((starts.length : Int) - 1)
where
  go : Nat → Int → Int → Int
    | 0, _, r => r
    | fuel + 1, l, r =>
      if l ≤ r then
        let mid := (l + r) / 2
        let v := starts.getD mid.toNat 0
        if v = pos then mid
        else if v < pos then
          if mid = (starts.length : Int) - 1 ∨
              pos < starts.getD (mid.toNat + 1) 0 then mid
          else go fuel (mid + 1) r
        else go fuel l (mid - 1)
      else r

/-- hasUnicode. -/
def hasUnicode (s : GoStr) : Bool := s.any fun r => r.toNat > 127

/-- mapTokensToLines. -/
def mapTokensToLines (_content : GoStr) (lines : List GoStr)
    (tokens : List Token) : List LineInsight :=
  let lineStarts := calculateLineStarts lines
  let base := lines.enum.map fun (p : Nat × GoStr) =>
    { LineNumber := (p.1 : Int) + 1, Content := p.2, Tokens := 0,
      Chars := (goLen p.2 : Int),
      TokenCharRatioVal := 0,
      IsEmpty := (goTrimSpace p.2).isEmpty,
      IsWhitespaceOnly := (goTrimSpace p.2).isEmpty && goLen p.2 > 0,
      HasUnicode := hasUnicode p.2 }
  let counted := tokens.foldl (fun acc tokenVal =>
    let lineIdx := findLineForPosition tokenVal.Position lineStarts
    if 0 ≤ lineIdx ∧ lineIdx < (acc.length : Int) then
      acc.set lineIdx.toNat
        (let li := acc.getD lineIdx.toNat default
         { li with Tokens := li.Tokens + 1 })
    else acc) base
  counted.map fun li =>
    if li.Chars > 0 then
      { li with TokenCharRatioVal :=
          (li.Tokens : GoFloat) / (li.Chars : GoFloat) }
    else li

/-- findRepeatedPhrases (analyzer.go): the same candidate collection as
the repeated-phrase detector, enumerated in map order ordP and sorted
by total tokens descending. -/
def findRepeatedPhrases (lines : List GoStr) (_tokens : List Token)
    (ordP : List Nat) : List RepeatedPhrase :=
  goSortSlice rpLess (permuteIdx ordP (repeatedPhraseCollect lines))

/-- detectPatterns. -/
def detectPatterns (insights : List LineInsight) (avgRatio : GoFloat)
    (lines : List GoStr) (tokens : List Token) (ordP : List Nat) :
    Patterns :=
  { EmptyLines := sumBy (fun li => if li.IsEmpty then 1 else 0) insights,
    EmptyLineTokens :=
      sumBy (fun li => if li.IsEmpty then li.Tokens else 0) insights,
    WhitespaceOnlyLines :=
      sumBy (fun li => if li.IsWhitespaceOnly then 1 else 0) insights,
    WhitespaceTokens :=
      sumBy (fun li => if li.IsWhitespaceOnly then li.Tokens else 0) insights,
    HighRatioLines := insights.filter fun li =>
      decide (avgRatio > 0) &&
      decide (li.TokenCharRatioVal > avgRatio * (3 / 2)) &&
      decide (li.Tokens > 5),
    UnicodeLines := insights.filter fun li =>
      li.HasUnicode && decide (li.Tokens > 0),
    RepeatedPhrases := findRepeatedPhrases lines tokens ordP }

/-!
CategorizeTokens (part_005) and its markdown pattern scanners.  Each
pattern is a delimiter, a maximal run of non-delimiter characters and a
closing delimiter; because the run is maximal, backtracking inside it
cannot succeed, so a match is exactly: the opening delimiter, a
non-empty maximal run, and the closing delimiter right after it.
-/

/-- FindAllString for d[^d]+d. -/
def delimFindAll (d : Char) (line : GoStr) : List GoStr :=
  go (line.length + 1) line
where
  go : Nat → GoStr → List GoStr
    | 0, _ => []
    | _ + 1, [] => []
    | fuel + 1, c :: rest =>
      if c = d then
        let run := rest.takeWhile fun x => x ≠ d
        if run.length ≥ 1 ∧ rest.getD run.length ' ' = d then
          (d :: run ++ [d]) :: go fuel (rest.drop (run.length + 1))
        else go fuel rest
      else go fuel rest

/-- FindAllString for dd[^d]+dd. -/
def delim2FindAll (d : Char) (line : GoStr) : List GoStr :=
  go (line.length + 1) line
where
  go : Nat → GoStr → List GoStr
    | 0, _ => []
    | _ + 1, [] => []
    | fuel + 1, c :: rest =>
      let s := c :: rest
      if c = d ∧ s.getD 1 ' ' = d then
        let run := (s.drop 2).takeWhile fun x => x ≠ d
        if run.length ≥ 1 ∧ s.getD (2 + run.length) ' ' = d ∧
            s.getD (3 + run.length) ' ' = d then
          (d :: d :: run ++ [d, d]) :: go fuel (s.drop (4 + run.length))
        else go fuel rest
      else go fuel rest

/-- FindAllString for the bold pattern (asterisks preferred over
underscores at equal positions, as in the alternation). -/
def boldFindAll (line : GoStr) : List GoStr :=
  go (line.length + 1) line
where
  go : Nat → GoStr → List GoStr
    | 0, _ => []
    | _ + 1, [] => []
    | fuel + 1, c :: rest =>
      let s := c :: rest
      let tryOne := fun (d : Char) =>
        if c = d ∧ s.getD 1 ' ' = d then
          let run := (s.drop 2).takeWhile fun x => x ≠ d
          if run.length ≥ 1 ∧ s.getD (2 + run.length) ' ' = d ∧
              s.getD (3 + run.length) ' ' = d then
            some (d :: d :: run ++ [d, d], s.drop (4 + run.length))
          else none
        else none
      match tryOne '*' with
      | some m => m.1 :: go fuel m.2
      | none =>
        match tryOne '_' with
        | some m => m.1 :: go fuel m.2
        | none => go fuel rest

/-- FindAllString for the italic pattern. -/
def italicFindAll (line : GoStr) : List GoStr :=
  go (line.length + 1) line
where
  go : Nat → GoStr → List GoStr
    | 0, _ => []
    | _ + 1, [] => []
    | fuel + 1, c :: rest =>
      let tryOne := fun (d : Char) =>
        if c = d then
          let run := rest.takeWhile fun x => x ≠ d
          if run.length ≥ 1 ∧ rest.getD run.length ' ' = d then
            some (d :: run ++ [d], rest.drop (run.length + 1))
          else none
        else none
      match tryOne '*' with
      | some m => m.1 :: go fuel m.2
      | none =>
        match tryOne '_' with
        | some m => m.1 :: go fuel m.2
        | none => go fuel rest

/-- FindAllString for the markdown link pattern: bracketed non-empty
text directly followed by a parenthesized non-empty target. -/
def linkFindAll (line : GoStr) : List GoStr :=
  go (line.length + 1) line
where
  go : Nat → GoStr → List GoStr
    | 0, _ => []
    | _ + 1, [] => []
    | fuel + 1, c :: rest =>
      if c = '[' then
        let run1 := rest.takeWhile fun x => x ≠ ']'
        let after1 := rest.drop run1.length
        if run1.length ≥ 1 ∧ after1.getD 0 ' ' = ']' ∧
            after1.getD 1 ' ' = '(' then
          let run2 := (after1.drop 2).takeWhile fun x => x ≠ ')'
          if run2.length ≥ 1 ∧ (after1.drop 2).getD run2.length ' ' = ')' then
            ('[' :: run1 ++ [']', '('] ++ run2 ++ [')']) ::
              go fuel ((after1.drop 2).drop (run2.length + 1))
          else go fuel rest
        else go fuel rest
      else go fuel rest

/-- countFormattingChars applied to a match list. -/
def countFormattingChars (ms : List GoStr) : Int :=
  sumBy (fun m =>
    if goHasPrefix m (gs "**") || goHasPrefix m (gs "__") then 4
    else if goHasPrefix m (gs "*") || goHasPrefix m (gs "_") then 2
    else if goHasPrefix m [Char.ofNat 96] then 2
    else 0) ms

/-- The byte length of the header match of #{1,6} then a space class
character at the start of the line, when it matches. -/
def headerMatchLen (line : GoStr) : Option Int :=
  let hs := line.takeWhile fun c => c = '#'
  if 1 ≤ hs.length ∧ hs.length ≤ 6 ∧
      reSpace (line.getD hs.length 'x') then
    some ((hs.length : Int) + 1)
  else none

/-- The byte length of the list-marker match: leading space class
characters, a bullet, one space class character. -/
def listMatchLen (line : GoStr) : Option Int :=
  let ws := line.takeWhile reSpace
  let bullet := line.getD ws.length 'x'
  if (bullet = '-' ∨ bullet = '*' ∨ bullet = '+') ∧
      reSpace (line.getD (ws.length + 1) 'x') then
    some ((ws.length : Int) + 2)
  else none

/-- CategorizeTokens.  The lineTokenMap is keyed by line index and only
its per-key lengths are read, so it is embedded as a per-line count. -/
def CategorizeTokens (lines : List GoStr) (tokens : List Token)
    (insights : List LineInsight) : CategoryBreakdown :=
  let lineStarts := calculateLineStarts lines
  let lineTokenCount := fun (i : Nat) =>
    (tokens.countP fun t =>
      findLineForPosition t.Position lineStarts = (i : Int) : Int)
  let fin := lines.enum.foldl (fun (st : Bool × Int × CategoryBreakdown)
      (p : Nat × GoStr) =>
    let inCodeBlock := st.1
    let codeBlockTokens := st.2.1
    let bd := st.2.2
    let ltc := lineTokenCount p.1
    if p.1 < insights.length ∧ (insights.getD p.1 default).IsEmpty then
      (inCodeBlock, codeBlockTokens,
        { bd with Whitespace := bd.Whitespace + ltc })
    else if goContainsB (goBytes p.2) [96, 96, 96] then
      (!inCodeBlock, codeBlockTokens,
        { bd with Formatting := bd.Formatting + ltc })
    else if inCodeBlock then
      (inCodeBlock, codeBlockTokens + ltc, bd)
    else
      let urlTokens0 := sumBy (fun u => ((goLen u : Int) + 3) / 4)
        (urlFindAll p.2)
      let formattingChars :=
        (match headerMatchLen p.2 with | some n => n | none => 0) +
        (match listMatchLen p.2 with | some n => n | none => 0) +
        countFormattingChars (boldFindAll p.2) +
        countFormattingChars (italicFindAll p.2) +
        4 * ((linkFindAll p.2).length : Int) +
        countFormattingChars (delimFindAll (Char.ofNat 96) p.2)
      let formattingTokens0 := formattingChars / 4
      let formattingTokens :=
        if formattingTokens0 > ltc then ltc / 4 else formattingTokens0
      let urlTokens := if urlTokens0 > ltc then ltc / 2 else urlTokens0
      let proseTokens0 := ltc - urlTokens - formattingTokens
      let triple :=
        if proseTokens0 < 0 then
          (ltc / 2, ltc / 4, ltc - ltc / 2 - ltc / 4)
        else (proseTokens0, urlTokens, formattingTokens)
      (inCodeBlock, codeBlockTokens,
        { bd with URLs := bd.URLs + triple.2.1,
                  Formatting := bd.Formatting + triple.2.2,
                  Prose := bd.Prose + triple.1 }))
    (false, 0, ⟨0, 0, 0, 0, 0, 0⟩)
  let bd := fin.2.2
  let withCode := { bd with CodeBlocks := fin.2.1 }
  { withCode with Total := withCode.Prose + withCode.CodeBlocks +
      withCode.URLs + withCode.Formatting + withCode.Whitespace }

/-- The percentile helper (part of detector_bidi.go). -/
def percentileAt (sorted : List Int) (p : GoFloat) : Int :=
  if sorted.length = 0 then 0
  else if p ≤ 0 then sorted.getD 0 0
  else if p ≥ 1 then sorted.getD (sorted.length - 1) 0
  else
    let index := p * ((sorted.length : Int) - 1 : Int)
    let lower := index.floor
    let upper := index.ceil
    if lower = upper then sorted.getD lower.toNat 0
    else
      let fraction := index - (lower : GoFloat)
      ratToGoInt ((sorted.getD lower.toNat 0 : GoFloat) * (1 - fraction) +
        (sorted.getD upper.toNat 0 : GoFloat) * fraction)

/-- CalculatePercentiles. -/
def CalculatePercentiles (insights : List LineInsight) : PercentileStats :=
  if insights.length = 0 then ⟨0, 0, 0, 0, 0, 0, 0, 0⟩
  else
    let tokenCounts := sortInts (insights.map fun li => li.Tokens)
    let totalTokens := sumBy (fun li => li.Tokens) insights
    let top10Index :=
      ratToGoInt ((insights.length : GoFloat) *
        (8106479329266893 / 9007199254740992))
    let top10Tokens :=
      sumBy (fun t => t) (tokenCounts.drop top10Index.toNat)
    { Min := tokenCounts.getD 0 0,
      Percentile25 := percentileAt tokenCounts (1 / 4),
      Median := percentileAt tokenCounts (1 / 2),
      Percentile75 := percentileAt tokenCounts (3 / 4),
      Percentile90 :=
        percentileAt tokenCounts (8106479329266893 / 9007199254740992),
      Percentile95 :=
        percentileAt tokenCounts (4278419646001971 / 4503599627370496),
      Max := tokenCounts.getD (tokenCounts.length - 1) 0,
      Top10Pct := if totalTokens > 0 then
          (top10Tokens : GoFloat) / (totalTokens : GoFloat) * 100
        else 0 }

/-- RenderTokenDensityMap. -/
def RenderTokenDensityMap (insights : List LineInsight)
    (totalTokens : Int) : TokenDensityMap :=
  if insights.length = 0 then ⟨[]⟩
  else
    let numBlocks := (insights.length + 49) / 50
    let blocks := (List.range numBlocks).map fun i =>
      let startIdx := i * 50
      let endIdx := min ((i + 1) * 50) insights.length
      let blockTokens := sumBy (fun li => li.Tokens)
        ((insights.drop startIdx).take (endIdx - startIdx))
      { StartLine := (startIdx : Int) + 1, EndLine := (endIdx : Int),
        Tokens := blockTokens,
        Percentage := if totalTokens > 0 then
            (blockTokens : GoFloat) / (totalTokens : GoFloat) * 100
          else 0,
        IsHot := false }
    let maxTokens := blocks.foldl
      (fun acc (b : DensityBlock) => if b.Tokens > acc then b.Tokens else acc) 0
    let threshold := (maxTokens : GoFloat) * (3602879701896397 / 4503599627370496)
    ⟨blocks.map fun b =>
      if (b.Tokens : GoFloat) ≥ threshold then { b with IsHot := true }
      else b⟩

/-- CalculateEfficiencyScore. -/
def CalculateEfficiencyScore (totalTokens totalChars wasteTokens : Int)
    (avgRatio : GoFloat) : Int :=
  if totalTokens = 0 ∨ totalChars = 0 then 0
  else
    let idealRatio : GoFloat := 1 / 4
    let ratioScore0 : GoFloat :=
      if avgRatio > idealRatio then 100 * (idealRatio / avgRatio) else 100
    let ratioScore := if ratioScore0 > 100 then 100 else ratioScore0
    let wastePct := (wasteTokens : GoFloat) / (totalTokens : GoFloat) * 100
    let wasteScore := 100 - wastePct * 2
    let score0 := ratioScore * (5404319552844595 / 9007199254740992) +
      wasteScore * (3602879701896397 / 9007199254740992)
    let score1 := if score0 < 0 then 0 else score0
    let score := if score1 > 100 then 100 else score1
    ratToGoInt score

/-- AnalyzeFile, parameterized by the client-side tokenizer, the
skeleton, NFC, NFKC and IsLetter collaborators and the three map
enumeration orders (URL detector, repeated-phrase detector, and the
discarded findRepeatedPhrases result inside detectPatterns). -/
def analyzeFile (tok : GoStr → Except String (List Token))
    (skeleton : Char → GoStr) (nfc nfkc : GoStr → GoStr)
    (isLetter : Char → Bool) (ordU ordR ordP : List Nat)
    (content : GoStr) (totalTokens : Int) : Except String Analysis :=
  let lines := goSplitLines content
  match tok content with
  | .error e => .error e
  | .ok tokens =>
    let lineInsights := mapTokensToLines content lines tokens
    let totalChars := (goLen content : Int)
    let avgRatio : GoFloat :=
      if totalChars > 0 then
        (tokens.length : GoFloat) / (totalChars : GoFloat)
      else 0
    let ctx : DetectionContext :=
      ⟨content, lines, tokens, lineInsights, totalTokens⟩
    let states := runAllDetectors emptyDetectorStates ctx skeleton nfc
      nfkc isLetter ordU ordR
    let llmSafetyAnalysis := extractSafetyFromIssues states.emoji
      states.invisible states.numberFormat states.oov states.bidi
      states.confusable states.encoding states.normalization
      states.glitch states.contextPlacement states.ambiguity
    let advancedPatterns : AdvancedPatterns :=
      ⟨states.url.map fun u =>
        ⟨u.URL, u.Length, u.Occurrences, u.LineNumbers, u.TokenCost⟩,
        states.consecutiveEmpty, states.longLine⟩
    let patterns0 := detectPatterns lineInsights avgRatio lines tokens ordP
    let patterns := { patterns0 with RepeatedPhrases := states.repeatedPhrase }
    let categoryBreakdown := CategorizeTokens lines tokens lineInsights
    let percentiles := CalculatePercentiles lineInsights
    let densityMap := RenderTokenDensityMap lineInsights totalTokens
    let recommendations := generateEnhancedRecommendations patterns
      advancedPatterns categoryBreakdown totalTokens lines llmSafetyAnalysis
    let wasteTokens := patterns.EmptyLineTokens + patterns.WhitespaceTokens
    let potentialSavings := sumBy (fun r => r.EstimatedSave) recommendations
    let quickWins := recommendations.filter fun r => r.IsQuickWin
    let efficiencyScore := CalculateEfficiencyScore totalTokens totalChars
      wasteTokens avgRatio
    .ok { TotalTokens := totalTokens,
          TotalLines := (lines.length : Int),
          TotalChars := totalChars,
          AvgTokensPerLine :=
            (totalTokens : GoFloat) / (lines.length : GoFloat),
          EfficiencyScore := efficiencyScore,
          LineInsights := lineInsights,
          Patterns := patterns,
          AdvancedPatterns := advancedPatterns,
          CategoryBreakdown := categoryBreakdown,
          Percentiles := percentiles,
          DensityMap := densityMap,
          LLMSafetyAnalysis := llmSafetyAnalysis,
          Recommendations := recommendations,
          QuickWins := quickWins,
          PotentialSavings := potentialSavings,
          WasteTokens := wasteTokens }

/-- The normalization detector finds nothing on the single empty line
when the collaborators fix the empty string. -/
theorem normalizationDetect_empty (nfc nfkc : GoStr → GoStr)
    (hnfc : nfc [] = []) (hnfkc : nfkc [] = []) :
    normalizationDetect nfc nfkc (goSplitLines []) = [] := by
  rw [show goSplitLines ([] : GoStr) = [[]] from rfl]
  unfold normalizationDetect
  rw [show ([[]] : List GoStr).enum = [((0 : Nat), ([] : GoStr))] from rfl]
  rw [List.map_cons, List.map_nil]
  unfold normalizationDetectLine
  dsimp only
  rw [if_neg (by simp [hnfc]), if_neg (by simp [hnfkc])]
  rfl

/-- C7: AnalyzeFile on empty content with zero tokens succeeds and
returns an analysis with one line, zero issues of every kind, no
recommendations, efficiency score 0 and reliability score 100, for
every tokenizer that maps the empty string to no tokens and all
normalization collaborators that fix the empty string. -/
theorem analyzeFile_empty (tok : GoStr → Except String (List Token))
    (skeleton : Char → GoStr) (nfc nfkc : GoStr → GoStr)
    (isLetter : Char → Bool)
    (htok : tok [] = .ok []) (hnfc : nfc [] = []) (hnfkc : nfkc [] = []) :
    ∃ a : Analysis,
      analyzeFile tok skeleton nfc nfkc isLetter [] [] [] [] 0 = .ok a ∧
      a.TotalLines = 1 ∧
      a.LLMSafetyAnalysis.TotalIssues = 0 ∧
      a.EfficiencyScore = 0 ∧
      a.LLMSafetyAnalysis.ReliabilityScore = 100 ∧
      a.Recommendations = [] ∧ a.QuickWins = [] ∧
      a.Patterns.RepeatedPhrases = [] ∧
      a.AdvancedPatterns = ⟨[], [], []⟩ := by
  have hnorm := normalizationDetect_empty nfc nfkc hnfc hnfkc
  have hconf : confusablesDetect skeleton (goSplitLines []) = [] := rfl
  have henc : encodingDetect isLetter (goSplitLines []) = [] := rfl
  unfold analyzeFile
  rw [htok]
  dsimp only [runAllDetectors]
  simp only [hnorm, hconf, henc]
  exact ⟨_, rfl, by decide, by decide, by decide, by decide, by decide,
    by decide, by decide, by decide⟩

/-- Witness for C7 with the trivial tokenizer and identity
collaborators. -/
theorem analyzeFile_empty_witness :
    ((fun _ : GoStr => (Except.ok [] : Except String (List Token))) [] =
        Except.ok [] ∧
      (id ([] : GoStr) = []) ∧ (id ([] : GoStr) = [])) ∧
    ∃ a : Analysis,
      analyzeFile (fun _ => .ok []) (fun c => [c]) id id
        (fun _ => false) [] [] [] [] 0 = .ok a ∧
      a.TotalLines = 1 ∧
      a.LLMSafetyAnalysis.TotalIssues = 0 ∧
      a.EfficiencyScore = 0 ∧
      a.LLMSafetyAnalysis.ReliabilityScore = 100 ∧
      a.Recommendations = [] ∧ a.QuickWins = [] ∧
      a.Patterns.RepeatedPhrases = [] ∧
      a.AdvancedPatterns = ⟨[], [], []⟩ :=
  ⟨⟨rfl, rfl, rfl⟩,
   analyzeFile_empty (fun _ => .ok []) (fun c => [c]) id id
     (fun _ => false) rfl rfl rfl⟩

end CCToken
